import Mathlib

/-! C-Dogs SDL: event queue, event dispatcher and bullet physics

A shallow embedding of `src/cdogs/handle_game_events.cpp`, `src/cdogs/bullet_class.cpp`
and `src/cdogs/pickup.cpp`.

Conventions of the embedding
* C `float` values are exact rationals (`ℚ`); C `int` values are `Int` (bit flags are `Nat`).
* A `CArray` is a `List`; a pointer into a `CArray` is an index into the list.
* A `NULL` pointer is `none`; dereferencing it is the fault `Fault.nullDeref`.
* The global registries (`gMobObjs`, `gActors`, `gPickups`, `gGameEvents`, ...) are the
  fields of `World`, threaded through every function that touches them.
* Calls into subsystems whose code is not part of these sources (sound, damage, weapon
  firing, particles, spawners) are recorded, in call order, in `World.effects`.
* Functions, macros and tables that the sources call but do not define are the fields of
  `Env`.
-/

namespace CDogs

/-! ## Plain data -/

/-- The C `struct vec2` (two floats). -/
structure Vec2 where
  x : ℚ
  y : ℚ
deriving DecidableEq, Repr

/-- The C `struct vec2i` (two ints). -/
structure Vec2i where
  x : Int
  y : Int
deriving DecidableEq, Repr

/-- The vector `svec2_zero()`. -/
def svec2_zero : Vec2 := ⟨0, 0⟩

/-- The vector `svec2i_zero()`. -/
def svec2i_zero : Vec2i := ⟨0, 0⟩

/-- The component-wise sum `svec2_add(a, b)`. -/
def svec2_add (a b : Vec2) : Vec2 := ⟨a.x + b.x, a.y + b.y⟩

/-- The component-wise difference `svec2_subtract(a, b)`. -/
def svec2_subtract (a b : Vec2) : Vec2 := ⟨a.x - b.x, a.y - b.y⟩

/-- The scaled vector `svec2_scale(v, s)`. -/
def svec2_scale (v : Vec2) (s : ℚ) : Vec2 := ⟨v.x * s, v.y * s⟩

/-- The squared distance `svec2_distance_squared(a, b)`. -/
def svec2_distance_squared (a b : Vec2) : ℚ :=
  (a.x - b.x) * (a.x - b.x) + (a.y - b.y) * (a.y - b.y)

/-- The component-wise sum `svec2i_add(a, b)`. -/
def svec2i_add (a b : Vec2i) : Vec2i := ⟨a.x + b.x, a.y + b.y⟩

/-- The constant `TILE_WIDTH` of `tile_class.h`. -/
def TILE_WIDTH : Int := 16

/-- The constant `TILE_HEIGHT` of `tile_class.h`. -/
def TILE_HEIGHT : Int := 12

/-- The constant `SPECIAL_LOCK` of `bullet_class.cpp`. -/
def SPECIAL_LOCK : Int := 12

/-- The constant `WALL_MARK_Z` of `bullet_class.cpp`. -/
def WALL_MARK_Z : Int := 5

/-- The enum `HitType`. -/
inductive HitType where
  | HIT_NONE
  | HIT_WALL
  | HIT_OBJECT
  | HIT_FLESH
deriving DecidableEq, Repr

/-- The enum `ThingKind`; only the kinds named in the sources are distinguished. -/
inductive ThingKind where
  | KIND_CHARACTER
  | KIND_MOBILEOBJECT
  | KIND_OBJECT
  | KIND_PICKUP
  | KIND_OTHER
deriving DecidableEq, Repr

/-- The fields of the C `Thing` that the sources read or write. -/
structure Thing where
  kind : ThingKind
  id : Int
  Pos : Vec2
  LastPos : Vec2
  Vel : Vec2
  size : Vec2i
  flags : Nat
  SoundLock : Int
deriving DecidableEq, Repr

/-- The `Falling` sub-structure of a `BulletClass`. -/
structure Falling where
  GravityFactor : ℚ
  FallsDown : Bool
  DestroyOnDrop : Bool
  Bounces : Bool
  DropGuns : List String
deriving DecidableEq, Repr

/-- The `HitSound` sub-structure of a `BulletClass` (`NULL` strings are `none`). -/
structure HitSounds where
  Object : Option String
  Flesh : Option String
  Wall : Option String
deriving DecidableEq, Repr

/-- The `Trail` sub-structure of a `BulletClass`. -/
structure Trail where
  P : Option String
  Width : ℚ
  TicksPerEmit : Int
deriving DecidableEq, Repr

/-- The C `BulletClass`.  Particle classes and weapon classes are referred to by name;
a `NULL` particle class is `none`; a `CArray` of guns is a list of weapon names. -/
structure BulletClass where
  Name : String
  Delay : Int
  SpeedLow : ℚ
  SpeedHigh : ℚ
  SpeedScale : Bool
  Friction : ℚ
  RangeLow : Int
  RangeHigh : Int
  Power : Int
  Mass : ℚ
  Size : Vec2i
  Special : Int
  HurtAlways : Bool
  Persists : Bool
  Spark : Option String
  OutOfRangeSpark : Option String
  WallMark : Option String
  HitSound : HitSounds
  WallBounces : Bool
  HitsObjects : Bool
  Falling : Falling
  SeekFactor : Int
  Erratic : Bool
  Trail : Trail
  OutOfRangeGuns : List String
  HitGuns : List String
  ProximityGuns : List String
deriving DecidableEq, Repr

/-- The fields of the C `WeaponClass` that the dispatcher reads.  `Bullet` is the name of
the bullet class the C pointer refers to; `HasMuzzle` is the value of
`WeaponClassHasMuzzle(wc)`. -/
structure WeaponClass where
  name : String
  Bullet : Option String
  AngleOffset : ℚ
  SpreadCount : Int
  SpreadWidth : ℚ
  Recoil : ℚ
  ElevationLow : Int
  ElevationHigh : Int
  HasMuzzle : Bool
  MuzzleFlash : Option String
  Sound : Option String
  ShakeAmount : Int
  ShakeCameraSubjectOnly : Bool
  Brass : Option String
  ReloadLead : Int
deriving DecidableEq, Repr

/-- The C `TMobileObject` (a projectile).  `bulletClass` is the class the C pointer
refers to. -/
structure TMobileObject where
  UID : Int
  ActorUID : Int
  bulletClass : BulletClass
  thing : Thing
  z : ℚ
  dz : ℚ
  count : Int
  range : Int
  flags : Nat
  specialLock : Int
  isInUse : Bool
deriving DecidableEq, Repr

/-- The fields of the C `TActor` that the sources read or write. -/
structure TActor where
  uid : Int
  isInUse : Bool
  dead : Bool
  PlayerUID : Int
  Pos : Vec2
  thing : Thing
  anim : Int
  direction : Int
  PickupAll : Bool
  flags : Nat
  ammo : List Int
  gunState : Int
deriving DecidableEq, Repr

/-- The fields of the C `Pickup` that the sources read or write. -/
structure Pickup where
  UID : Int
  pickupClass : String
  thing : Thing
  IsRandomSpawned : Bool
  PickedUp : Bool
  SpawnerUID : Int
  isInUse : Bool
deriving DecidableEq, Repr

/-- The fields of the C `TObject` that the sources read or write. -/
structure TObject where
  uid : Int
  counter : Int
  thing : Thing
deriving DecidableEq, Repr

/-- The fields of the C `PlayerData` that the dispatcher reads or writes. -/
structure PlayerData where
  UID : Int
  Lives : Int
  IsLocal : Bool
deriving DecidableEq, Repr

/-! ## Events -/

/-- The payload `NAddBullet` of an AddBullet event. -/
structure NAddBullet where
  UID : Int
  BulletClass : String
  MuzzlePos : Vec2
  MuzzleHeight : Int
  Angle : ℚ
  Elevation : Int
  Flags : Nat
  ActorUID : Int
deriving DecidableEq, Repr

/-- The payload `NBulletBounce` of a BulletBounce event. -/
structure NBulletBounce where
  UID : Int
  HitType : HitType
  Spark : Bool
  WallMark : Bool
  HitSound : Bool
  Pos : Vec2
  BouncePos : Vec2
  Vel : Vec2
deriving DecidableEq, Repr

/-- The payload `AddParticle` of an AddParticle event (`Class` is the particle class the C
pointer refers to, by name). -/
structure AddParticle where
  Class : Option String
  Pos : Vec2
  Z : ℚ
  DZ : ℚ
  Angle : ℚ
  Text : String
deriving DecidableEq, Repr

/-- The payload `NAddPickup` of an AddPickup event. -/
structure NAddPickup where
  UID : Int
  PickupClass : String
  IsRandomSpawned : Bool
  SpawnerUID : Int
  ThingFlags : Nat
  Pos : Vec2
deriving DecidableEq, Repr

/-- The payload `NGunFire` of a GunFire event. -/
structure NGunFire where
  Gun : String
  MuzzlePos : Vec2
  Z : Int
  Angle : ℚ
  Flags : Nat
  ActorUID : Int
  Sound : Bool
deriving DecidableEq, Repr

/-- The tagged union `GameEvent.u` together with its discriminant `GameEvent.Type`: one
constructor per event kind whose arm works on the actors, the projectiles, the pickups, the
tiles or the event queue.  Every other kind is `other`, with the number of the kind: the
kinds whose arm is one call of a function outside the sources (PLAYER_DATA, THING_DAMAGE,
MAP_OBJECT_ADD, MAP_OBJECT_REMOVE, ACTOR_ADD, ACTOR_MOVE, ACTOR_SWITCH_GUN,
ACTOR_REPLACE_GUN, ACTOR_MELEE, PARTICLE_REMOVE), and the kinds whose arm is written out in
`HandleGameEvent` but works on the configuration, the camera and the HUD, the mission, the
triggers or the explored tiles (PLAYER_REMOVE, CONFIG, SCORE, SOUND_AT, SET_MESSAGE,
GAME_START, GAME_BEGIN, GUN_RELOAD, TRIGGER, EXPLORE_TILES, OBJECTIVE_UPDATE, ADD_KEYS,
MISSION_COMPLETE, MISSION_INCOMPLETE, MISSION_PICKUP, MISSION_END).  The arms of the kinds
in `other` are not translated: `Env.HandleOther` stands for them. -/
inductive Payload where
  | ACTOR_STATE (UID : Int) (State : Int)
  | ACTOR_DIR (UID : Int) (Dir : Int)
  | ACTOR_SLIDE (UID : Int) (Vel : Vec2)
  | ACTOR_IMPULSE (UID : Int) (Vel : Vec2) (Pos : Vec2)
  | ACTOR_PICKUP_ALL (UID : Int) (PickupAll : Bool)
  | ACTOR_HEAL (UID : Int) (PlayerUID : Int) (Amount : Int) (IsRandomSpawned : Bool)
  | ACTOR_ADD_AMMO (UID : Int) (PlayerUID : Int) (AmmoId : Nat) (Amount : Int)
      (IsRandomSpawned : Bool)
  | ACTOR_USE_AMMO (UID : Int) (PlayerUID : Int) (AmmoId : Nat) (Amount : Int)
  | ACTOR_DIE (UID : Int)
  | ADD_PICKUP (ap : NAddPickup)
  | REMOVE_PICKUP (UID : Int) (SpawnerUID : Int)
  | BULLET_BOUNCE (bb : NBulletBounce)
  | REMOVE_BULLET (UID : Int)
  | GUN_FIRE (gf : NGunFire)
  | GUN_STATE (ActorUID : Int) (State : Int)
  | SCREEN_SHAKE (Amount : Int) (CameraSubjectOnly : Bool) (ActorUID : Int)
  | ADD_BULLET (add : NAddBullet)
  | ADD_PARTICLE (ap : AddParticle)
  | RESCUE_CHARACTER (UID : Int)
  | TILE_SET (Pos : Vec2i) (ClassName : String) (ClassAltName : String) (RunLength : Int)
  | other (kind : Nat)
deriving DecidableEq, Repr

/-- A pointer `Thing *` to the thing of a registry entry: the kind of the entry and its slot
(the `id` of the thing). -/
structure ThingRef where
  kind : ThingKind
  id : Nat
deriving DecidableEq, Repr

/-- One call that `OverlapThings` makes to a callback: `HitItemFunc(ti, data, colA, colB,
normal)` for a thing on the swept path, or `HitWallFunc(tilePos, data, col, normal)` for a
wall tile that passes `CheckWall`. -/
inductive Candidate where
  | thing (ti : ThingRef) (colA : Vec2) (colB : Vec2) (normal : Vec2)
  | wall (tilePos : Vec2i) (col : Vec2) (normal : Vec2)
deriving DecidableEq, Repr

/-- The C `GameEvent`: the countdown `Delay` and the tagged payload. -/
structure GameEvent where
  Delay : Int
  u : Payload
deriving DecidableEq, Repr

/-- A call into a subsystem whose code is outside the sources, with its arguments. -/
inductive Effect where
  | SoundPlayAt (sound : Option String) (pos : Vec2)
  | SoundPlay (sound : String)
  | PowerupSpawnerRemoveOne (ammoId : Option Nat)
  | ParticleAdd (ap : AddParticle)
  | Damage (vel : Vec2) (power : Int) (mass : ℚ) (flags : Nat) (source : Option Nat)
      (targetKind : ThingKind) (targetUID : Int) (special : Int)
  | WeaponClassFire (wc : String) (pos : Vec2) (z : ℚ) (angle : ℚ) (flags : Nat)
      (actorUID : Int)
  | OverlapThings (pos : Vec2)
  | PlacePlayer (playerUID : Int) (pos : Vec2)
  | MapRemoveThing (kind : ThingKind) (id : Int)
  | MapTryMoveThing (kind : ThingKind) (id : Int) (pos : Vec2)
  | AddTrail (mobObjUID : Int) (ticks : Int)
  | WeaponClassAddBrass (wc : String) (direction : Int) (pos : Vec2)
  | ScreenShakeAdd (amount : Int)
deriving DecidableEq, Repr

/-- What stops a run of the code: a dereferenced `NULL` pointer, an index outside its
`CArray`, or a failed `CASSERT`. -/
inductive Fault where
  | nullDeref
  | outOfBounds
  | assertFailed
deriving DecidableEq, Repr

/-! ## World state -/

/-- The fields of the C `Tile` that the sources read or write: the two tile classes, by
name, and the things standing on the tile. -/
structure Tile where
  Class : Option String
  ClassAlt : Option String
  things : List (ThingKind × Int)
deriving DecidableEq, Repr

/-- The C `Map` (`gMap`): its size and its tiles in row-major order. -/
structure Map where
  Size : Vec2i
  tiles : List Tile
deriving DecidableEq, Repr

/-- The C `BulletClasses` (`gBulletClasses`). -/
structure BulletClasses where
  Classes : List BulletClass
  CustomClasses : List BulletClass
deriving DecidableEq, Repr

/-- The global state the embedded functions read and write.  `IsClient` is
`gCampaign.IsClient`, `SoundFootsteps` the configuration value `Sound.Footsteps`,
`CameraFollowActorUID` is `camera->FollowActorUID`, `sMobObjUIDs` the UID counter behind
`MobObjsObjsGetNextUID`; `randCalls` counts the calls of `rand()` made so far; `effects` is
the trace of calls into outside subsystems. -/
structure World where
  gGameEvents : List GameEvent
  gMobObjs : List TMobileObject
  gActors : List TActor
  gPickups : List Pickup
  gObjs : List TObject
  gPlayerDatas : List PlayerData
  gBulletClasses : BulletClasses
  gMap : Map
  IsClient : Bool
  SoundFootsteps : Bool
  CameraFollowActorUID : Int
  sMobObjUIDs : Int
  randCalls : Nat
  effects : List Effect
deriving DecidableEq, Repr

/-! ## What the sources use but do not define -/

/-- Functions, constants and tables that the embedded code calls and whose definitions are
outside the sources.  Each field stands for the C function or macro of the same name. -/
structure Env where
  /-- The value returned by the `k`-th call of `rand()` (counting from 0). -/
  rand : Nat → Nat
  RAND_MAX : Nat
  /-- The `Delay` that `GameEventNew` gives a new event. -/
  GameEventNewDelay : Int
  GameEventsClear : List GameEvent → List GameEvent
  MobObjGetByUID : List TMobileObject → Int → Option Nat
  ActorGetByUID : List TActor → Int → Option Nat
  ObjGetByUID : List TObject → Int → Option Nat
  PlayerDataGetByUID : List PlayerData → Int → Option Nat
  AIGetClosestPlayer : List TActor → Vec2 → Option Nat
  ThingInit : Int → ThingKind → Vec2i → Nat → Thing
  ThingUpdate : Thing → Int → Thing
  /-- The call `MapTryMoveThing(&gMap, &thing, pos)`: its result, and the thing and the map
  it leaves behind. -/
  MapTryMoveThing : Map → Thing → Vec2 → Bool × Thing × Map
  MapRemoveThing : Map → Thing → Thing × Map
  AnimationGetActorAnimation : Int → Int
  ActorHeal : TActor → Int → TActor
  ActorAddAmmo : TActor → Nat → Int → TActor
  ActorDestroy : TActor → TActor
  WeaponSetState : TActor → Int → TActor
  AmmoName : Nat → String
  AmmoIsLow : Nat → Int → Bool
  StrPickupClassExists : String → Bool
  Vec2FromRadians : ℚ → Vec2
  RadiansToDirection : ℚ → Int
  svec2_length : Vec2 → ℚ
  svec2_is_zero : Vec2 → Bool
  svec2_angle : Vec2 → ℚ
  sqrtf : ℚ → ℚ
  MPI_2 : ℚ
  SOUND_LOCK_THING : Int
  Vec2ToTile : Vec2 → Vec2i
  MapIsTileIn : Map → Vec2i → Bool
  /-- The value of `TileIsOpaque(MapGetTile(&gMap, pos))`. -/
  TileIsOpaque : Map → Vec2i → Bool
  /-- The value of `TileHasCharacter(MapGetTile(&gMap, pos))`. -/
  TileHasCharacter : Map → Vec2i → Bool
  /-- The pointer `MapGetTile(&gMap, pos)`: the index of the tile in the tiles of the map, or
  `NULL`. -/
  MapGetTile : Map → Vec2i → Option Nat
  /-- The pointer `StrTileClass(name)`: the tile class, by name, or `NULL`. -/
  StrTileClass : String → Option String
  /-- The calls that `OverlapThings(&obj->thing, pos, size, params, HitItemFunc, &data,
  CheckWall, HitWallFunc, &data)` makes to its two callbacks, in call order. -/
  OverlapThings : World → Thing → Vec2 → List Candidate
  /-- The value of `CanHit(flags, uid, ti)`. -/
  CanHit : Nat → Int → ThingRef → Bool
  HasHitSound : Nat → Int → ThingKind → Int → Int → Bool → Bool
  AIGetClosestEnemy : World → Vec2 → TActor → Nat → Option Nat
  GetWallBouncePosVel : Vec2 → Vec2 → Vec2 → Vec2 → Vec2 × Vec2
  StrWeaponClass : String → Option WeaponClass
  BULLET_Z : ℚ
  Z_FACTOR : ℚ
  AMMO_SPAWNER_RESPAWN_TICKS : Int
  PICKUP_SIZE : Vec2i
  FLAGS_HURTALWAYS : Nat
  FLAGS_PRISONER : Nat
  FLAGS_FOLLOWER : Nat
  FLAGS_RESCUED : Nat
  /-- Whether `CASSERT` is compiled in (a debug build). -/
  CASSERT_enabled : Bool
  /-- The arm of `HandleGameEvent` for an event kind of `Payload.other`, which is not
  translated. -/
  HandleOther : Nat → World → Except Fault World

/-- Records one call into an outside subsystem. -/
def World.emit (w : World) (x : Effect) : World :=
  { w with effects := w.effects ++ [x] }

/-- One call of `rand()`. -/
def rand (env : Env) (w : World) : Nat × World :=
  (env.rand w.randCalls, { w with randCalls := w.randCalls + 1 })

/-- Modelled from the spec: the macro `RAND_FLOAT(low, high)`, defined outside the sources,
rolls a value of the range from `low` to `high` out of one `rand()` value:
`low + rand() / RAND_MAX * (high - low)`. -/
def RAND_FLOAT (env : Env) (low high : ℚ) (w : World) : ℚ × World :=
  let r := rand env w
  (low + (r.1 : ℚ) / (env.RAND_MAX : ℚ) * (high - low), r.2)

/-- Modelled from the spec: the macro `RAND_INT(low, high)`, defined outside the sources,
rolls a value of the range from `low` to `high`: `low` itself when `low == high` (no call
of `rand()`), else `low + rand() % (high - low)`. -/
def RAND_INT (env : Env) (low high : Int) (w : World) : Int × World :=
  if low = high then (low, w)
  else
    let r := rand env w
    (low + Int.tmod (r.1 : Int) (high - low), r.2)

/-- Modelled from the spec: `GameEventsEnqueue(&gGameEvents, e)`, defined outside the
sources, appends the event to the ordered collection. -/
def GameEventsEnqueue (w : World) (e : GameEvent) : World :=
  { w with gGameEvents := w.gGameEvents ++ [e] }

/-- The call `GameEventNew(type)` followed by the assignments to the payload fields. -/
def GameEventNew (env : Env) (u : Payload) : GameEvent :=
  { Delay := env.GameEventNewDelay, u := u }

/-- The macro `CASSERT(cond, msg)`: stops a debug build when `cond` is false. -/
def CASSERT (env : Env) (cond : Bool) : Except Fault Unit :=
  if env.CASSERT_enabled && !cond then .error .assertFailed else .ok ()

/-- The C cast `(int) f` of a float: truncation towards zero. -/
def floatToInt (q : ℚ) : Int := if 0 ≤ q then ⌊q⌋ else ⌈q⌉

/-- Writes `x` to slot `i` of a `CArray`, after a `CArrayPushBack` when `i` is the new
last index. -/
def storeAt {α : Type} (l : List α) (i : Nat) (x : α) : List α :=
  if i < l.length then l.set i x else l ++ [x]

/-- The call `MapTryMoveThing(&gMap, &thing, pos)`: its result, the thing it leaves, and the
world with the map it leaves. -/
def MapTryMoveThing (env : Env) (w : World) (t : Thing) (pos : Vec2) : Bool × Thing × World :=
  let r := env.MapTryMoveThing w.gMap t pos
  (r.1, r.2.1, { w with gMap := r.2.2, effects := w.effects ++ [.MapTryMoveThing t.kind t.id pos] })

/-- The call `MapRemoveThing(&gMap, &thing)`: the thing it leaves, and the world with the
map it leaves. -/
def MapRemoveThing (env : Env) (w : World) (t : Thing) : Thing × World :=
  let r := env.MapRemoveThing w.gMap t
  (r.1, { w with gMap := r.2, effects := w.effects ++ [.MapRemoveThing t.kind t.id] })

/-! ## `bullet_class.cpp`: classes, `BulletAdd`, `BulletBounce`, `BulletDestroy` -/

/-- `StrBulletClass`: the custom classes are searched first, then the built-in ones; `NULL`
(after a failed `CASSERT`) when the name is empty or unknown. -/
def StrBulletClass (b : BulletClasses) (s : String) : Option BulletClass :=
  if s.length = 0 then none
  else
    match b.CustomClasses.find? (fun c => s == c.Name) with
    | some c => some c
    | none => b.Classes.find? (fun c => s == c.Name)

/-- `AddTrail`: nothing without a trail particle class, else one emitter call. -/
def AddTrail (obj : TMobileObject) (ticks : Int) (w : World) : World :=
  match obj.bulletClass.Trail.P with
  | none => w
  | some _ => w.emit (.AddTrail obj.UID ticks)

/-- `BulletAdd`: the first slot of `gMobObjs` that is not in use, or a new slot pushed at
the back, is zeroed and filled from the event and the bullet class. -/
def BulletAdd (env : Env) (add : NAddBullet) (w : World) : Except Fault World :=
  let pos := add.MuzzlePos
  let i := w.gMobObjs.findIdx (fun m => !m.isInUse)
  match StrBulletClass w.gBulletClasses add.BulletClass with
  | none => .error .nullDeref
  | some bc =>
    let thing := env.ThingInit i .KIND_MOBILEOBJECT bc.Size 0
    let speed := RAND_FLOAT env bc.SpeedLow bc.SpeedHigh w
    let vel0 := svec2_scale (env.Vec2FromRadians add.Angle) speed.1
    let vel : Vec2 :=
      if bc.SpeedScale then ⟨vel0.x, vel0.y * ((TILE_WIDTH : ℚ) / (TILE_HEIGHT : ℚ))⟩ else vel0
    let range := RAND_INT env bc.RangeLow bc.RangeHigh speed.2
    let w2 := range.2
    let flags := if bc.HurtAlways then add.Flags ||| env.FLAGS_HURTALWAYS else add.Flags
    let moved := MapTryMoveThing env w2 { thing with Vel := vel } pos
    let obj : TMobileObject :=
      { UID := add.UID, ActorUID := add.ActorUID, bulletClass := bc, thing := moved.2.1,
        z := (add.MuzzleHeight : ℚ), dz := (add.Elevation : ℚ), count := 0, range := range.1,
        flags := flags, specialLock := 0, isInUse := true }
    .ok { moved.2.2 with gMobObjs := storeAt moved.2.2.gMobObjs i obj }

/-- `PlayHitSound`. -/
def PlayHitSound (h : HitSounds) (t : HitType) (pos : Vec2) (w : World) : World :=
  match t with
  | .HIT_NONE => w
  | .HIT_WALL => w.emit (.SoundPlayAt h.Wall pos)
  | .HIT_OBJECT => w.emit (.SoundPlayAt h.Object pos)
  | .HIT_FLESH => w.emit (.SoundPlayAt h.Flesh pos)

/-- `BulletBounce`: replays a bounce on the projectile with the event's UID. -/
def BulletBounce (env : Env) (bb : NBulletBounce) (w : World) : Except Fault World :=
  match env.MobObjGetByUID w.gMobObjs bb.UID with
  | none => .ok w
  | some i =>
    match w.gMobObjs[i]? with
    | none => .error .outOfBounds
    | some o =>
      if !o.isInUse then .ok w
      else
        let bouncePos := bb.BouncePos
        let w1 := if bb.HitSound then PlayHitSound o.bulletClass.HitSound bb.HitType bouncePos w
          else w
        let w2 :=
          if bb.Spark && o.bulletClass.Spark.isSome then
            GameEventsEnqueue w1 (GameEventNew env (.ADD_PARTICLE
              { Class := o.bulletClass.Spark, Pos := bouncePos, Z := o.z, DZ := 0, Angle := 0,
                Text := "" }))
          else w1
        let w4 :=
          if bb.WallMark && o.bulletClass.WallMark.isSome then
            let r := RAND_FLOAT env (-(WALL_MARK_Z : ℚ)) (WALL_MARK_Z : ℚ) w2
            GameEventsEnqueue r.2 (GameEventNew env (.ADD_PARTICLE
              { Class := o.bulletClass.WallMark, Pos := bouncePos,
                Z := o.z + (floatToInt r.1 : ℚ), DZ := 0, Angle := 0, Text := "" }))
          else w2
        let moved := MapTryMoveThing env w4 o.thing bb.Pos
        let o1 := { o with thing := { moved.2.1 with Vel := bb.Vel } }
        .ok { moved.2.2 with gMobObjs := moved.2.2.gMobObjs.set i o1 }

/-- `BulletDestroy` on the projectile in slot `i`. -/
def BulletDestroy (env : Env) (i : Nat) (o : TMobileObject) (w : World) :
    Except Fault World :=
  match CASSERT env o.isInUse with
  | .error f => .error f
  | .ok _ =>
    let w1 := AddTrail o 0 w
    let removed := MapRemoveThing env w1 o.thing
    .ok { removed.2 with
      gMobObjs := removed.2.gMobObjs.set i { o with thing := removed.1, isInUse := false } }

/-! ## `pickup.cpp` -/

/-- `PickupGetByUID`: the first slot of `gPickups` whose UID matches, in use or not. -/
def PickupGetByUID (pickups : List Pickup) (uid : Int) : Option Nat :=
  let i := pickups.findIdx (fun p => p.UID == uid)
  if i < pickups.length then some i else none

/-- `PickupDestroy`. -/
def PickupDestroy (env : Env) (uid : Int) (w : World) : Except Fault World :=
  match PickupGetByUID w.gPickups uid with
  | none => .error .nullDeref
  | some i =>
    match w.gPickups[i]? with
    | none => .error .outOfBounds
    | some p =>
      match CASSERT env p.isInUse with
      | .error f => .error f
      | .ok _ =>
        let removed := MapRemoveThing env w p.thing
        .ok { removed.2 with
          gPickups := removed.2.gPickups.set i { p with thing := removed.1, isInUse := false } }

/-- The first statement of `PickupAdd`:
`p = PickupGetByUID(ap.UID); if (p != NULL && p->isInUse) PickupDestroy(ap.UID);`. -/
def PickupAdd_destroyExisting (env : Env) (uid : Int) (w : World) : Except Fault World :=
  match PickupGetByUID w.gPickups uid with
  | none => .ok w
  | some j =>
    match w.gPickups[j]? with
    | none => .error .outOfBounds
    | some p => if p.isInUse then PickupDestroy env uid w else .ok w

/-- `PickupAdd`: an in-use pickup with the same UID is destroyed first; then the first slot
of `gPickups` that is not in use, or a new slot pushed at the back, is zeroed and filled. -/
def PickupAdd (env : Env) (ap : NAddPickup) (w : World) : Except Fault World :=
  match PickupAdd_destroyExisting env ap.UID w with
  | .error f => .error f
  | .ok w1 =>
    let i := w1.gPickups.findIdx (fun pu => !pu.isInUse)
    if !env.StrPickupClassExists ap.PickupClass then .error .nullDeref
    else
      let thing := env.ThingInit i .KIND_PICKUP env.PICKUP_SIZE ap.ThingFlags
      let moved := MapTryMoveThing env w1 thing ap.Pos
      let p : Pickup :=
        { UID := ap.UID, pickupClass := ap.PickupClass, thing := moved.2.1,
          IsRandomSpawned := ap.IsRandomSpawned, PickedUp := false,
          SpawnerUID := ap.SpawnerUID, isInUse := true }
      .ok { moved.2.2 with gPickups := storeAt moved.2.2.gPickups i p }

/-! ## `handle_game_events.cpp` -/

/-- The pattern `TActor *a = ActorGetByUID(uid); ... a->field`: the slot and the actor the
pointer refers to; a fault when the pointer is `NULL`. -/
def derefActor (env : Env) (w : World) (uid : Int) : Except Fault (Nat × TActor) :=
  match env.ActorGetByUID w.gActors uid with
  | none => .error .nullDeref
  | some i =>
    match w.gActors[i]? with
    | none => .error .outOfBounds
    | some a => .ok (i, a)

/-- Writes the actor back to its slot. -/
def World.setActor (w : World) (i : Nat) (a : TActor) : World :=
  { w with gActors := w.gActors.set i a }

/-- The floating text particle that the heal, ammo and key events enqueue. -/
def textParticle (env : Env) (cls : String) (pos : Vec2) (dz : ℚ) (text : String) :
    GameEvent :=
  GameEventNew env (.ADD_PARTICLE
    { Class := some cls, Pos := pos, Z := env.BULLET_Z * env.Z_FACTOR, DZ := dz, Angle := 0,
      Text := text })

/-- The part of the `GAME_EVENT_ACTOR_DIE` arm between the lookup of the actor and
`ActorDestroy(a)`: the player of the actor loses a life and, with lives left and on the
server, is placed again. -/
def ActorDie_revive (env : Env) (a : TActor) (w : World) : Except Fault World :=
  match env.PlayerDataGetByUID w.gPlayerDatas a.PlayerUID with
  | none => .ok w
  | some pi =>
    match w.gPlayerDatas[pi]? with
    | none => .error .outOfBounds
    | some p =>
      let p1 := { p with Lives := p.Lives - 1 }
      let w1 := { w with gPlayerDatas := w.gPlayerDatas.set pi p1 }
      match CASSERT env (decide (p1.Lives ≥ 0)) with
      | .error f => .error f
      | .ok _ =>
        if p1.Lives > 0 && !w1.IsClient then
          let defaultSpawnPosition :=
            match env.AIGetClosestPlayer w1.gActors a.Pos with
            | none => svec2_zero
            | some ci =>
              match w1.gActors[ci]? with
              | none => svec2_zero
              | some closestActor => closestActor.Pos
          .ok (w1.emit (.PlacePlayer p1.UID defaultSpawnPosition))
        else .ok w1

/-- Modelled from the spec: `MobObjsObjsGetNextUID`, defined outside the sources, hands out
the next stable numeric UID for a projectile (as `PickupsGetNextUID` of `pickup.cpp` does
for pickups: `return sPickupUIDs++`). -/
def MobObjsObjsGetNextUID (w : World) : Int × World :=
  (w.sMobObjUIDs, { w with sMobObjUIDs := w.sMobObjUIDs + 1 })

/-- One iteration, with loop index `i`, of the spread loop of the `GAME_EVENT_GUN_FIRE` arm:
rolls the recoil and the elevation and enqueues one AddBullet event. -/
def GunFire_addBullet (env : Env) (gf : NGunFire) (wc : WeaponClass) (bulletName : String)
    (spreadStartAngle : ℚ) (w : World) (i : Nat) : World :=
  let roll := RAND_FLOAT env (-(1 / 2 : ℚ)) (1 / 2 : ℚ) w
  let recoil := roll.1 * wc.Recoil
  let finalAngle := gf.Angle + spreadStartAngle + (i : ℚ) * wc.SpreadWidth + recoil
  let uid := MobObjsObjsGetNextUID roll.2
  let elevation := RAND_INT env wc.ElevationLow wc.ElevationHigh uid.2
  GameEventsEnqueue elevation.2 (GameEventNew env (.ADD_BULLET
    { UID := uid.1, BulletClass := bulletName, MuzzlePos := gf.MuzzlePos,
      MuzzleHeight := gf.Z, Angle := finalAngle, Elevation := elevation.1,
      Flags := gf.Flags, ActorUID := gf.ActorUID }))

/-- The `GAME_EVENT_GUN_FIRE` arm of `HandleGameEvent`. -/
def GunFire (env : Env) (gf : NGunFire) (w : World) : Except Fault World :=
  match env.StrWeaponClass gf.Gun with
  | none => .error .nullDeref
  | some wc =>
    let pos := gf.MuzzlePos
    let w1 :=
      match wc.Bullet with
      | none => w
      | some bulletName =>
        if !w.IsClient then
          let spreadStartAngle :=
            wc.AngleOffset - ((wc.SpreadCount - 1 : Int) : ℚ) * wc.SpreadWidth / 2
          (List.range wc.SpreadCount.toNat).foldl
            (GunFire_addBullet env gf wc bulletName spreadStartAngle) w
        else w
    let w2 :=
      if wc.HasMuzzle && wc.MuzzleFlash.isSome then
        GameEventsEnqueue w1 (GameEventNew env (.ADD_PARTICLE
          { Class := wc.MuzzleFlash, Pos := pos, Z := (gf.Z : ℚ), DZ := 0, Angle := gf.Angle,
            Text := "" }))
      else w1
    let w3 := if gf.Sound && wc.Sound.isSome then w2.emit (.SoundPlayAt wc.Sound pos) else w2
    let w4 :=
      if wc.ShakeAmount > 0 then
        GameEventsEnqueue w3 (GameEventNew env
          (.SCREEN_SHAKE wc.ShakeAmount wc.ShakeCameraSubjectOnly gf.ActorUID))
      else w3
    .ok (if wc.Brass.isSome && wc.ReloadLead = 0 then
        w4.emit (.WeaponClassAddBrass wc.name (env.RadiansToDirection gf.Angle) pos)
      else w4)

/-- The `for` loop of the `GAME_EVENT_TILE_SET` arm of `HandleGameEvent`, with `n` iterations
to go: the tile at `pos` gets the two classes, and `pos` steps to the next column, or to the
start of the next row at the map width. -/
def TileSet_loop (env : Env) (tileClass tileClassAlt : Option String) :
    Nat → Vec2i → Map → Except Fault Map
  | 0, _, m => .ok m
  | n + 1, pos, m =>
    match env.MapGetTile m pos with
    | none => .error .nullDeref
    | some k =>
      match m.tiles[k]? with
      | none => .error .outOfBounds
      | some t =>
        let m1 := { m with
          tiles := m.tiles.set k { t with Class := tileClass, ClassAlt := tileClassAlt } }
        TileSet_loop env tileClass tileClassAlt n
          (if pos.x + 1 = m1.Size.x then ⟨0, pos.y + 1⟩ else ⟨pos.x + 1, pos.y⟩) m1

/-- `HandleGameEvent`: the `switch` over the event type, one arm per kind. -/
def HandleGameEvent (env : Env) (e : GameEvent) (w : World) : Except Fault World :=
  match e.u with
  | .ACTOR_STATE UID State =>
    match derefActor env w UID with
    | .error f => .error f
    | .ok (i, a) =>
      if !a.isInUse then .ok w
      else .ok (w.setActor i { a with anim := env.AnimationGetActorAnimation State })
  | .ACTOR_DIR UID Dir =>
    match derefActor env w UID with
    | .error f => .error f
    | .ok (i, a) =>
      if !a.isInUse then .ok w
      else .ok (w.setActor i { a with direction := Dir })
  | .ACTOR_SLIDE UID Vel =>
    match derefActor env w UID with
    | .error f => .error f
    | .ok (i, a) =>
      if !a.isInUse then .ok w
      else
        let a1 := { a with thing := { a.thing with Vel := Vel } }
        let w1 := w.setActor i a1
        .ok (if w.SoundFootsteps then w1.emit (.SoundPlayAt (some "slide") a1.thing.Pos)
             else w1)
  | .ACTOR_IMPULSE UID Vel Pos =>
    match derefActor env w UID with
    | .error f => .error f
    | .ok (i, a) =>
      if !a.isInUse then .ok w
      else
        let a1 := { a with thing := { a.thing with Vel := svec2_add a.thing.Vel Vel } }
        let a2 := if !env.svec2_is_zero Pos then { a1 with Pos := Pos } else a1
        .ok (w.setActor i a2)
  | .ACTOR_PICKUP_ALL UID PickupAll =>
    match derefActor env w UID with
    | .error f => .error f
    | .ok (i, a) =>
      if !a.isInUse then .ok w
      else .ok (w.setActor i { a with PickupAll := PickupAll })
  | .ACTOR_HEAL UID PlayerUID Amount IsRandomSpawned =>
    match derefActor env w UID with
    | .error f => .error f
    | .ok (i, a) =>
      if !a.isInUse || a.dead then .ok w
      else
        let a1 := env.ActorHeal a Amount
        let w1 := (w.setActor i a1).emit (.SoundPlayAt (some "health") a1.Pos)
        let w2 := if IsRandomSpawned && !w1.IsClient then
            w1.emit (.PowerupSpawnerRemoveOne none) else w1
        .ok (if PlayerUID ≥ 0 then
            GameEventsEnqueue w2 (textParticle env "heal_text" a1.Pos 3 ("+" ++ toString Amount))
          else w2)
  | .ACTOR_ADD_AMMO UID PlayerUID AmmoId Amount IsRandomSpawned =>
    match derefActor env w UID with
    | .error f => .error f
    | .ok (i, a) =>
      if !a.isInUse || a.dead then .ok w
      else
        let a1 := env.ActorAddAmmo a AmmoId Amount
        let w1 := w.setActor i a1
        let w2 := if IsRandomSpawned && !w1.IsClient then
            w1.emit (.PowerupSpawnerRemoveOne (some AmmoId)) else w1
        .ok (if PlayerUID ≥ 0 then
            GameEventsEnqueue w2 (textParticle env "ammo_text" a1.Pos 10
              ("+" ++ toString Amount ++ " " ++ env.AmmoName AmmoId))
          else w2)
  | .ACTOR_USE_AMMO UID PlayerUID AmmoId Amount =>
    match derefActor env w UID with
    | .error f => .error f
    | .ok (i, a) =>
      if !a.isInUse || a.dead then .ok w
      else
        match a.ammo[AmmoId]? with
        | none => .error .outOfBounds
        | some ammoBefore =>
          let wasAmmoLow := env.AmmoIsLow AmmoId ammoBefore
          let a1 := env.ActorAddAmmo a AmmoId (-Amount)
          let w1 := w.setActor i a1
          match env.PlayerDataGetByUID w1.gPlayerDatas PlayerUID with
          | none => .ok w1
          | some pi =>
            match w1.gPlayerDatas[pi]? with
            | none => .error .outOfBounds
            | some p =>
              if p.IsLocal then
                match a1.ammo[AmmoId]? with
                | none => .error .outOfBounds
                | some ammoAfter =>
                  let isAmmoLow := env.AmmoIsLow AmmoId ammoAfter
                  if ammoAfter = 0 then .ok (w1.emit (.SoundPlay "ammo_none"))
                  else if !wasAmmoLow && isAmmoLow then .ok (w1.emit (.SoundPlay "ammo_low"))
                  else .ok w1
              else .ok w1
  | .ACTOR_DIE UID =>
    match derefActor env w UID with
    | .error f => .error f
    | .ok (i, a) =>
      match ActorDie_revive env a w with
      | .error f => .error f
      | .ok w2 => .ok (w2.setActor i (env.ActorDestroy a))
  | .ADD_PICKUP ap =>
    match PickupAdd env ap w with
    | .error f => .error f
    | .ok w1 => .ok (w1.emit (.SoundPlayAt (some "spawn_item") ap.Pos))
  | .REMOVE_PICKUP UID SpawnerUID =>
    match PickupDestroy env UID w with
    | .error f => .error f
    | .ok w1 =>
      if SpawnerUID ≥ 0 then
        match env.ObjGetByUID w1.gObjs SpawnerUID with
        | none => .error .nullDeref
        | some oi =>
          match w1.gObjs[oi]? with
          | none => .error .outOfBounds
          | some o =>
            .ok { w1 with
              gObjs := w1.gObjs.set oi { o with counter := env.AMMO_SPAWNER_RESPAWN_TICKS } }
      else .ok w1
  | .BULLET_BOUNCE bb => BulletBounce env bb w
  | .REMOVE_BULLET UID =>
    match env.MobObjGetByUID w.gMobObjs UID with
    | none => .ok w
    | some i =>
      match w.gMobObjs[i]? with
      | none => .error .outOfBounds
      | some o => if !o.isInUse then .ok w else BulletDestroy env i o w
  | .GUN_FIRE gf => GunFire env gf w
  | .SCREEN_SHAKE Amount CameraSubjectOnly ActorUID =>
    if CameraSubjectOnly && ActorUID != w.CameraFollowActorUID then .ok w
    else .ok (w.emit (.ScreenShakeAdd Amount))
  | .GUN_STATE ActorUID State =>
    match derefActor env w ActorUID with
    | .error f => .error f
    | .ok (i, a) =>
      if !a.isInUse then .ok w
      else .ok (w.setActor i (env.WeaponSetState a State))
  | .ADD_BULLET add => BulletAdd env add w
  | .ADD_PARTICLE ap => .ok (w.emit (.ParticleAdd ap))
  | .RESCUE_CHARACTER UID =>
    match derefActor env w UID with
    | .error f => .error f
    | .ok (i, a) =>
      if !a.isInUse then .ok w
      else
        let flags1 := a.flags ^^^ (a.flags &&& env.FLAGS_PRISONER)
        let flags2 := if flags1 &&& env.FLAGS_FOLLOWER = 0 then flags1 ||| env.FLAGS_RESCUED
          else flags1
        let a1 := { a with flags := flags2 }
        .ok ((w.setActor i a1).emit (.SoundPlayAt (some "rescue") a1.Pos))
  | .TILE_SET Pos ClassName ClassAltName RunLength =>
    match TileSet_loop env (env.StrTileClass ClassName) (env.StrTileClass ClassAltName)
        (RunLength + 1).toNat Pos w.gMap with
    | .error f => .error f
    | .ok m => .ok { w with gMap := m }
  | .other kind => env.HandleOther kind w

/-- How a run of the drain loop ended: the loop condition failed (`done`), a dispatch
faulted, or the fuel of the model ran out first. -/
inductive DrainStatus where
  | done
  | fault (f : Fault)
  | outOfFuel
deriving DecidableEq, Repr

/-- The outcome of a run of the drain loop: the world it leaves, the calls of
`HandleGameEvent` it made in call order, each with the store index of the event and the
event passed, and the loop index at which it stopped. -/
structure Drain where
  status : DrainStatus
  world : World
  dispatched : List (Nat × GameEvent)
  next : Nat
deriving DecidableEq, Repr

/-- The `for` loop of `HandleGameEvents` from index `i` on, with `store` being
`&gGameEvents`, the queue on which the dispatcher enqueues.  The loop condition
`i < store->size` is evaluated anew before every iteration. -/
def HandleGameEventsLoop (env : Env) : Nat → Nat → World → Drain
  | 0, i, w => { status := .outOfFuel, world := w, dispatched := [], next := i }
  | fuel + 1, i, w =>
    match w.gGameEvents[i]? with
    | none => { status := .done, world := w, dispatched := [], next := i }
    | some e =>
      let e1 := { e with Delay := e.Delay - 1 }
      let w1 := { w with gGameEvents := w.gGameEvents.set i e1 }
      if e1.Delay ≥ 0 then HandleGameEventsLoop env fuel (i + 1) w1
      else
        match HandleGameEvent env e1 w1 with
        | .error f =>
          { status := .fault f, world := w1, dispatched := [(i, e1)], next := i + 1 }
        | .ok w2 =>
          let r := HandleGameEventsLoop env fuel (i + 1) w2
          { r with dispatched := (i, e1) :: r.dispatched }

/-- `HandleGameEvents`: the drain loop, then `GameEventsClear(store)`. -/
def HandleGameEvents (env : Env) (fuel : Nat) (w : World) : Drain :=
  let r := HandleGameEventsLoop env fuel 0 w
  match r.status with
  | .done =>
    { r with world := { r.world with gGameEvents := env.GameEventsClear r.world.gGameEvents } }
  | _ => r

/-- The lookup by UID as `PickupGetByUID` does it, for any registry: the first slot whose
UID matches. -/
def firstWithUID {α : Type} (uidOf : α → Int) (l : List α) (uid : Int) : Option Nat :=
  let i := l.findIdx (fun x => uidOf x == uid)
  if i < l.length then some i else none


/-! ## `bullet_class.cpp`: collision resolution -/

/-- The constant `FLT_EPSILON` of `float.h`. -/
def FLT_EPSILON : ℚ := 1 / 8388608

/-- The union `u` of `HitItemData`: not yet written, a target, or a wall tile. -/
inductive HitTarget where
  | unset
  | Target (target : ThingRef)
  | TilePos (tilePos : Vec2i)
deriving DecidableEq, Repr

/-- The C `HitItemData`, without the pointer `Obj` to the projectile, which is threaded
next to it. -/
structure HitItemData where
  HitType : HitType
  MultipleHits : Bool
  u : HitTarget
  ColPos : Vec2
  ColNormal : Vec2
  ColPosDist2 : ℚ
deriving DecidableEq, Repr

/-- The C `HitResult`; `Type_` is its field `Type`. -/
structure HitResult where
  Type_ : HitType
  Pos : Vec2
  Normal : Vec2
deriving DecidableEq, Repr

/-- The state the callbacks of `OverlapThings` work on: the `HitItemData`, the projectile
`data->Obj` and the world. -/
structure HitState where
  data : HitItemData
  obj : TMobileObject
  w : World
deriving DecidableEq, Repr

/-- The statement `if (target->SoundLock <= 0) target->SoundLock += SOUND_LOCK_THING;` on a
thing. -/
def lockSound (env : Env) (t : Thing) : Thing :=
  if t.SoundLock ≤ 0 then { t with SoundLock := t.SoundLock + env.SOUND_LOCK_THING } else t

/-- The statement `if (target->SoundLock <= 0) target->SoundLock += SOUND_LOCK_THING;` on
the thing a pointer refers to. -/
def World.lockTargetSound (env : Env) (w : World) (target : ThingRef) : World :=
  match target.kind with
  | .KIND_CHARACTER =>
    match w.gActors[target.id]? with
    | some a => { w with gActors := w.gActors.set target.id { a with thing := lockSound env a.thing } }
    | none => w
  | .KIND_OBJECT =>
    match w.gObjs[target.id]? with
    | some o => { w with gObjs := w.gObjs.set target.id { o with thing := lockSound env o.thing } }
    | none => w
  | .KIND_MOBILEOBJECT =>
    match w.gMobObjs[target.id]? with
    | some m =>
      { w with gMobObjs := w.gMobObjs.set target.id { m with thing := lockSound env m.thing } }
    | none => w
  | .KIND_PICKUP =>
    match w.gPickups[target.id]? with
    | some p =>
      { w with gPickups := w.gPickups.set target.id { p with thing := lockSound env p.thing } }
    | none => w
  | .KIND_OTHER => w

/-- The `switch (ti->kind)` of `GetHitType`: the hit type and the UID of the target. -/
def GetHitType_kind (env : Env) (w : World) (ti : ThingRef) : Except Fault (HitType × Int) :=
  match ti.kind with
  | .KIND_CHARACTER =>
    match w.gActors[ti.id]? with
    | some a => .ok (.HIT_FLESH, a.uid)
    | none => .error .outOfBounds
  | .KIND_OBJECT =>
    match w.gObjs[ti.id]? with
    | some o => .ok (.HIT_OBJECT, o.uid)
    | none => .error .outOfBounds
  | _ =>
    match CASSERT env false with
    | .error f => .error f
    | .ok _ => .ok (.HIT_NONE, -1)

/-- The player UID `bulletActor ? bulletActor->PlayerUID : -1` of `GetHitType`. -/
def bulletPlayerUID (env : Env) (w : World) (bullet : TMobileObject) : Int :=
  match env.ActorGetByUID w.gActors bullet.ActorUID with
  | none => -1
  | some i =>
    match w.gActors[i]? with
    | some a => a.PlayerUID
    | none => -1

/-- `GetHitType`: the hit type of the target, which is `HIT_NONE` while the sound lock of
the projectile is positive or the target has no hit sound, and the UID of the target
(`*targetUID`). -/
def GetHitType (env : Env) (w : World) (ti : ThingRef) (bullet : TMobileObject) :
    Except Fault (HitType × Int) :=
  match GetHitType_kind env w ti with
  | .error f => .error f
  | .ok (ht, tUID) =>
    if bullet.thing.SoundLock > 0
        || !env.HasHitSound bullet.flags (bulletPlayerUID env w bullet) ti.kind tUID
              bullet.bulletClass.Special true then
      .ok (.HIT_NONE, tUID)
    else .ok (ht, tUID)

/-- `SetClosestCollision`; `origin` is `data->Obj->thing.Pos`. -/
def SetClosestCollision (data : HitItemData) (origin : Vec2) (col normal : Vec2) (ht : HitType)
    (target : ThingRef) (tilePos : Vec2i) : HitItemData :=
  let d2 := svec2_distance_squared col origin
  if data.ColPosDist2 < 0 || d2 < data.ColPosDist2 then
    { data with
      ColPos := col
      ColPosDist2 := d2
      ColNormal := normal
      HitType := ht
      u := if ht = .HIT_WALL then .TilePos tilePos else .Target target }
  else data

/-- `OnHit`: the target is damaged, and the sound locks and the special lock are set. -/
def OnHit (env : Env) (s : HitState) (target : ThingRef) : Except Fault HitState :=
  match GetHitType env s.w target s.obj with
  | .error f => .error f
  | .ok (ht, targetUID) =>
    let source := env.ActorGetByUID s.w.gActors s.obj.ActorUID
    let w1 := s.w.emit (.Damage s.obj.thing.Vel s.obj.bulletClass.Power s.obj.bulletClass.Mass
      s.obj.flags source target.kind targetUID s.obj.bulletClass.Special)
    let thing1 := lockSound env s.obj.thing
    let w2 := w1.lockTargetSound env target
    let specialLock1 :=
      if s.obj.specialLock ≤ 0 then s.obj.specialLock + SPECIAL_LOCK else s.obj.specialLock
    .ok { data := { s.data with HitType := ht }
          obj := { s.obj with thing := thing1, specialLock := specialLock1 }
          w := w2 }

/-- `HitItemFunc`. -/
def HitItemFunc (env : Env) (s : HitState) (ti : ThingRef) (colA normal : Vec2) :
    Except Fault HitState :=
  if !env.CanHit s.obj.flags s.obj.ActorUID ti then .ok s
  else if s.data.MultipleHits then OnHit env s ti
  else
    match GetHitType env s.w ti s.obj with
    | .error f => .error f
    | .ok (ht, _) =>
      .ok { s with data := SetClosestCollision s.data s.obj.thing.Pos colA normal ht ti
                    svec2i_zero }

/-- `HitWallFunc`; the `NULL` target is never stored, the hit type being `HIT_WALL`. -/
def HitWallFunc (s : HitState) (tilePos : Vec2i) (col normal : Vec2) : HitState :=
  { s with data := SetClosestCollision s.data s.obj.thing.Pos col normal .HIT_WALL ⟨.KIND_OTHER, 0⟩
                tilePos }

/-- One callback call of `OverlapThings`. -/
def HitItem_callback (env : Env) (s : HitState) (c : Candidate) : Except Fault HitState :=
  match c with
  | .thing ti colA _ normal => HitItemFunc env s ti colA normal
  | .wall tilePos col normal => .ok (HitWallFunc s tilePos col normal)

/-- The callback calls of `OverlapThings`, one after the other. -/
def HitItem_callbacks (env : Env) : HitState → List Candidate → Except Fault HitState
  | s, [] => .ok s
  | s, c :: cs =>
    match HitItem_callback env s c with
    | .error f => .error f
    | .ok s1 => HitItem_callbacks env s1 cs

/-- The first part of `HitItem`: `data` is initialised and `OverlapThings` runs the
callbacks. -/
def HitItem_overlap (env : Env) (obj : TMobileObject) (pos : Vec2) (multipleHits : Bool)
    (w : World) : Except Fault HitState :=
  let data : HitItemData :=
    { HitType := .HIT_NONE, MultipleHits := multipleHits, u := .unset, ColPos := pos,
      ColNormal := svec2_zero, ColPosDist2 := -1 }
  HitItem_callbacks env { data := data, obj := obj, w := w.emit (.OverlapThings pos) }
    (env.OverlapThings w obj.thing pos)

/-- The second part of `HitItem`: a projectile without multiple hits whose closest
collision is an object or flesh hits the target of that collision. -/
def HitItem_closest (env : Env) (multipleHits : Bool) (s : HitState) : Except Fault HitState :=
  if !multipleHits && s.data.ColPosDist2 ≥ 0
      && (s.data.HitType = .HIT_OBJECT || s.data.HitType = .HIT_FLESH) then
    match s.data.u with
    | .Target target => OnHit env s target
    | _ => .error .nullDeref
  else .ok s

/-- `HitItem`: the overlap query, the hit of the closest target, and the `HitResult`. -/
def HitItem (env : Env) (obj : TMobileObject) (pos : Vec2) (multipleHits : Bool) (w : World) :
    Except Fault (HitResult × TMobileObject × World) :=
  match HitItem_overlap env obj pos multipleHits w with
  | .error f => .error f
  | .ok s =>
    match HitItem_closest env multipleHits s with
    | .error f => .error f
    | .ok s1 =>
      .ok ({ Type_ := s1.data.HitType, Pos := s1.data.ColPos, Normal := s1.data.ColNormal },
           s1.obj, s1.w)

/-! ## `bullet_class.cpp`: `BulletUpdate` -/

/-- `SeekTowards`. -/
def SeekTowards (env : Env) (pos vel : Vec2) (speedMin : ℚ) (targetPos : Vec2)
    (seekFactor : Int) : Vec2 :=
  let targetVel := svec2_subtract (svec2_subtract targetPos pos) vel
  if |targetVel.x| > 40 || |targetVel.y| > 40 || env.svec2_is_zero targetVel then vel
  else
    let targetMag := env.svec2_length targetVel
    let magnitude := max speedMin (env.svec2_length vel)
    let combinedX := vel.x / magnitude * (seekFactor : ℚ) + targetVel.x / targetMag
    let combinedY := vel.y / magnitude * (seekFactor : ℚ) + targetVel.y / targetMag
    ⟨combinedX * magnitude / ((seekFactor + 1 : Int) : ℚ),
     combinedY * magnitude / ((seekFactor + 1 : Int) : ℚ)⟩

/-- `FireGuns`: every gun of the list is fired from the projectile. -/
def FireGuns (env : Env) (obj : TMobileObject) (guns : List String) (w : World) : World :=
  let angle := env.svec2_angle obj.thing.Vel + env.MPI_2
  guns.foldl
    (fun w1 wc => w1.emit (.WeaponClassFire wc obj.thing.Pos obj.z angle obj.flags obj.ActorUID))
    w

/-- The out-of-range branch of `BulletUpdate`, up to its `return false`. -/
def BulletUpdate_outOfRange (env : Env) (obj : TMobileObject) (w : World) : World :=
  let w1 := if !w.IsClient then FireGuns env obj obj.bulletClass.OutOfRangeGuns w else w
  if obj.bulletClass.OutOfRangeSpark.isSome then
    GameEventsEnqueue w1 (GameEventNew env (.ADD_PARTICLE
      { Class := obj.bulletClass.OutOfRangeSpark, Pos := obj.thing.Pos, Z := obj.z, DZ := 0,
        Angle := 0, Text := "" }))
  else w1

/-- The seek branch of `BulletUpdate`: `none` is its `return false` (no owner), else the
projectile with the steered velocity. -/
def BulletUpdate_seek (env : Env) (obj : TMobileObject) (posStart : Vec2) (ticks : Int)
    (w : World) : Except Fault (Option TMobileObject) :=
  if obj.bulletClass.SeekFactor > 0 then
    match env.ActorGetByUID w.gActors obj.ActorUID with
    | none => .ok none
    | some oi =>
      match w.gActors[oi]? with
      | none => .error .outOfBounds
      | some owner =>
        match env.AIGetClosestEnemy w posStart owner obj.flags with
        | none => .ok (some obj)
        | some ti =>
          match w.gActors[ti]? with
          | none => .error .outOfBounds
          | some target =>
            if !target.dead then
              .ok (some { obj with thing := { obj.thing with
                Vel := (fun v => SeekTowards env posStart v obj.bulletClass.SpeedLow target.Pos
                  obj.bulletClass.SeekFactor)^[ticks.toNat] obj.thing.Vel } })
            else .ok (some obj)
  else .ok (some obj)

/-- The branch `if (hit.Type != HIT_NONE)` of `BulletUpdate`: whether the projectile is
still alive, the position to move to, the projectile and the world. -/
def BulletUpdate_hit (env : Env) (obj : TMobileObject) (posStart pos : Vec2) (hit : HitResult)
    (w : World) : Except Fault (Bool × Vec2 × TMobileObject × World) :=
  if hit.Type_ = .HIT_NONE then .ok (true, pos, obj, w)
  else
    let absorbed : Bool :=
      (hit.Type_ = .HIT_WALL && !obj.bulletClass.WallBounces)
        || ((hit.Type_ = .HIT_OBJECT || hit.Type_ = .HIT_FLESH) && obj.bulletClass.HitsObjects)
    match (if absorbed then CASSERT env (!w.IsClient) else .ok ()) with
    | .error f => .error f
    | .ok _ =>
      let w1 := if absorbed then FireGuns env obj obj.bulletClass.HitGuns w else w
      let alive : Bool :=
        !(absorbed && (hit.Type_ = .HIT_WALL || !obj.bulletClass.Persists))
      let wallMark : Bool :=
        absorbed && (hit.Type_ = .HIT_WALL && obj.thing.Vel.y < 0
          && !env.TileIsOpaque w1.gMap (env.Vec2ToTile ⟨hit.Pos.x, hit.Pos.y + 1⟩))
      let bouncing : Bool := hit.Type_ = .HIT_WALL && !env.svec2_is_zero obj.thing.Vel && alive
      let bounce := env.GetWallBouncePosVel posStart obj.thing.Vel hit.Pos hit.Normal
      let pos1 := if bouncing then bounce.1 else pos
      let vel1 := if bouncing then bounce.2 else obj.thing.Vel
      let b : NBulletBounce :=
        { UID := obj.UID, HitType := hit.Type_, Spark := absorbed, WallMark := wallMark,
          HitSound := obj.thing.SoundLock == 0,
          Pos := if bouncing then pos1 else hit.Pos, BouncePos := hit.Pos, Vel := vel1 }
      let soundLock1 :=
        if obj.thing.SoundLock = 0 then obj.thing.SoundLock + env.SOUND_LOCK_THING
        else obj.thing.SoundLock
      let obj1 := { obj with thing := { obj.thing with Vel := vel1, SoundLock := soundLock1 } }
      .ok (alive, pos1, obj1, GameEventsEnqueue w1 (GameEventNew env (.BULLET_BOUNCE b)))

/-- The `for` loop of the falling branch of `BulletUpdate`, with `n` iterations to go: `false`
is the `return false` of a class that is destroyed on its drop. -/
def BulletUpdate_fallingLoop (env : Env) (pos : Vec2) :
    Nat → Bool → TMobileObject → World → Bool × TMobileObject × World
  | 0, _, obj, w => (true, obj, w)
  | n + 1, hasDropped, obj, w =>
    let z1 := obj.z + obj.dz
    if z1 ≤ 0 then
      let obj1 := { obj with
        z := 0
        dz := if obj.bulletClass.Falling.Bounces then -obj.dz / 2 else 0 }
      let w1 := if !hasDropped && !w.IsClient then
          FireGuns env obj1 obj.bulletClass.Falling.DropGuns w else w
      if obj.bulletClass.Falling.DestroyOnDrop then (false, obj1, w1)
      else
        let w2 := w1.emit (.SoundPlayAt obj.bulletClass.HitSound.Wall pos)
        let obj2 := if !obj.bulletClass.Falling.FallsDown then { obj1 with dz := max 0 obj1.dz }
          else obj1
        BulletUpdate_fallingLoop env pos n true obj2 w2
    else
      let obj1 := { obj with z := z1, dz := obj.dz - obj.bulletClass.Falling.GravityFactor }
      let obj2 := if !obj.bulletClass.Falling.FallsDown then { obj1 with dz := max 0 obj1.dz }
        else obj1
      BulletUpdate_fallingLoop env pos n hasDropped obj2 w

/-- The falling branch of `BulletUpdate`. -/
def BulletUpdate_falling (env : Env) (obj : TMobileObject) (pos : Vec2) (ticks : Int)
    (w : World) : Bool × TMobileObject × World :=
  if obj.bulletClass.Falling.GravityFactor ≠ 0 then
    BulletUpdate_fallingLoop env pos ticks.toNat (decide (obj.z ≤ 0)) obj w
  else (true, obj, w)

/-- One iteration of the friction loop on one velocity component. -/
def frictionStep (frictionComponent : ℚ) (v : ℚ) : ℚ :=
  if v > FLT_EPSILON then v - frictionComponent
  else if v < -FLT_EPSILON then v + frictionComponent
  else v

/-- The friction step of `BulletUpdate`. -/
def BulletUpdate_friction (env : Env) (obj : TMobileObject) (ticks : Int) : TMobileObject :=
  let isDiagonal : Bool := |obj.thing.Vel.x| < FLT_EPSILON && |obj.thing.Vel.y| < FLT_EPSILON
  let frictionComponent :=
    if isDiagonal then obj.bulletClass.Friction / env.sqrtf 2 else obj.bulletClass.Friction
  { obj with thing := { obj.thing with
      Vel := ⟨(frictionStep frictionComponent)^[ticks.toNat] obj.thing.Vel.x,
              (frictionStep frictionComponent)^[ticks.toNat] obj.thing.Vel.y⟩ } }

/-- The `for` loop of the erratic branch of `BulletUpdate`, with `n` iterations to go; the
x component takes the first `rand()` of an iteration. -/
def BulletUpdate_erraticLoop (env : Env) : Nat → Vec2 → World → Vec2 × World
  | 0, vel, w => (vel, w)
  | n + 1, vel, w =>
    let rx := rand env w
    let ry := rand env rx.2
    let jitter : Vec2 := ⟨((rx.1 % 3 : Nat) : ℚ) - 1, ((ry.1 % 3 : Nat) : ℚ) - 1⟩
    BulletUpdate_erraticLoop env n (svec2_add vel (svec2_scale jitter (1 / 2))) ry.2

/-- The tile offsets `dv` of the proximity scan, in loop order. -/
def proximityOffsets : List Vec2i :=
  [⟨-1, -1⟩, ⟨0, -1⟩, ⟨1, -1⟩, ⟨-1, 0⟩, ⟨0, 0⟩, ⟨1, 0⟩, ⟨-1, 1⟩, ⟨0, 1⟩, ⟨1, 1⟩]

/-- Whether the proximity scan of `BulletUpdate` around `pos` finds a character: some tile
of the neighbourhood is in the map and has a character. -/
def BulletUpdate_proximityFound (env : Env) (w : World) (pos : Vec2) : Bool :=
  proximityOffsets.any (fun dv =>
    let dtv := svec2i_add (env.Vec2ToTile pos) dv
    env.MapIsTileIn w.gMap dtv && env.TileHasCharacter w.gMap dtv)

/-- The erratic branch of `BulletUpdate`. -/
def BulletUpdate_erratic (env : Env) (obj : TMobileObject) (ticks : Int) (w : World) :
    TMobileObject × World :=
  if obj.bulletClass.Erratic then
    let jit := BulletUpdate_erraticLoop env ticks.toNat obj.thing.Vel w
    ({ obj with thing := { obj.thing with Vel := jit.1 } }, jit.2)
  else (obj, w)

/-- The end of `BulletUpdate`: the proximity scan, which fires the proximity guns and
returns `false` when it finds a character, and else the trail and `return true`.  The test
`!(obj->count & 3)` on the two low bits is the test that 4 divides the count. -/
def BulletUpdate_proximity (env : Env) (obj : TMobileObject) (pos : Vec2) (ticks : Int)
    (w : World) : Bool × TMobileObject × World :=
  if obj.bulletClass.ProximityGuns.length > 0 && obj.count % 4 = 0 && !w.IsClient
      && BulletUpdate_proximityFound env w pos then
    (false, obj, FireGuns env obj obj.bulletClass.ProximityGuns w)
  else (true, obj, AddTrail obj ticks w)

/-- The part of `BulletUpdate` after the hit branch: falling, friction, the move, the
erratic jitter, the proximity scan and the trail. -/
def BulletUpdate_move (env : Env) (obj : TMobileObject) (pos : Vec2) (ticks : Int) (w : World) :
    Bool × TMobileObject × World :=
  let fall := BulletUpdate_falling env obj pos ticks w
  if !fall.1 then (false, fall.2.1, fall.2.2)
  else
    let obj1 := BulletUpdate_friction env fall.2.1 ticks
    let moved := MapTryMoveThing env fall.2.2 obj1.thing pos
    if !moved.1 then (false, { obj1 with thing := moved.2.1, count := obj1.range }, moved.2.2)
    else
      let jit := BulletUpdate_erratic env { obj1 with thing := moved.2.1 } ticks moved.2.2
      BulletUpdate_proximity env jit.1 pos ticks jit.2

/-- The hit result `{ HIT_NONE, svec2_zero(), svec2_zero() }`. -/
def HitResult.none : HitResult := { Type_ := .HIT_NONE, Pos := svec2_zero, Normal := svec2_zero }

/-- The collision detection of `BulletUpdate`: `HitItem` on the server, no hit on a
client. -/
def BulletUpdate_detect (env : Env) (obj : TMobileObject) (posStart : Vec2) (w : World) :
    Except Fault (HitResult × TMobileObject × World) :=
  if !w.IsClient then HitItem env obj posStart obj.bulletClass.Persists w
  else .ok (HitResult.none, obj, w)

/-- The part of `BulletUpdate` from `posStart` on: seek, collision detection, the hit branch
and the move. -/
def BulletUpdate_active (env : Env) (obj : TMobileObject) (ticks : Int) (w : World) :
    Except Fault (Bool × TMobileObject × World) :=
  let posStart := obj.thing.Pos
  match BulletUpdate_seek env obj posStart ticks w with
  | .error f => .error f
  | .ok none => .ok (false, obj, w)
  | .ok (some obj2) =>
    match BulletUpdate_detect env obj2 posStart w with
    | .error f => .error f
    | .ok (hit, obj3, w3) =>
      let pos := svec2_add posStart (svec2_scale obj3.thing.Vel (ticks : ℚ))
      match BulletUpdate_hit env obj3 posStart pos hit w3 with
      | .error f => .error f
      | .ok (alive, pos1, obj4, w4) =>
        if !alive then .ok (false, obj4, w4)
        else .ok (BulletUpdate_move env obj4 pos1 ticks w4)

/-- The first three statements of `BulletUpdate`: the thing is updated, the tick count is
aged and the special lock counted down. -/
def BulletUpdate_age (env : Env) (obj : TMobileObject) (ticks : Int) : TMobileObject :=
  { obj with
    thing := env.ThingUpdate obj.thing ticks
    count := obj.count + ticks
    specialLock := max 0 (obj.specialLock - ticks) }

/-- `BulletUpdate`: the result is the returned `bool`, the projectile `*obj` and the world as
the call leaves them. -/
def BulletUpdate (env : Env) (obj : TMobileObject) (ticks : Int) (w : World) :
    Except Fault (Bool × TMobileObject × World) :=
  let obj1 := BulletUpdate_age env obj ticks
  if obj1.count < obj1.bulletClass.Delay then .ok (true, obj1, w)
  else if obj1.range ≥ 0 && obj1.count > obj1.range then
    .ok (false, obj1, BulletUpdate_outOfRange env obj1 w)
  else BulletUpdate_active env obj1 ticks w

/-! ## `bullet_class.cpp`: `LoadBullet` -/

/-- The labels of the JSON node of a bullet that the speed and range statements of
`LoadBullet` look up: for each label the value that the loader stores for it, or `none` when
the node does not have the label. -/
structure BulletNode where
  Delay : Option Int
  Speed : Option ℚ
  SpeedLow : Option ℚ
  SpeedHigh : Option ℚ
  SpeedScale : Option Bool
  Friction : Option ℚ
  Range : Option Int
  RangeLow : Option Int
  RangeHigh : Option Int
deriving DecidableEq, Repr

/-- The loaders `LoadInt`, `LoadFullInt` and `LoadBool`, defined outside the sources: the
value of the label is stored when the node has the label, and the target is left alone
otherwise. -/
def loadLabel {α : Type} (target : α) (label : Option α) : α :=
  match label with
  | some v => v
  | none => target

/-- The bullet class after `memset(b, 0, sizeof *b)`. -/
def zeroBulletClass : BulletClass :=
  { Name := "", Delay := 0, SpeedLow := 0, SpeedHigh := 0, SpeedScale := false,
    Friction := 0, RangeLow := 0, RangeHigh := 0, Power := 0, Mass := 0, Size := ⟨0, 0⟩,
    Special := 0, HurtAlways := false, Persists := false, Spark := none,
    OutOfRangeSpark := none, WallMark := none, HitSound := ⟨none, none, none⟩,
    WallBounces := false, HitsObjects := false,
    Falling := ⟨0, false, false, false, []⟩, SeekFactor := 0, Erratic := false,
    Trail := ⟨none, 0, 0⟩, OutOfRangeGuns := [], HitGuns := [], ProximityGuns := [] }

/-- The start of `LoadBullet`: the class is zeroed and, with a default bullet, copied from
it, with the four gun lists zeroed. -/
def LoadBullet_init (defaultBullet : Option BulletClass) : BulletClass :=
  match defaultBullet with
  | none => zeroBulletClass
  | some d =>
    { d with
      Falling := { d.Falling with DropGuns := [] }
      OutOfRangeGuns := []
      HitGuns := []
      ProximityGuns := [] }

/-- The speed statements of `LoadBullet`: the label `Speed` sets both ends of the speed
range, the labels `SpeedLow` and `SpeedHigh` each set one end, and the two ends are
normalised with `MIN` and `MAX`. -/
def LoadBullet_speed (b : BulletClass) (node : BulletNode) : BulletClass :=
  let b1 :=
    if node.Speed.isSome then
      { b with
        SpeedLow := loadLabel b.SpeedLow node.Speed
        SpeedHigh := loadLabel b.SpeedLow node.Speed }
    else b
  let b2 := { b1 with SpeedLow := loadLabel b1.SpeedLow node.SpeedLow }
  let b3 := { b2 with SpeedHigh := loadLabel b2.SpeedHigh node.SpeedHigh }
  let b4 := { b3 with SpeedLow := min b3.SpeedLow b3.SpeedHigh }
  { b4 with SpeedHigh := max b4.SpeedLow b4.SpeedHigh }

/-- The range statements of `LoadBullet`, of the same shape as the speed statements. -/
def LoadBullet_range (b : BulletClass) (node : BulletNode) : BulletClass :=
  let b1 :=
    if node.Range.isSome then
      { b with
        RangeLow := loadLabel b.RangeLow node.Range
        RangeHigh := loadLabel b.RangeLow node.Range }
    else b
  let b2 := { b1 with RangeLow := loadLabel b1.RangeLow node.RangeLow }
  let b3 := { b2 with RangeHigh := loadLabel b2.RangeHigh node.RangeHigh }
  let b4 := { b3 with RangeLow := min b3.RangeLow b3.RangeHigh }
  { b4 with RangeHigh := max b4.RangeLow b4.RangeHigh }

/-- The statements of `LoadBullet` from the label `Delay` to the normalisation of the range,
on the class that the start of `LoadBullet` set up.  The statements before and after them,
which load the name, the pictures, the trail and the other fields of the class, write
neither the speed nor the range fields. -/
def LoadBullet (node : BulletNode) (defaultBullet : Option BulletClass) : BulletClass :=
  let b0 := LoadBullet_init defaultBullet
  let b1 := { b0 with Delay := loadLabel b0.Delay node.Delay }
  let b2 := LoadBullet_speed b1 node
  let b3 := { b2 with SpeedScale := loadLabel b2.SpeedScale node.SpeedScale }
  let b4 := { b3 with Friction := loadLabel b3.Friction node.Friction }
  LoadBullet_range b4 node

/-! ## `door.cpp` -/

/-- The enum `DoorType`. -/
inductive DoorType where
  | DOORTYPE_H
  | DOORTYPE_LEFT
  | DOORTYPE_HMID
  | DOORTYPE_RIGHT
  | DOORTYPE_V
  | DOORTYPE_TOP
  | DOORTYPE_VMID
  | DOORTYPE_BOTTOM
deriving DecidableEq, Repr

/-- `GetDoorType`. -/
def GetDoorType (isHorizontal : Bool) (i count : Int) : DoorType :=
  if isHorizontal then
    if count = 1 then .DOORTYPE_H
    else if i = 0 then .DOORTYPE_LEFT
    else if i = count - 1 then .DOORTYPE_RIGHT
    else .DOORTYPE_HMID
  else
    if count = 1 then .DOORTYPE_V
    else if i = 0 then .DOORTYPE_TOP
    else if i = count - 1 then .DOORTYPE_BOTTOM
    else .DOORTYPE_VMID

/-- `DoorTypeIsHorizontal`. -/
def DoorTypeIsHorizontal (type : DoorType) : Bool :=
  type = .DOORTYPE_H || type = .DOORTYPE_LEFT || type = .DOORTYPE_HMID
    || type = .DOORTYPE_RIGHT

/-! ## Vocabulary of the statements -/

/-- The event queue of `w1` is that of `w` with events appended. -/
def Appends (w w1 : World) : Prop := ∃ l, w1.gGameEvents = w.gGameEvents ++ l

/-- The outside event handlers only ever append to the event queue. -/
def Env.AppendOnly (env : Env) : Prop :=
  ∀ k w w1, env.HandleOther k w = .ok w1 → Appends w w1

/-- The event with its `Delay` counted down by one (`e->Delay--`). -/
def decr (e : GameEvent) : GameEvent := { e with Delay := e.Delay - 1 }

/-- What the drain loop does at index `j` of a store whose events have been counted down:
the dispatch of `store[j]` when its `Delay` is below zero, and nothing otherwise. -/
def visit (store : List GameEvent) (j : Nat) : Option (Nat × GameEvent) :=
  match store[j]? with
  | some e => if e.Delay < 0 then some (j, e) else none
  | none => none

/-- The invariant of the drain loop started at index `i` in world `w` and stopped as `r`. -/
structure LoopInv (fuel i : Nat) (w : World) (r : Drain) : Prop where
  le_next : i ≤ r.next
  next_le : r.next ≤ r.world.gGameEvents.length
  take_eq : ∀ j, j < i → r.world.gGameEvents[j]? = w.gGameEvents[j]?
  log_eq : r.dispatched = (List.range' i (r.next - i)).filterMap (visit r.world.gGameEvents)
  decr_eq : ∀ j, i ≤ j → j < r.next → j < w.gGameEvents.length →
    r.world.gGameEvents[j]? = (w.gGameEvents[j]?).map decr
  done_next : r.status = .done → r.next = r.world.gGameEvents.length
  fuel_next : r.status = .outOfFuel → r.next = i + fuel
  length_le : w.gGameEvents.length ≤ r.world.gGameEvents.length

/-! ## Concrete inputs -/

/-- A thing with every field zero. -/
def zeroThing : Thing :=
  { kind := .KIND_OTHER, id := 0, Pos := ⟨0, 0⟩, LastPos := ⟨0, 0⟩, Vel := ⟨0, 0⟩,
    size := ⟨0, 0⟩, flags := 0, SoundLock := 0 }

/-- An environment for the concrete runs: `rand()` always returns 0, every lookup by UID
returns the first slot with that UID, the map accepts every move, and new events have
`Delay` 0. -/
def stdEnv : Env where
  rand := fun _ => 0
  RAND_MAX := 32767
  GameEventNewDelay := 0
  GameEventsClear := fun _ => []
  MobObjGetByUID := firstWithUID TMobileObject.UID
  ActorGetByUID := firstWithUID TActor.uid
  ObjGetByUID := firstWithUID TObject.uid
  PlayerDataGetByUID := firstWithUID PlayerData.UID
  AIGetClosestPlayer := fun _ _ => none
  ThingInit := fun id kind size flags =>
    { zeroThing with
      kind := kind
      id := id
      size := size
      flags := flags
      Pos := ⟨-1, -1⟩
      LastPos := ⟨-1, -1⟩ }
  ThingUpdate := fun t ticks => { t with SoundLock := max 0 (t.SoundLock - ticks) }
  MapTryMoveThing := fun m t pos => (true, { t with LastPos := t.Pos, Pos := pos }, m)
  MapRemoveThing := fun m t => (t, m)
  AnimationGetActorAnimation := fun s => s
  ActorHeal := fun a _ => a
  ActorAddAmmo := fun a _ _ => a
  ActorDestroy := fun a => { a with isInUse := false }
  WeaponSetState := fun a s => { a with gunState := s }
  AmmoName := fun _ => "ammo"
  AmmoIsLow := fun _ n => decide (n < 10)
  StrPickupClassExists := fun _ => true
  Vec2FromRadians := fun _ => ⟨0, -1⟩
  RadiansToDirection := fun _ => 0
  StrWeaponClass := fun _ => none
  svec2_length := fun v => |v.x| + |v.y|
  svec2_is_zero := fun v => v.x == 0 && v.y == 0
  svec2_angle := fun _ => 0
  sqrtf := fun _ => 1
  MPI_2 := 0
  SOUND_LOCK_THING := 12
  Vec2ToTile := fun v => ⟨⌊v.x / 16⌋, ⌊v.y / 12⌋⟩
  MapIsTileIn := fun m p => decide (0 ≤ p.x ∧ p.x < m.Size.x ∧ 0 ≤ p.y ∧ p.y < m.Size.y)
  TileIsOpaque := fun _ _ => false
  TileHasCharacter := fun _ _ => false
  MapGetTile := fun m p =>
    if 0 ≤ p.x ∧ p.x < m.Size.x ∧ 0 ≤ p.y ∧ p.y < m.Size.y then
      some (p.y * m.Size.x + p.x).toNat
    else none
  StrTileClass := fun s => some s
  OverlapThings := fun _ _ _ => []
  CanHit := fun _ _ _ => true
  HasHitSound := fun _ _ _ _ _ _ => true
  AIGetClosestEnemy := fun _ _ _ _ => none
  GetWallBouncePosVel := fun _ vel hitPos _ => (hitPos, ⟨-vel.x, -vel.y⟩)
  BULLET_Z := 10
  Z_FACTOR := 16
  AMMO_SPAWNER_RESPAWN_TICKS := 1400
  PICKUP_SIZE := ⟨8, 8⟩
  FLAGS_HURTALWAYS := 4
  FLAGS_PRISONER := 64
  FLAGS_FOLLOWER := 32
  FLAGS_RESCUED := 131072
  CASSERT_enabled := true
  HandleOther := fun _ w => .ok w

/-- The world with empty registries, on the server. -/
def emptyWorld : World :=
  { gGameEvents := [], gMobObjs := [], gActors := [], gPickups := [], gObjs := [],
    gPlayerDatas := [], gBulletClasses := ⟨[], []⟩, gMap := ⟨⟨0, 0⟩, []⟩, IsClient := false,
    SoundFootsteps := false, CameraFollowActorUID := 0, sMobObjUIDs := 0, randCalls := 0,
    effects := [] }

/-- A living actor with the given UID, of player 0, at position (5, 5). -/
def someActor (uid : Int) : TActor :=
  { uid := uid, isInUse := true, dead := false, PlayerUID := 0, Pos := ⟨5, 5⟩,
    thing := zeroThing, anim := 0, direction := 0, PickupAll := false, flags := 0,
    ammo := [], gunState := 0 }

/-- A spark particle at (1, 1). -/
def sparkParticle : AddParticle :=
  { Class := some "spark", Pos := ⟨1, 1⟩, Z := 0, DZ := 0, Angle := 0, Text := "" }

/-- The floating text that the heal of `someActor` by 10 enqueues. -/
def healTextParticle : AddParticle :=
  { Class := some "heal_text", Pos := ⟨5, 5⟩, Z := 160, DZ := 3, Angle := 0, Text := "+10" }

/-- A world with one living actor (UID 1) and a queue of three events: a heal of that actor
that is due, a turn of that actor that is due in two ticks, and a particle that is due. -/
def healWorld : World :=
  { emptyWorld with
    gActors := [someActor 1]
    gGameEvents :=
      [{ Delay := 0, u := Payload.ACTOR_HEAL 1 0 10 false },
       { Delay := 2, u := Payload.ACTOR_DIR 1 3 },
       { Delay := 0, u := Payload.ADD_PARTICLE sparkParticle }] }

/-- The UID of the projectile that a BulletBounce or RemoveBullet event targets. -/
def bulletEventUID : Payload → Option Int
  | .BULLET_BOUNCE bb => some bb.UID
  | .REMOVE_BULLET UID => some UID
  | _ => none

/-- The UID resolves to no projectile, or to a projectile slot that is not in use. -/
def MobObjMissing (env : Env) (w : World) (uid : Int) : Prop :=
  ∀ i, env.MobObjGetByUID w.gMobObjs uid = some i →
    ∃ o, w.gMobObjs[i]? = some o ∧ o.isInUse = false

/-- A bullet class with speed 1 to 3 and range 10 to 20. -/
def pistolBullet : BulletClass :=
  { Name := "pistol", Delay := 0, SpeedLow := 1, SpeedHigh := 3, SpeedScale := false,
    Friction := 0, RangeLow := 10, RangeHigh := 20, Power := 10, Mass := 1, Size := ⟨0, 0⟩,
    Special := 0, HurtAlways := false, Persists := false, Spark := none,
    OutOfRangeSpark := none, WallMark := none, HitSound := ⟨none, none, none⟩,
    WallBounces := false, HitsObjects := true,
    Falling := ⟨0, false, false, false, []⟩, SeekFactor := 0, Erratic := false,
    Trail := ⟨none, 0, 0⟩, OutOfRangeGuns := [], HitGuns := [], ProximityGuns := [] }

/-- The bullet class `pistolBullet` with the one speed 2 and the one range 15. -/
def fixedBullet : BulletClass :=
  { pistolBullet with
    Name := "fixed"
    SpeedLow := 2
    SpeedHigh := 2
    RangeLow := 15
    RangeHigh := 15 }

/-- The empty world with the bullet classes `pistolBullet` and `fixedBullet`. -/
def bulletWorld : World :=
  { emptyWorld with gBulletClasses := ⟨[pistolBullet, fixedBullet], []⟩ }

/-- The payload of an AddBullet event of the given class, fired upwards from (8, 8). -/
def addBulletOf (cls : String) : NAddBullet :=
  { UID := 0, BulletClass := cls, MuzzlePos := ⟨8, 8⟩, MuzzleHeight := 10, Angle := 0,
    Elevation := 0, Flags := 0, ActorUID := 1 }

/-- A projectile of class `pistolBullet` with UID 5 in slot 0. -/
def someBullet (isInUse : Bool) : TMobileObject :=
  { UID := 5, ActorUID := 1, bulletClass := pistolBullet,
    thing := { zeroThing with kind := .KIND_MOBILEOBJECT, Pos := ⟨4, 4⟩, Vel := ⟨1, 0⟩ },
    z := 0, dz := 0, count := 0, range := 10, flags := 0, specialLock := 0,
    isInUse := isInUse }

/-- A BulletBounce event for the projectile with UID 5. -/
def bounceOf5 : NBulletBounce :=
  { UID := 5, HitType := .HIT_WALL, Spark := true, WallMark := true, HitSound := true,
    Pos := ⟨9, 9⟩, BouncePos := ⟨9, 9⟩, Vel := ⟨-1, 0⟩ }

/-- The events of the twelve kinds that target an actor or a pickup by UID, for UID 7. -/
def eventsForUID7 : List Payload :=
  [.ACTOR_STATE 7 1, .ACTOR_DIR 7 1, .ACTOR_SLIDE 7 ⟨1, 0⟩, .ACTOR_IMPULSE 7 ⟨1, 0⟩ ⟨0, 0⟩,
   .ACTOR_PICKUP_ALL 7 true, .ACTOR_HEAL 7 0 10 false, .ACTOR_ADD_AMMO 7 0 0 10 false,
   .ACTOR_USE_AMMO 7 0 0 1, .ACTOR_DIE 7, .GUN_STATE 7 1, .RESCUE_CHARACTER 7,
   .REMOVE_PICKUP 7 (-1)]

/-- A collision point handed to `SetClosestCollision`: the arguments of the call. -/
structure Contact where
  col : Vec2
  normal : Vec2
  ht : HitType
  target : ThingRef
  tilePos : Vec2i
deriving DecidableEq, Repr

/-- The squared distance of the collision point to `origin`. -/
def Contact.dist2 (origin : Vec2) (c : Contact) : ℚ := svec2_distance_squared c.col origin

/-- What `SetClosestCollision` stores in the union `u` for this contact: the tile of a wall,
the target otherwise. -/
def Contact.u (c : Contact) : HitTarget :=
  if c.ht = .HIT_WALL then .TilePos c.tilePos else .Target c.target

/-- The call of `SetClosestCollision` that a callback call makes for a projectile without
multiple hits: a wall always makes one, a thing makes one when it passes `CanHit`. -/
def contactOf (env : Env) (w : World) (obj : TMobileObject) : Candidate → Option Contact
  | .wall tilePos col normal =>
    some { col := col, normal := normal, ht := .HIT_WALL, target := ⟨.KIND_OTHER, 0⟩,
           tilePos := tilePos }
  | .thing ti colA _ normal =>
    if env.CanHit obj.flags obj.ActorUID ti then
      match GetHitType env w ti obj with
      | .ok (ht, _) =>
        some { col := colA, normal := normal, ht := ht, target := ti, tilePos := svec2i_zero }
      | .error _ => none
    else none

/-- The call `SetClosestCollision(data, c.col, c.normal, c.ht, c.target, c.tilePos)`. -/
def recordContact (origin : Vec2) (data : HitItemData) (c : Contact) : HitItemData :=
  SetClosestCollision data origin c.col c.normal c.ht c.target c.tilePos

/-- The `HitItemData` records the contact `c`. -/
def Records (origin : Vec2) (data : HitItemData) (c : Contact) : Prop :=
  data.ColPos = c.col ∧ data.ColNormal = c.normal ∧ data.HitType = c.ht ∧ data.u = c.u
    ∧ data.ColPosDist2 = c.dist2 origin

/-- The contact at index `k` is the first of the contacts at the minimum squared distance to
`origin`. -/
def FirstClosest (origin : Vec2) (contacts : List Contact) (k : Nat) (c : Contact) : Prop :=
  contacts[k]? = some c
    ∧ (∀ (j : Nat) (c1 : Contact), contacts[j]? = some c1 → c.dist2 origin ≤ c1.dist2 origin)
    ∧ (∀ (j : Nat) (c1 : Contact), j < k → contacts[j]? = some c1 →
        c.dist2 origin < c1.dist2 origin)

/-- The UID that `GetHitType` writes to `*targetUID` for this target. -/
def targetUID (env : Env) (w : World) (ti : ThingRef) : Int :=
  match GetHitType_kind env w ti with
  | .ok (_, uid) => uid
  | .error _ => -1

/-- The targets of the `Damage` calls of a trace, in call order: kind and UID. -/
def damagedTargets (effects : List Effect) : List (ThingKind × Int) :=
  effects.filterMap (fun x =>
    match x with
    | .Damage _ _ _ _ _ targetKind targetUID _ => some (targetKind, targetUID)
    | _ => none)

/-- The target of a callback call that passes the `CanHit` filter. -/
def hittable (env : Env) (obj : TMobileObject) : Candidate → Option ThingRef
  | .thing ti _ _ _ => if env.CanHit obj.flags obj.ActorUID ti then some ti else none
  | .wall _ _ _ => none

/-- The UIDs in the actor and object registries, slot by slot. -/
def uidView (w : World) : List Int × List Int :=
  (w.gActors.map TActor.uid, w.gObjs.map TObject.uid)

/-- The `Damage` call of `OnHit` for the projectile `obj` in world `w` on a target of the
given kind and UID. -/
def damageBy (env : Env) (w : World) (obj : TMobileObject) (kind : ThingKind) (uid : Int) :
    Effect :=
  .Damage obj.thing.Vel obj.bulletClass.Power obj.bulletClass.Mass obj.flags
    (env.ActorGetByUID w.gActors obj.ActorUID) kind uid obj.bulletClass.Special

/-- A projectile of class `pistolBullet` (no multiple hits) at the origin, flying right. -/
def originBullet : TMobileObject :=
  { someBullet true with thing := { (someBullet true).thing with Pos := ⟨0, 0⟩ } }

/-- The projectile `originBullet` with a class that persists (multiple hits) and with a
positive sound lock. -/
def lockedBullet : TMobileObject :=
  { originBullet with
    bulletClass := { pistolBullet with Persists := true }
    thing := { originBullet.thing with SoundLock := 5 } }

/-- A world with three living actors, UIDs 1, 2 and 3, in slots 0, 1 and 2. -/
def hitWorld : World :=
  { emptyWorld with gActors := [someActor 1, someActor 2, someActor 3] }

/-- The pointer to the thing of the actor in the given slot. -/
def actorThing (slot : Nat) : ThingRef := { kind := .KIND_CHARACTER, id := slot }

/-- An overlap query that reports a wall at distance 5 and then the actor of slot 0 at
distance 3 from the origin. -/
def envWallThenTarget : Env :=
  { stdEnv with
    OverlapThings := fun _ _ _ =>
      [.wall ⟨0, 0⟩ ⟨5, 0⟩ ⟨-1, 0⟩, .thing (actorThing 0) ⟨3, 0⟩ ⟨3, 0⟩ ⟨-1, 0⟩] }

/-- An overlap query that reports the actors of slots 0, 1 and 2 at distances 3, 2 and 4
from the origin. -/
def envThreeTargets : Env :=
  { stdEnv with
    OverlapThings := fun _ _ _ =>
      [.thing (actorThing 0) ⟨3, 0⟩ ⟨3, 0⟩ ⟨-1, 0⟩, .thing (actorThing 1) ⟨2, 0⟩ ⟨2, 0⟩ ⟨-1, 0⟩,
       .thing (actorThing 2) ⟨4, 0⟩ ⟨4, 0⟩ ⟨-1, 0⟩] }

/-- The state of `HitItem` after the overlap query of `envWallThenTarget` for `originBullet`:
the target at distance 3 is recorded. -/
def stateWallThenTarget : HitState :=
  { data :=
      { HitType := .HIT_FLESH, MultipleHits := false, u := .Target (actorThing 0),
        ColPos := ⟨3, 0⟩, ColNormal := ⟨-1, 0⟩, ColPosDist2 := 9 }
    obj := originBullet
    w := hitWorld.emit (.OverlapThings ⟨0, 0⟩) }

/-- A projectile after its first `OnHit`: sound lock and special lock set to 12. -/
def bulletAfterHit (b : TMobileObject) : TMobileObject :=
  { b with
    thing := { b.thing with SoundLock := 12 }
    specialLock := 12 }

/-- The actor `someActor uid` after it was hit: sound lock set to 12. -/
def lockedActor (uid : Int) : TActor :=
  { someActor uid with thing := { zeroThing with SoundLock := 12 } }

/-- The projectile `originBullet` with a class that persists (multiple hits). -/
def piercingBullet : TMobileObject :=
  { originBullet with bulletClass := { pistolBullet with Persists := true } }

/-- The world `hitWorld` after `HitItem` of `originBullet` (no multiple hits) with the three
targets of `envThreeTargets`: only the actor of slot 1, the closest, was hit. -/
def worldThreeSingle : World :=
  { hitWorld with
    gActors := [someActor 1, lockedActor 2, someActor 3]
    effects :=
      [.OverlapThings ⟨0, 0⟩, damageBy envThreeTargets hitWorld originBullet .KIND_CHARACTER 2] }

/-- The world `hitWorld` after `HitItem` of a projectile with multiple hits with the three
targets of `envThreeTargets`: all three actors were hit, in report order. -/
def worldThreeMultiple (b : TMobileObject) : World :=
  { hitWorld with
    gActors := [lockedActor 1, lockedActor 2, lockedActor 3]
    effects :=
      [.OverlapThings ⟨0, 0⟩, damageBy envThreeTargets hitWorld b .KIND_CHARACTER 1,
       damageBy envThreeTargets hitWorld b .KIND_CHARACTER 2,
       damageBy envThreeTargets hitWorld b .KIND_CHARACTER 3] }

/-- The projectile `originBullet` with a positive sound lock (and no multiple hits). -/
def lockedSingleBullet : TMobileObject :=
  { originBullet with thing := { originBullet.thing with SoundLock := 5 } }

/-- A pointer to the thing of an actor or of an object whose slot exists: the targets that
`GetHitType` classifies. -/
def validTarget (w : World) (ti : ThingRef) : Prop :=
  (ti.kind = .KIND_CHARACTER ∧ ti.id < w.gActors.length)
    ∨ (ti.kind = .KIND_OBJECT ∧ ti.id < w.gObjs.length)

/-- The state of `HitItem` records a target whenever it records a hit of an object or of
flesh for a projectile without multiple hits, and that target is valid. -/
def recordsValidTarget (s : HitState) : Prop :=
  s.data.MultipleHits = false →
    (s.data.HitType = .HIT_OBJECT ∨ s.data.HitType = .HIT_FLESH) →
      ∃ t, s.data.u = .Target t ∧ validTarget s.w t

/-- The projectile `o1` is `o` but for its sound lock and its special lock. -/
def sameButLocks (o o1 : TMobileObject) : Prop :=
  o1 = { o with
    thing := { o.thing with SoundLock := o1.thing.SoundLock }
    specialLock := o1.specialLock }

/-- The world `w1` has the event queue, the client flag and the map of `w`. -/
def sameQueueAndMap (w w1 : World) : Prop :=
  w1.gGameEvents = w.gGameEvents ∧ w1.IsClient = w.IsClient ∧ w1.gMap = w.gMap

/-- What the collision detection of one `BulletUpdate` call reports: the hit, and the
projectile and the world as the detection leaves them; `none` when the call returns before
the detection (delay not reached, out of range, no owner to seek for) or faults in it. -/
def detection (env : Env) (obj : TMobileObject) (ticks : Int) (w : World) :
    Option (HitResult × TMobileObject × World) :=
  if (BulletUpdate_age env obj ticks).count < (BulletUpdate_age env obj ticks).bulletClass.Delay
  then none
  else if (BulletUpdate_age env obj ticks).range ≥ 0
      && (BulletUpdate_age env obj ticks).count > (BulletUpdate_age env obj ticks).range
  then none
  else
    match BulletUpdate_seek env (BulletUpdate_age env obj ticks)
        (BulletUpdate_age env obj ticks).thing.Pos ticks w with
    | .ok (some obj2) =>
      match BulletUpdate_detect env obj2 (BulletUpdate_age env obj ticks).thing.Pos w with
      | .ok r => some r
      | .error _ => none
    | _ => none

/-- The projectile does not survive a hit of this type: a wall that the class does not bounce
off, or an object or flesh that the class hits without persisting. -/
def diesOnHit (bc : BulletClass) (ht : HitType) : Prop :=
  (ht = .HIT_WALL ∧ bc.WallBounces = false)
    ∨ ((ht = .HIT_OBJECT ∨ ht = .HIT_FLESH) ∧ bc.HitsObjects = true ∧ bc.Persists = false)

/-- The `WeaponClassFire` calls of one `FireGuns(obj, guns)` call, in call order. -/
def gunFires (env : Env) (obj : TMobileObject) (guns : List String) : List Effect :=
  guns.map (fun wc => Effect.WeaponClassFire wc obj.thing.Pos obj.z
    (env.svec2_angle obj.thing.Vel + env.MPI_2) obj.flags obj.ActorUID)

/-- The hit that `HitItem` reports for `originBullet` with the candidates of
`envWallThenTarget`: the flesh of the actor at distance 3. -/
def fleshHit : HitResult := { Type_ := .HIT_FLESH, Pos := ⟨3, 0⟩, Normal := ⟨-1, 0⟩ }

/-- The projectile `originBullet` as the collision detection of a `BulletUpdate` call of one
tick leaves it after a hit: aged by one tick, with the locks set. -/
def bulletDetected : TMobileObject := { bulletAfterHit originBullet with count := 1 }

/-- The world `hitWorld` as that detection leaves it: the actor of slot 0 was damaged. -/
def worldDetected : World :=
  { hitWorld with
    gActors := [lockedActor 1, someActor 2, someActor 3]
    effects :=
      [.OverlapThings ⟨0, 0⟩,
       damageBy envWallThenTarget hitWorld originBullet .KIND_CHARACTER 1] }

/-- An overlap query that reports one wall, above the origin at distance 5. -/
def envWallAbove : Env :=
  { stdEnv with OverlapThings := fun _ _ _ => [.wall ⟨0, -1⟩ ⟨0, -5⟩ ⟨0, 1⟩] }

/-- The projectile `originBullet` flying up (negative y velocity). -/
def upBullet : TMobileObject :=
  { originBullet with thing := { originBullet.thing with Vel := ⟨0, -1⟩ } }

/-- The projectile `upBullet` with a class that bounces off walls. -/
def upBouncyBullet : TMobileObject :=
  { upBullet with bulletClass := { pistolBullet with WallBounces := true } }

/-- The hit that `HitItem` reports with the candidates of `envWallAbove`. -/
def wallHit : HitResult := { Type_ := .HIT_WALL, Pos := ⟨0, -5⟩, Normal := ⟨0, 1⟩ }

/-- The payloads of the events of a queue. -/
def payloads (l : List GameEvent) : List Payload := l.map GameEvent.u

/-- The event queue that a `BulletUpdate` call leaves (empty when the call faults). -/
def queueAfter (r : Except Fault (Bool × TMobileObject × World)) : List Payload :=
  match r with
  | .ok x => payloads x.2.2.gGameEvents
  | .error _ => []

/-- The flags that successive `BulletUpdate` calls of `ticks` ticks each return for a
projectile, every call working on the projectile and the world that the call before it left:
`n` calls, or fewer when a call returns `false` (the last flag) or faults. -/
def BulletUpdate_run (env : Env) (ticks : Int) : Nat → TMobileObject → World → List Bool
  | 0, _, _ => []
  | n + 1, obj, w =>
    match BulletUpdate env obj ticks w with
    | .error _ => []
    | .ok r => if r.1 then true :: BulletUpdate_run env ticks n r.2.1 r.2.2 else [false]

/-- The projectile `originBullet` with the given velocity and a class of the given
friction. -/
def slidingBullet (vel : Vec2) (friction : ℚ) : TMobileObject :=
  { originBullet with
    bulletClass := { pistolBullet with Friction := friction }
    thing := { originBullet.thing with Vel := vel } }

/-- The environment `stdEnv` with a length function that is the Euclidean length on the
vectors of squared length 25 and 1521, the two that the seek example takes the length of. -/
def seekLengthEnv : Env :=
  { stdEnv with
    svec2_length := fun v =>
      if v.x * v.x + v.y * v.y = 25 then 5
      else if v.x * v.x + v.y * v.y = 1521 then 39
      else |v.x| + |v.y| }

/-- The projectile `originBullet` at the given height with the given vertical speed and a
class with the given falling parameters. -/
def fallingBullet (z dz : ℚ) (f : Falling) : TMobileObject :=
  { originBullet with
    bulletClass := { pistolBullet with Falling := f }
    z := z
    dz := dz }

/-- The `WeaponClassFire` calls of a trace. -/
def weaponFires (l : List Effect) : List Effect :=
  l.filter (fun x =>
    match x with
    | .WeaponClassFire _ _ _ _ _ _ => true
    | _ => false)

/-- A grenade: the projectile `originBullet` at height 1 with vertical speed -4 and a class
with gravity factor 2 that falls down, bounces and has one drop gun. -/
def grenade : TMobileObject := fallingBullet 1 (-4) ⟨2, true, false, true, ["frag"]⟩

/-- A mine at the given tick count: the projectile `originBullet` at rest with a class that
has one proximity gun. -/
def mine (count : Int) : TMobileObject :=
  { originBullet with
    bulletClass := { pistolBullet with ProximityGuns := ["blast"] }
    thing := { originBullet.thing with Vel := ⟨0, 0⟩ }
    count := count }

/-- The environment `stdEnv` with a character on the tile (1, 0). -/
def envCharacterAt10 : Env :=
  { stdEnv with TileHasCharacter := fun _ p => decide (p = ⟨1, 0⟩) }

/-- The empty world with a map of 3 by 3 tiles. -/
def mapWorld : World := { emptyWorld with gMap := ⟨⟨3, 3⟩, []⟩ }

/-- The low end of the speed range that `LoadBullet` has loaded before it normalises the
range: the label `SpeedLow`, else the label `Speed`, else the low end of the class that
`LoadBullet` started from. -/
def loadedSpeedLow (b : BulletClass) (node : BulletNode) : ℚ :=
  loadLabel (loadLabel b.SpeedLow node.Speed) node.SpeedLow

/-- The high end of the speed range that `LoadBullet` has loaded before it normalises the
range: the label `SpeedHigh`, else the label `Speed`, else the high end of the class that
`LoadBullet` started from. -/
def loadedSpeedHigh (b : BulletClass) (node : BulletNode) : ℚ :=
  loadLabel (loadLabel b.SpeedHigh node.Speed) node.SpeedHigh

/-- The low end of the range that `LoadBullet` has loaded before it normalises the range. -/
def loadedRangeLow (b : BulletClass) (node : BulletNode) : Int :=
  loadLabel (loadLabel b.RangeLow node.Range) node.RangeLow

/-- The high end of the range that `LoadBullet` has loaded before it normalises the
range. -/
def loadedRangeHigh (b : BulletClass) (node : BulletNode) : Int :=
  loadLabel (loadLabel b.RangeHigh node.Range) node.RangeHigh

/-- A JSON node without any of the labels. -/
def emptyBulletNode : BulletNode :=
  { Delay := none, Speed := none, SpeedLow := none, SpeedHigh := none, SpeedScale := none,
    Friction := none, Range := none, RangeLow := none, RangeHigh := none }

/-- The AddBullet events of a list of events. -/
def addBullets (l : List GameEvent) : List NAddBullet :=
  l.filterMap (fun e =>
    match e.u with
    | .ADD_BULLET add => some add
    | _ => none)

/-- The AddParticle event for a particle of the given class at the given position. -/
def isParticleAt (cls : Option String) (pos : Vec2) (e : GameEvent) : Prop :=
  ∃ ap : AddParticle, e.u = .ADD_PARTICLE ap ∧ ap.Class = cls ∧ ap.Pos = pos

/-- The calls of `SetClosestCollision` that the wall callbacks of an overlap query make, in
report order. -/
def wallContacts (cands : List Candidate) : List Contact :=
  cands.filterMap (fun c =>
    match c with
    | .wall tilePos col normal =>
      some { col := col, normal := normal, ht := .HIT_WALL, target := ⟨.KIND_OTHER, 0⟩,
             tilePos := tilePos }
    | .thing _ _ _ _ => none)

/-- The fields of the `HitItemData` that only `SetClosestCollision` writes. -/
def HitItemData.contact (data : HitItemData) : Vec2 × Vec2 × ℚ :=
  (data.ColPos, data.ColNormal, data.ColPosDist2)

/-- An overlap query that reports the actor of slot 0 at distance 3 and then a wall at
distance 5 from the origin: the candidates of `envWallThenTarget` in the other order. -/
def envTargetThenWall : Env :=
  { stdEnv with
    OverlapThings := fun _ _ _ =>
      [.thing (actorThing 0) ⟨3, 0⟩ ⟨3, 0⟩ ⟨-1, 0⟩, .wall ⟨0, 0⟩ ⟨5, 0⟩ ⟨-1, 0⟩] }

/-- The hit that a `HitItem` call reports (`none` when the call faults). -/
def reportedHit (r : Except Fault (HitResult × TMobileObject × World)) : Option HitResult :=
  match r with
  | .ok x => some x.1
  | .error _ => none

/-- The two assignments `t->Class = tileClass; t->ClassAlt = tileClassAlt;` on a tile. -/
def Tile.withClasses (t : Tile) (tileClass tileClassAlt : Option String) : Tile :=
  { t with Class := tileClass, ClassAlt := tileClassAlt }

/-- The index of the tile at `pos` among the tiles of a map of width `width`, in row-major
order. -/
def tileIndex (width : Int) (pos : Vec2i) : Int := pos.y * width + pos.x

/-- `MapGetTile` of `map.h`, which is outside the sources, returns `NULL` for a position
outside the map and the tile at the row-major index of the position otherwise. -/
def RowMajor (env : Env) : Prop :=
  ∀ (m : Map) (p : Vec2i),
    env.MapGetTile m p
      = if 0 ≤ p.x ∧ p.x < m.Size.x ∧ 0 ≤ p.y ∧ p.y < m.Size.y
        then some (tileIndex m.Size.x p).toNat else none

/-- The empty world with a map of 3 by 2 tiles of class "floor". -/
def tileWorld : World :=
  { emptyWorld with gMap := ⟨⟨3, 2⟩, List.replicate 6 ⟨some "floor", some "floor", []⟩⟩ }

/-- The bullet class `pistolBullet` with a spark and a wall mark. -/
def sparkBullet : BulletClass :=
  { pistolBullet with Name := "sparky", Spark := some "spark", WallMark := some "mark" }

/-- The projectile `someBullet true` (UID 5) with the class `sparkBullet`. -/
def sparkingBullet : TMobileObject := { someBullet true with bulletClass := sparkBullet }

/-- The empty world with the projectile `sparkingBullet` in slot 0. -/
def sparkWorld : World := { emptyWorld with gMobObjs := [sparkingBullet] }

/-- The world `bulletWorld` with three projectile slots, of which slot 1 is not in use. -/
def slotsWorld : World :=
  { bulletWorld with
    gMobObjs := [{ someBullet true with UID := 5 }, { someBullet false with UID := 6 },
      { someBullet true with UID := 7 }] }

/-- A weapon that fires three bullets of class "pistol" per shot. -/
def shotgun : WeaponClass :=
  { name := "shotgun", Bullet := some "pistol", AngleOffset := 0, SpreadCount := 3,
    SpreadWidth := 1 / 10, Recoil := 0, ElevationLow := 0, ElevationHigh := 0,
    HasMuzzle := false, MuzzleFlash := none, Sound := none, ShakeAmount := 0,
    ShakeCameraSubjectOnly := false, Brass := none, ReloadLead := 0 }

/-- The environment `stdEnv` in which every weapon name is the weapon `shotgun`. -/
def gunEnv : Env := { stdEnv with StrWeaponClass := fun _ => some shotgun }

/-- A GunFire event of the actor with UID 1, due now. -/
def gunFireEvent : GameEvent :=
  { Delay := -1,
    u := .GUN_FIRE { Gun := "shotgun", MuzzlePos := ⟨8, 8⟩, Z := 10, Angle := 0, Flags := 0,
                     ActorUID := 1, Sound := false } }

/-- The states of the pickup registry `gPickups` that are reachable from the empty registry
by calls of `PickupAdd` that return and calls of `PickupDestroy` that return, the latter for
the UID of a pickup in use. -/
inductive PickupsReachable (env : Env) : World → Prop
  | empty (w : World) : w.gPickups = [] → PickupsReachable env w
  | add (w w1 : World) (ap : NAddPickup) :
      PickupsReachable env w → PickupAdd env ap w = .ok w1 → PickupsReachable env w1
  | destroy (w w1 : World) (uid : Int) (i : Nat) (p : Pickup) :
      PickupsReachable env w → w.gPickups[i]? = some p → p.isInUse = true → p.UID = uid →
      PickupDestroy env uid w = .ok w1 → PickupsReachable env w1

/-- No slot before a pickup in use carries the UID of that pickup. -/
def FirstOfUID (l : List Pickup) : Prop :=
  ∀ (k : Nat) (p : Pickup), l[k]? = some p → p.isInUse = true →
    ∀ (j : Nat) (q : Pickup), j < k → l[j]? = some q → q.UID ≠ p.UID

/-- The world a call left, and the empty world when the call faulted. -/
def worldAfter (r : Except Fault World) : World :=
  match r with
  | .ok w => w
  | .error _ => emptyWorld

/-- The payload of an AddPickup event with the given UID. -/
def addPickupOf (uid : Int) : NAddPickup :=
  { UID := uid, PickupClass := "health", IsRandomSpawned := false, SpawnerUID := -1,
    ThingFlags := 0, Pos := ⟨4, 4⟩ }

/-- The world after pickups 1 and 2 were added to the empty world, pickup 1 was destroyed
and pickup 2 was added again: slot 0 holds pickup 2 in use, slot 1 the freed pickup 2. -/
def pickupsWorld : World :=
  worldAfter (PickupAdd stdEnv (addPickupOf 2)
    (worldAfter (PickupDestroy stdEnv 1
      (worldAfter (PickupAdd stdEnv (addPickupOf 2)
        (worldAfter (PickupAdd stdEnv (addPickupOf 1) emptyWorld)))))))

/-! ## Theorems -/

theorem Appends_refl (w : World) : Appends w w := ⟨[], by simp⟩

theorem Appends_trans {a b c : World} (h1 : Appends a b) (h2 : Appends b c) : Appends a c := by
  obtain ⟨l1, e1⟩ := h1
  obtain ⟨l2, e2⟩ := h2
  exact ⟨l1 ++ l2, by rw [e2, e1, List.append_assoc]⟩

theorem Appends_of_eq {a b : World} (h : b.gGameEvents = a.gGameEvents) : Appends a b :=
  ⟨[], by simp [h]⟩

theorem Appends_enqueue (a : World) (e : GameEvent) : Appends a (GameEventsEnqueue a e) :=
  ⟨[e], rfl⟩

theorem PlayHitSound_events (h : HitSounds) (t : HitType) (pos : Vec2) (w : World) :
    (PlayHitSound h t pos w).gGameEvents = w.gGameEvents := by
  cases t <;> rfl

theorem RAND_FLOAT_events (env : Env) (lo hi : ℚ) (w : World) :
    (RAND_FLOAT env lo hi w).2.gGameEvents = w.gGameEvents := rfl

theorem RAND_INT_events (env : Env) (lo hi : Int) (w : World) :
    (RAND_INT env lo hi w).2.gGameEvents = w.gGameEvents := by
  unfold RAND_INT; split <;> rfl

theorem appends_iff (w w1 : World) :
    Appends w w1 ↔ ∃ l, w1.gGameEvents = w.gGameEvents ++ l := Iff.rfl

theorem MapTryMoveThing_events (env : Env) (w : World) (t : Thing) (pos : Vec2) :
    (MapTryMoveThing env w t pos).2.2.gGameEvents = w.gGameEvents := rfl

theorem MapRemoveThing_events (env : Env) (w : World) (t : Thing) :
    (MapRemoveThing env w t).2.gGameEvents = w.gGameEvents := rfl

theorem BulletBounce_appends (env : Env) (bb : NBulletBounce) (w w1 : World)
    (hr : BulletBounce env bb w = .ok w1) : Appends w w1 := by
  revert hr
  unfold BulletBounce
  repeat' split
  all_goals intro hr
  all_goals first | (cases hr; done) | skip
  all_goals cases hr
  all_goals simp [appends_iff, GameEventsEnqueue, RAND_FLOAT, rand, PlayHitSound_events,
    MapTryMoveThing_events]

theorem BulletAdd_appends (env : Env) (add : NAddBullet) (w w1 : World)
    (hr : BulletAdd env add w = .ok w1) : Appends w w1 := by
  revert hr
  unfold BulletAdd
  repeat' split
  all_goals intro hr
  all_goals first | (cases hr; done) | skip
  all_goals cases hr
  all_goals simp [appends_iff, RAND_FLOAT_events, RAND_INT_events, MapTryMoveThing_events]

theorem BulletDestroy_appends (env : Env) (i : Nat) (o : TMobileObject) (w w1 : World)
    (hr : BulletDestroy env i o w = .ok w1) : Appends w w1 := by
  revert hr
  unfold BulletDestroy
  repeat' split
  all_goals intro hr
  all_goals first | (cases hr; done) | skip
  all_goals cases hr
  all_goals simp only [appends_iff, AddTrail, MapRemoveThing_events]
  all_goals split <;> simp [World.emit]

theorem PickupDestroy_appends (env : Env) (uid : Int) (w w1 : World)
    (hr : PickupDestroy env uid w = .ok w1) : Appends w w1 := by
  revert hr
  unfold PickupDestroy
  repeat' split
  all_goals intro hr
  all_goals first | (cases hr; done) | skip
  all_goals cases hr
  all_goals simp [appends_iff, MapRemoveThing_events]

theorem PickupAdd_destroyExisting_appends (env : Env) (uid : Int) (w w1 : World)
    (hr : PickupAdd_destroyExisting env uid w = .ok w1) : Appends w w1 := by
  revert hr
  unfold PickupAdd_destroyExisting
  repeat' split
  all_goals intro hr
  all_goals first | (cases hr; done) | skip
  all_goals first | (cases hr; exact Appends_refl _) | exact PickupDestroy_appends _ _ _ _ hr

theorem PickupAdd_appends (env : Env) (ap : NAddPickup) (w w1 : World)
    (hr : PickupAdd env ap w = .ok w1) : Appends w w1 := by
  unfold PickupAdd at hr
  split at hr
  · cases hr
  · rename_i w0 hd
    have h0 := PickupAdd_destroyExisting_appends _ _ _ _ hd
    split at hr
    · cases hr
    · cases hr
      exact Appends_trans h0 (Appends_of_eq rfl)

theorem foldl_appends {α : Type} (f : World → α → World) (hf : ∀ w a, Appends w (f w a))
    (l : List α) (w : World) : Appends w (l.foldl f w) := by
  induction l generalizing w with
  | nil => exact Appends_refl _
  | cons a l ih => exact Appends_trans (hf w a) (ih (f w a))

theorem GunFire_addBullet_appends (env : Env) (gf : NGunFire) (wc : WeaponClass)
    (bulletName : String) (a : ℚ) (w : World) (i : Nat) :
    Appends w (GunFire_addBullet env gf wc bulletName a w i) := by
  unfold GunFire_addBullet
  simp [appends_iff, GameEventsEnqueue, RAND_INT_events, MobObjsObjsGetNextUID, RAND_FLOAT, rand]

theorem GunFire_appends (env : Env) (gf : NGunFire) (w w1 : World)
    (hr : GunFire env gf w = .ok w1) : Appends w w1 := by
  unfold GunFire at hr
  split at hr
  · cases hr
  · rename_i wc _
    dsimp only at hr
    cases hr
    have h1 : Appends w (match wc.Bullet with
        | none => w
        | some bulletName =>
          if (!w.IsClient) = true then
            List.foldl (GunFire_addBullet env gf wc bulletName
              (wc.AngleOffset - ((wc.SpreadCount - 1 : Int) : ℚ) * wc.SpreadWidth / 2)) w
              (List.range wc.SpreadCount.toNat)
          else w) := by
      split
      · exact Appends_refl _
      · split
        · exact foldl_appends _ (GunFire_addBullet_appends env gf wc _ _) _ _
        · exact Appends_refl _
    refine Appends_trans h1 ?_
    simp only [appends_iff, GameEventsEnqueue, World.emit]
    split_ifs <;> simp

theorem ActorDie_revive_appends (env : Env) (a : TActor) (w w1 : World)
    (hr : ActorDie_revive env a w = .ok w1) : Appends w w1 := by
  revert hr
  unfold ActorDie_revive
  repeat' split
  all_goals intro hr
  all_goals try dsimp only at hr
  all_goals repeat' split at hr
  all_goals first | (cases hr; done) | skip
  all_goals cases hr
  all_goals simp [appends_iff, World.emit]

theorem HandleGameEvent_appends (env : Env) (henv : env.AppendOnly) (e : GameEvent)
    (w w1 : World) (hr : HandleGameEvent env e w = .ok w1) : Appends w w1 := by
  revert hr
  unfold HandleGameEvent
  split
  all_goals repeat' split
  all_goals intro hr
  all_goals try dsimp only at hr
  all_goals repeat' split at hr
  all_goals first | (cases hr; done) | skip
  all_goals first
    | exact BulletBounce_appends _ _ _ _ hr
    | exact BulletAdd_appends _ _ _ _ hr
    | exact BulletDestroy_appends _ _ _ _ _ hr
    | exact GunFire_appends _ _ _ _ hr
    | exact henv _ _ _ hr
    | (cases hr
       simp [appends_iff, World.setActor, World.emit, GameEventsEnqueue,
         apply_ite World.gGameEvents]
       done)
    | (cases hr
       have hm := ActorDie_revive_appends _ _ _ _ ‹ActorDie_revive _ _ _ = Except.ok _›
       exact Appends_trans hm (Appends_of_eq rfl))
    | (cases hr
       have hm := PickupAdd_appends _ _ _ _ ‹PickupAdd _ _ _ = Except.ok _›
       exact Appends_trans hm (Appends_of_eq rfl))
    | (cases hr
       have hm := PickupDestroy_appends _ _ _ _ ‹PickupDestroy _ _ _ = Except.ok _›
       exact Appends_trans hm (Appends_of_eq rfl))

theorem LoopInv_step (fuel i : Nat) (w w1 : World) (e : GameEvent) (l : List GameEvent)
    (r1 : Drain) (hi : w.gGameEvents[i]? = some e)
    (hw1 : w1.gGameEvents = w.gGameEvents.set i (decr e) ++ l)
    (h : LoopInv fuel (i + 1) w1 r1) :
    LoopInv (fuel + 1) i w
      { r1 with dispatched :=
          (if (decr e).Delay < 0 then [(i, decr e)] else []) ++ r1.dispatched } := by
  have hlt : i < w.gGameEvents.length := by
    by_contra hc
    rw [List.getElem?_eq_none (by omega)] at hi
    cases hi
  have G : ∀ j, j < w.gGameEvents.length →
      w1.gGameEvents[j]? = if j = i then some (decr e) else w.gGameEvents[j]? := by
    intro j hj
    rw [hw1, List.getElem?_append_left (by simpa using hj)]
    by_cases hji : j = i
    · subst hji; simp [hj]
    · simp [hji, List.getElem?_set, Ne.symm hji]
  have K : r1.world.gGameEvents[i]? = some (decr e) := by
    rw [h.take_eq i (by omega), G i hlt]; simp
  have hlen : w.gGameEvents.length ≤ w1.gGameEvents.length := by
    rw [hw1]; simp
  have hn := h.le_next
  refine ⟨by simp; omega, h.next_le, ?_, ?_, ?_, h.done_next, ?_, le_trans hlen h.length_le⟩
  · intro j hj
    show r1.world.gGameEvents[j]? = _
    rw [h.take_eq j (by omega), G j (by omega)]
    simp [show j ≠ i by omega]
  · show _ ++ r1.dispatched = List.filterMap (visit r1.world.gGameEvents) (List.range' i (r1.next - i))
    have hr : r1.next - i = (r1.next - (i + 1)) + 1 := by omega
    rw [hr, List.range'_succ, List.filterMap_cons, ← h.log_eq]
    simp only [visit, K]
    split_ifs <;> simp
  · intro j hij hjn hjl
    show r1.world.gGameEvents[j]? = _
    by_cases hji : j = i
    · subst hji; rw [K, hi]; rfl
    · rw [h.decr_eq j (by omega) hjn (by omega), G j hjl]
      simp [hji]
  · intro hs
    have := h.fuel_next hs
    show r1.next = _
    omega

theorem HandleGameEventsLoop_inv (env : Env) (henv : env.AppendOnly) :
    ∀ (fuel i : Nat) (w : World), i ≤ w.gGameEvents.length →
      LoopInv fuel i w (HandleGameEventsLoop env fuel i w) := by
  intro fuel
  induction fuel with
  | zero =>
    intro i w hi
    exact ⟨le_refl _, hi, fun _ _ => rfl, by simp [HandleGameEventsLoop],
      fun j h1 h2 _ => absurd h2 (by simp [HandleGameEventsLoop]; omega),
      fun h => by simp [HandleGameEventsLoop] at h, fun _ => rfl, le_refl _⟩
  | succ fuel ih =>
    intro i w hi
    unfold HandleGameEventsLoop
    split
    · rename_i hnone
      have hlen : w.gGameEvents.length ≤ i := by
        by_contra hc
        rw [List.getElem?_eq_getElem (by omega)] at hnone
        cases hnone
      exact ⟨le_refl _, hi, fun _ _ => rfl, by simp,
        fun j h1 h2 _ => absurd h2 (by simp; omega),
        fun _ => by simp; omega, fun h => by simp at h, le_refl _⟩
    · rename_i e hsome
      have hlt : i < w.gGameEvents.length := by
        by_contra hc
        rw [List.getElem?_eq_none (by omega)] at hsome
        cases hsome
      dsimp only
      split
      · rename_i hdelay
        have hstep := LoopInv_step fuel i w
          { w with gGameEvents := w.gGameEvents.set i (decr e) } e [] _ hsome (by simp)
          (ih (i + 1) _ (by simpa using hlt))
        have hnd : ¬ (decr e).Delay < 0 := by simp [decr]; omega
        rw [if_neg hnd] at hstep
        exact hstep
      · rename_i hdelay
        have hd : (decr e).Delay < 0 := by simp [decr]; omega
        split
        · refine ⟨by simp, by simpa using hlt, ?_, ?_, ?_, by simp, by simp, by simp⟩
          · intro j hj
            simp [List.getElem?_set, show i ≠ j by omega]
          · have hv : visit (w.gGameEvents.set i (decr e)) i = some (i, decr e) := by
              simp [visit, hlt, hd]
            show [(i, decr e)] = List.filterMap (visit (w.gGameEvents.set i (decr e)))
              (List.range' i (i + 1 - i))
            simp [List.filterMap_cons, hv]
          · intro j h1 h2 h3
            have : j = i := by simp at h2; omega
            subst this
            simp [hsome, decr, hlt]
        · rename_i w2 hok
          obtain ⟨l, hl⟩ := HandleGameEvent_appends env henv _ _ _ hok
          have hstep := LoopInv_step fuel i w w2 e l _ hsome
            (by simpa [decr] using hl)
            (ih (i + 1) _ (by rw [hl]; simp; omega))
          rw [if_pos hd] at hstep
          exact hstep

theorem HandleGameEvents_dispatched (env : Env) (fuel : Nat) (w : World) :
    (HandleGameEvents env fuel w).dispatched = (HandleGameEventsLoop env fuel 0 w).dispatched := by
  unfold HandleGameEvents
  dsimp only
  split <;> rfl

theorem HandleGameEvents_status (env : Env) (fuel : Nat) (w : World) :
    (HandleGameEvents env fuel w).status = (HandleGameEventsLoop env fuel 0 w).status := by
  unfold HandleGameEvents
  dsimp only
  split <;> rfl

theorem filter_filterMap_visit (s : List GameEvent) (n : Nat) (L : List Nat) :
    (L.filterMap (visit s)).filter (fun p => decide (p.1 < n)) =
      (L.filter (fun j => decide (j < n))).filterMap (visit s) := by
  induction L with
  | nil => rfl
  | cons j L ih =>
    by_cases hj : j < n
    · cases hv : visit s j with
      | none => simp [List.filterMap_cons, hv, hj, ih]
      | some p =>
        have hp : p.1 = j := by
          unfold visit at hv
          split at hv
          · split_ifs at hv
            cases hv; rfl
          · cases hv
        simp [List.filterMap_cons, hv, hj, ih, hp]
    · cases hv : visit s j with
      | none => simp [List.filterMap_cons, hv, hj, ih]
      | some p =>
        have hp : p.1 = j := by
          unfold visit at hv
          split at hv
          · split_ifs at hv
            cases hv; rfl
          · cases hv
        simp [List.filterMap_cons, hv, hj, ih, hp]

theorem filter_range_lt (n m : Nat) (h : n ≤ m) :
    (List.range' 0 m).filter (fun j => decide (j < n)) = List.range n := by
  obtain ⟨k, rfl⟩ := Nat.exists_eq_add_of_le h
  have hsplit : List.range' 0 (n + k) = List.range' 0 n ++ List.range' n k := by
    have := List.range'_append_1 0 n k
    rw [Nat.zero_add] at this
    rw [this, Nat.add_comm]
  rw [hsplit, List.filter_append]
  have h1 : (List.range' 0 n).filter (fun j => decide (j < n)) = List.range' 0 n := by
    rw [List.filter_eq_self]
    intro a ha
    simp [List.mem_range'_1] at ha
    simpa using ha
  have h2 : (List.range' n k).filter (fun j => decide (j < n)) = [] := by
    rw [List.filter_eq_nil_iff]
    intro a ha
    simp [List.mem_range'_1] at ha
    simp; omega
  rw [h1, h2, List.append_nil, List.range_eq_range']

theorem filterMap_visit_congr (s t : List GameEvent) (n : Nat)
    (h : ∀ j, j < n → s[j]? = t[j]?) :
    (List.range n).filterMap (visit s) = (List.range n).filterMap (visit t) := by
  apply List.filterMap_congr
  intro j hj
  simp only [List.mem_range] at hj
  simp [visit, h j hj]

/-- C1. In one call of `HandleGameEvents` that no dispatch stops with a fault, every event in
the store when the call starts has its `Delay` counted down by exactly one, and the calls of
the dispatcher on those events are, in ascending store index, exactly the events whose
counted-down `Delay` is below zero, each passed once with its counted-down `Delay`. -/
theorem HandleGameEvents_visits_initial_events (env : Env) (henv : env.AppendOnly)
    (w : World) (fuel : Nat) (hfuel : w.gGameEvents.length ≤ fuel)
    (hok : ∀ f, (HandleGameEvents env fuel w).status ≠ .fault f) :
    (HandleGameEventsLoop env fuel 0 w).world.gGameEvents.take w.gGameEvents.length
        = w.gGameEvents.map decr
    ∧ (HandleGameEvents env fuel w).dispatched.filter
          (fun p => decide (p.1 < w.gGameEvents.length))
        = (List.range w.gGameEvents.length).filterMap (visit (w.gGameEvents.map decr)) := by
  have inv := HandleGameEventsLoop_inv env henv fuel 0 w (Nat.zero_le _)
  rw [HandleGameEvents_dispatched]
  simp only [HandleGameEvents_status] at hok
  generalize HandleGameEventsLoop env fuel 0 w = r at inv hok
  have hnext : w.gGameEvents.length ≤ r.next := by
    cases hs : r.status with
    | done => rw [inv.done_next hs]; exact inv.length_le
    | fault f => exact absurd hs (hok f)
    | outOfFuel => rw [inv.fuel_next hs]; omega
  have hget : ∀ j, j < w.gGameEvents.length →
      r.world.gGameEvents[j]? = (w.gGameEvents.map decr)[j]? := by
    intro j hj
    rw [inv.decr_eq j (Nat.zero_le _) (by omega) hj, List.getElem?_map]
  refine ⟨?_, ?_⟩
  · apply List.ext_getElem?
    intro j
    by_cases hj : j < w.gGameEvents.length
    · rw [List.getElem?_take_of_lt hj, hget j hj]
    · rw [List.getElem?_eq_none (by simp; omega), List.getElem?_eq_none (by simp; omega)]
  · rw [inv.log_eq, filter_filterMap_visit, Nat.sub_zero, filter_range_lt _ _ hnext]
    exact filterMap_visit_congr _ _ _ hget

theorem stdEnv_appendOnly : stdEnv.AppendOnly := by
  intro k w w1 h
  cases h
  exact Appends_refl _

/-- Witness of C1: the three events of `healWorld` are counted down once each; the heal
(index 0) and the particle (index 2) are dispatched, in that order, and the turn that is due
in two ticks (index 1) is not. -/
theorem HandleGameEvents_visits_initial_events_witness :
    ((HandleGameEventsLoop stdEnv 10 0 healWorld).world.gGameEvents.take
          healWorld.gGameEvents.length
        = healWorld.gGameEvents.map decr
      ∧ (HandleGameEvents stdEnv 10 healWorld).dispatched.filter
            (fun p => decide (p.1 < healWorld.gGameEvents.length))
          = (List.range healWorld.gGameEvents.length).filterMap
              (visit (healWorld.gGameEvents.map decr)))
    ∧ (List.range healWorld.gGameEvents.length).filterMap
          (visit (healWorld.gGameEvents.map decr))
        = [(0, { Delay := -1, u := Payload.ACTOR_HEAL 1 0 10 false }),
           (2, { Delay := -1, u := Payload.ADD_PARTICLE sparkParticle })] :=
  ⟨HandleGameEvents_visits_initial_events stdEnv stdEnv_appendOnly healWorld 10 (by decide)
      (by
        intro f
        rw [show (HandleGameEvents stdEnv 10 healWorld).status = .done from by decide!]
        exact fun h => by cases h),
    by decide!⟩

/-- C2, counterexample.  The heal event of `healWorld` enqueues a floating text particle
while the queue is drained; the same call of `HandleGameEvents` dispatches that particle,
at store index 3, although the store held three events when the call began. -/
theorem HandleGameEvents_dispatches_enqueued_event :
    healWorld.gGameEvents.length = 3
    ∧ (HandleGameEvents stdEnv 10 healWorld).dispatched.map Prod.fst = [0, 2, 3]
    ∧ (HandleGameEvents stdEnv 10 healWorld).dispatched[2]?
        = some (3, { Delay := -1, u := Payload.ADD_PARTICLE healTextParticle })
    ∧ ¬ (∀ p ∈ (HandleGameEvents stdEnv 10 healWorld).dispatched,
          p.1 < healWorld.gGameEvents.length) := by
  decide!

/-- C2, amended.  The events that the dispatcher enqueues while `HandleGameEvents` drains
the queue are appended behind the counted-down events that were there at the start, and
when the loop has ended the dispatcher has been called, in ascending store index, on
exactly the events of the whole store whose `Delay` is below zero, the enqueued ones
included. -/
theorem HandleGameEvents_visits_enqueued_events (env : Env) (henv : env.AppendOnly)
    (w : World) (fuel : Nat) (hdone : (HandleGameEvents env fuel w).status = .done) :
    (∃ enqueued, (HandleGameEventsLoop env fuel 0 w).world.gGameEvents
        = w.gGameEvents.map decr ++ enqueued)
    ∧ (HandleGameEvents env fuel w).dispatched
        = (List.range (HandleGameEventsLoop env fuel 0 w).world.gGameEvents.length).filterMap
            (visit (HandleGameEventsLoop env fuel 0 w).world.gGameEvents) := by
  have inv := HandleGameEventsLoop_inv env henv fuel 0 w (Nat.zero_le _)
  rw [HandleGameEvents_dispatched]
  rw [HandleGameEvents_status] at hdone
  generalize HandleGameEventsLoop env fuel 0 w = r at inv hdone
  have hnext := inv.done_next hdone
  refine ⟨⟨r.world.gGameEvents.drop w.gGameEvents.length, ?_⟩, ?_⟩
  · have htake : r.world.gGameEvents.take w.gGameEvents.length = w.gGameEvents.map decr := by
      apply List.ext_getElem?
      intro j
      by_cases hj : j < w.gGameEvents.length
      · rw [List.getElem?_take_of_lt hj,
          inv.decr_eq j (Nat.zero_le _) (by have := inv.length_le; omega) hj,
          List.getElem?_map]
      · rw [List.getElem?_eq_none (by simp; omega), List.getElem?_eq_none (by simp; omega)]
    rw [← htake, List.take_append_drop]
  · rw [inv.log_eq, hnext, Nat.sub_zero, List.range_eq_range']

/-- Witness of C2 (amended), on `healWorld`: the store ends with four events and the
dispatcher has been called on three of them. -/
theorem HandleGameEvents_visits_enqueued_events_witness :
    ((∃ enqueued, (HandleGameEventsLoop stdEnv 10 0 healWorld).world.gGameEvents
        = healWorld.gGameEvents.map decr ++ enqueued)
      ∧ (HandleGameEvents stdEnv 10 healWorld).dispatched
        = (List.range (HandleGameEventsLoop stdEnv 10 0 healWorld).world.gGameEvents.length).filterMap
            (visit (HandleGameEventsLoop stdEnv 10 0 healWorld).world.gGameEvents))
    ∧ (HandleGameEventsLoop stdEnv 10 0 healWorld).world.gGameEvents.length = 4
    ∧ (HandleGameEvents stdEnv 10 healWorld).dispatched.length = 3 :=
  ⟨HandleGameEvents_visits_enqueued_events stdEnv stdEnv_appendOnly healWorld 10 (by decide!),
    by decide!, by decide!⟩

/-- C4.  Dispatching a BulletBounce or RemoveBullet event whose UID resolves to no
projectile, or to a projectile slot that is not in use, returns without a fault and leaves
the whole world as it was: no projectile changes and no event is enqueued. -/
theorem HandleGameEvent_missing_projectile_noop (env : Env) (e : GameEvent) (w : World)
    (uid : Int) (he : bulletEventUID e.u = some uid) (hmiss : MobObjMissing env w uid) :
    HandleGameEvent env e w = .ok w := by
  unfold HandleGameEvent
  split
  all_goals (rename_i heq; rw [heq] at he; simp only [bulletEventUID] at he)
  all_goals first | (cases he; done) | skip
  · cases he
    unfold BulletBounce
    split
    · rfl
    · rename_i i hi
      obtain ⟨o, ho, hu⟩ := hmiss i hi
      rw [ho]
      simp [hu]
  · cases he
    split
    · rfl
    · rename_i i hi
      obtain ⟨o, ho, hu⟩ := hmiss i hi
      rw [ho]
      simp [hu]

/-- Witness of C4: a BulletBounce event for UID 5 on a world whose slot 0 holds the
projectile with UID 5 not in use, and a RemoveBullet event for UID 5 on the empty world. -/
theorem HandleGameEvent_missing_projectile_noop_witness :
    HandleGameEvent stdEnv { Delay := -1, u := .BULLET_BOUNCE bounceOf5 }
        { emptyWorld with gMobObjs := [someBullet false] }
      = .ok { emptyWorld with gMobObjs := [someBullet false] }
    ∧ HandleGameEvent stdEnv { Delay := -1, u := .REMOVE_BULLET 5 } emptyWorld
      = .ok emptyWorld :=
  ⟨HandleGameEvent_missing_projectile_noop stdEnv _ _ 5 rfl
      (by
        intro i hi
        have hi0 : i = 0 := by
          have : stdEnv.MobObjGetByUID [someBullet false] 5 = some 0 := by decide!
          rw [show ({ emptyWorld with gMobObjs := [someBullet false] } : World).gMobObjs
            = [someBullet false] from rfl, this] at hi
          cases hi; rfl
        subst hi0
        exact ⟨someBullet false, rfl, rfl⟩),
    HandleGameEvent_missing_projectile_noop stdEnv _ _ 5 rfl
      (by
        intro i hi
        have : stdEnv.MobObjGetByUID emptyWorld.gMobObjs 5 = none := by decide!
        rw [this] at hi
        cases hi)⟩

/-- C5, the code at the failing input.  On the world with empty registries, where no UID
resolves, the dispatch of an event of each of the twelve kinds that target an actor or a
pickup by UID dereferences the `NULL` pointer that the lookup returned. -/
theorem HandleGameEvent_missing_actor_or_pickup_faults :
    eventsForUID7.map (fun u => HandleGameEvent stdEnv { Delay := -1, u := u } emptyWorld)
      = List.replicate 12 (.error .nullDeref) := by
  rfl

theorem derefActor_missing (env : Env) (w : World) (uid : Int)
    (h : env.ActorGetByUID w.gActors uid = none) :
    derefActor env w uid = .error .nullDeref := by
  simp [derefActor, h]

theorem svec2_distance_squared_nonneg (a b : Vec2) : 0 ≤ svec2_distance_squared a b := by
  unfold svec2_distance_squared
  exact add_nonneg (mul_self_nonneg _) (mul_self_nonneg _)

theorem recordContact_multipleHits (origin : Vec2) (data : HitItemData) (c : Contact) :
    (recordContact origin data c).MultipleHits = data.MultipleHits := by
  unfold recordContact SetClosestCollision
  dsimp only
  split <;> rfl

theorem recordContact_cases (origin : Vec2) (data : HitItemData) (c : Contact) :
    ((data.ColPosDist2 < 0 ∨ c.dist2 origin < data.ColPosDist2)
        ∧ Records origin (recordContact origin data c) c)
    ∨ (¬ (data.ColPosDist2 < 0 ∨ c.dist2 origin < data.ColPosDist2)
        ∧ recordContact origin data c = data) := by
  by_cases h : data.ColPosDist2 < 0 ∨ c.dist2 origin < data.ColPosDist2
  · left
    refine ⟨h, ?_⟩
    have hb : (decide (data.ColPosDist2 < 0)
        || decide (svec2_distance_squared c.col origin < data.ColPosDist2)) = true := by
      simpa [Contact.dist2] using h
    simp only [recordContact, SetClosestCollision, hb, if_true, Records, Contact.u,
      Contact.dist2]
    simp
  · right
    refine ⟨h, ?_⟩
    have hb : ¬ (decide (data.ColPosDist2 < 0)
        || decide (svec2_distance_squared c.col origin < data.ColPosDist2)) = true := by
      simpa [Contact.dist2] using h
    simp only [recordContact, SetClosestCollision, hb, if_false]
    rfl

/-- The invariant of a run of `SetClosestCollision` calls from the initial `ColPosDist2 = -1`:
nothing recorded yet, or the first closest contact recorded. -/
theorem foldl_recordContact_inv (origin : Vec2) (data0 : HitItemData)
    (h0 : data0.ColPosDist2 < 0) (contacts : List Contact) :
    (contacts = [] ∧ contacts.foldl (recordContact origin) data0 = data0)
    ∨ ∃ k c, FirstClosest origin contacts k c
        ∧ Records origin (contacts.foldl (recordContact origin) data0) c := by
  induction contacts using List.reverseRecOn with
  | nil => exact Or.inl ⟨rfl, rfl⟩
  | append_singleton l c ih =>
    right
    rw [List.foldl_append, List.foldl_cons, List.foldl_nil]
    rcases ih with ⟨hl, hfold⟩ | ⟨k, ck, hfc, hrec⟩
    · subst hl
      rw [hfold]
      rcases recordContact_cases origin data0 c with ⟨_, hr⟩ | ⟨hn, _⟩
      · refine ⟨0, c, ⟨by simp, ?_, ?_⟩, hr⟩
        · intro j c1 hj
          cases j with
          | zero => simp at hj; subst hj; exact le_refl _
          | succ j => simp at hj
        · intro j c1 hj
          exact absurd hj (Nat.not_lt_zero j)
      · exact absurd (Or.inl h0) hn
    · obtain ⟨hk, hmin, hfirst⟩ := hfc
      have hklt : k < l.length := by
        by_contra hc
        rw [List.getElem?_eq_none (by omega)] at hk
        cases hk
      have hd : (List.foldl (recordContact origin) data0 l).ColPosDist2 = ck.dist2 origin :=
        hrec.2.2.2.2
      have hnn : ¬ (List.foldl (recordContact origin) data0 l).ColPosDist2 < 0 := by
        rw [hd]
        exact not_lt.mpr (svec2_distance_squared_nonneg _ _)
      rcases recordContact_cases origin (List.foldl (recordContact origin) data0 l) c with
        ⟨hlt, hr⟩ | ⟨hn, heq⟩
      · have hlt2 : c.dist2 origin < ck.dist2 origin := by
          rcases hlt with h | h
          · exact absurd h hnn
          · rwa [hd] at h
        refine ⟨l.length, c, ⟨by simp, ?_, ?_⟩, hr⟩
        · intro j c1 hj
          by_cases hjl : j < l.length
          · rw [List.getElem?_append_left hjl] at hj
            exact le_trans (le_of_lt hlt2) (hmin j c1 hj)
          · by_cases hje : j = l.length
            · subst hje
              simp at hj
              subst hj
              exact le_refl _
            · rw [List.getElem?_eq_none (by simp; omega)] at hj
              cases hj
        · intro j c1 hjl hj
          rw [List.getElem?_append_left hjl] at hj
          exact lt_of_lt_of_le hlt2 (hmin j c1 hj)
      · rw [heq]
        have hge : ck.dist2 origin ≤ c.dist2 origin := by
          rw [← hd]
          exact not_lt.mp (fun h => hn (Or.inr h))
        refine ⟨k, ck, ⟨by rw [List.getElem?_append_left hklt]; exact hk, ?_, ?_⟩, hrec⟩
        · intro j c1 hj
          by_cases hjl : j < l.length
          · rw [List.getElem?_append_left hjl] at hj
            exact hmin j c1 hj
          · by_cases hje : j = l.length
            · subst hje
              simp at hj
              subst hj
              exact hge
            · rw [List.getElem?_eq_none (by simp; omega)] at hj
              cases hj
        · intro j c1 hjk hj
          rw [List.getElem?_append_left (by omega)] at hj
          exact hfirst j c1 hjk hj

/-- One callback call for a projectile without multiple hits: the projectile and the world
stay as they are, and the call of `SetClosestCollision` is the one `contactOf` names. -/
theorem HitItem_callback_single (env : Env) (c : Candidate) (s s1 : HitState)
    (hm : s.data.MultipleHits = false) (h : HitItem_callback env s c = .ok s1) :
    s1.obj = s.obj ∧ s1.w = s.w
      ∧ s1.data = ((contactOf env s.w s.obj c).toList).foldl (recordContact s.obj.thing.Pos)
          s.data := by
  cases c with
  | wall tilePos col normal =>
    simp only [HitItem_callback] at h
    cases h
    exact ⟨rfl, rfl, rfl⟩
  | thing ti colA colB normal =>
    simp only [HitItem_callback, HitItemFunc, hm] at h
    by_cases hc : env.CanHit s.obj.flags s.obj.ActorUID ti = true
    · simp only [hc, Bool.not_true, Bool.false_eq_true, if_false] at h
      cases hg : GetHitType env s.w ti s.obj with
      | error f => rw [hg] at h; cases h
      | ok r =>
        obtain ⟨ht, uid⟩ := r
        rw [hg] at h
        cases h
        refine ⟨rfl, rfl, ?_⟩
        simp only [contactOf, hc, if_true, hg]
        rfl
    · simp only [hc, Bool.not_false, if_true] at h
      cases h
      simp [contactOf, hc]

theorem HitItem_callbacks_single (env : Env) (cands : List Candidate) :
    ∀ (s s1 : HitState), s.data.MultipleHits = false →
      HitItem_callbacks env s cands = .ok s1 →
      s1.obj = s.obj ∧ s1.w = s.w
        ∧ s1.data = (cands.filterMap (contactOf env s.w s.obj)).foldl
            (recordContact s.obj.thing.Pos) s.data := by
  induction cands with
  | nil =>
    intro s s1 _ h
    simp only [HitItem_callbacks] at h
    cases h
    exact ⟨rfl, rfl, rfl⟩
  | cons c cs ih =>
    intro s s1 hm h
    simp only [HitItem_callbacks] at h
    cases hc : HitItem_callback env s c with
    | error f => rw [hc] at h; cases h
    | ok s2 =>
      rw [hc] at h
      obtain ⟨ho, hw, hd⟩ := HitItem_callback_single env c s s2 hm hc
      have hm2 : s2.data.MultipleHits = false := by
        rw [hd]
        cases contactOf env s.w s.obj c with
        | none => exact hm
        | some ct => simpa [recordContact_multipleHits] using hm
      obtain ⟨ho1, hw1, hd1⟩ := ih s2 s1 hm2 h
      refine ⟨ho1.trans ho, hw1.trans hw, ?_⟩
      rw [hd1, ho, hw, hd, List.filterMap_cons]
      cases contactOf env s.w s.obj c with
      | none => rfl
      | some ct => rfl

theorem contactOf_emit (env : Env) (w : World) (x : Effect) (obj : TMobileObject) :
    contactOf env (w.emit x) obj = contactOf env w obj := by
  funext c
  cases c <;> rfl

/-- C6.  For a projectile without multiple hits, when the callbacks of the overlap query
have made a non-empty sequence of `SetClosestCollision` calls (one for every wall and one for
every target that passes `CanHit`), the `HitItemData` holds the position, normal, hit type
and target or tile of the contact at the minimum squared distance to the position of the
projectile, and of the first such contact when several are at that distance. -/
theorem SetClosestCollision_records_first_closest (env : Env) (obj : TMobileObject)
    (pos : Vec2) (w : World) (s : HitState)
    (h : HitItem_overlap env obj pos false w = .ok s)
    (hne : (env.OverlapThings w obj.thing pos).filterMap (contactOf env w obj) ≠ []) :
    ∃ k c,
      FirstClosest obj.thing.Pos
        ((env.OverlapThings w obj.thing pos).filterMap (contactOf env w obj)) k c
      ∧ Records obj.thing.Pos s.data c := by
  unfold HitItem_overlap at h
  obtain ⟨_, _, hd⟩ := HitItem_callbacks_single env _ _ s rfl h
  dsimp only at hd
  rw [contactOf_emit] at hd
  have key := foldl_recordContact_inv obj.thing.Pos
    { HitType := .HIT_NONE, MultipleHits := false, u := .unset, ColPos := pos,
      ColNormal := svec2_zero, ColPosDist2 := -1 }
    (by norm_num) ((env.OverlapThings w obj.thing pos).filterMap (contactOf env w obj))
  rw [← hd] at key
  rcases key with ⟨he, _⟩ | hex
  · exact absurd he hne
  · exact hex

/-- Witness of C6: with a wall at distance 5 reported first and a target at distance 3
reported second, the target (index 1) is the contact recorded. -/
theorem SetClosestCollision_records_first_closest_witness :
    (∃ k c,
      FirstClosest originBullet.thing.Pos
        ((envWallThenTarget.OverlapThings hitWorld originBullet.thing ⟨0, 0⟩).filterMap
          (contactOf envWallThenTarget hitWorld originBullet)) k c
      ∧ Records originBullet.thing.Pos stateWallThenTarget.data c)
    ∧ stateWallThenTarget.data.HitType = .HIT_FLESH
    ∧ stateWallThenTarget.data.u = .Target (actorThing 0) :=
  ⟨SetClosestCollision_records_first_closest envWallThenTarget originBullet ⟨0, 0⟩ hitWorld
      stateWallThenTarget (by with_unfolding_all rfl) (by decide!),
    rfl, rfl⟩

theorem lockTargetSound_effects (env : Env) (w : World) (t : ThingRef) :
    (w.lockTargetSound env t).effects = w.effects := by
  unfold World.lockTargetSound
  split <;> (try split) <;> rfl

theorem lockTargetSound_uidView (env : Env) (w : World) (t : ThingRef) :
    uidView (w.lockTargetSound env t) = uidView w := by
  unfold World.lockTargetSound
  split
  · split
    · rename_i a ha
      simp only [uidView, List.map_set]
      congr 1
      apply List.ext_getElem?
      intro j
      by_cases hj : j = t.id
      · subst hj; simp [List.getElem?_set, ha]
        have := List.getElem?_eq_some_iff.mp ha
        obtain ⟨hlt, _⟩ := this
        simp [hlt, ha]
      · simp [List.getElem?_set, Ne.symm hj]
    · rfl
  · split
    · rename_i o ho
      simp only [uidView, List.map_set]
      congr 1
      apply List.ext_getElem?
      intro j
      by_cases hj : j = t.id
      · subst hj; simp [List.getElem?_set, ho]
        have := List.getElem?_eq_some_iff.mp ho
        obtain ⟨hlt, _⟩ := this
        simp [hlt, ho]
      · simp [List.getElem?_set, Ne.symm hj]
    · rfl
  · split <;> rfl
  · split <;> rfl
  · rfl

theorem GetHitType_kind_congr (env : Env) (w w1 : World) (ti : ThingRef)
    (h : uidView w1 = uidView w) : GetHitType_kind env w1 ti = GetHitType_kind env w ti := by
  have ha : ∀ i : Nat, (w1.gActors[i]?).map TActor.uid = (w.gActors[i]?).map TActor.uid := by
    intro i
    have := congrArg Prod.fst h
    simp only [uidView] at this
    rw [← List.getElem?_map, ← List.getElem?_map, this]
  have ho : ∀ i : Nat, (w1.gObjs[i]?).map TObject.uid = (w.gObjs[i]?).map TObject.uid := by
    intro i
    have := congrArg Prod.snd h
    simp only [uidView] at this
    rw [← List.getElem?_map, ← List.getElem?_map, this]
  unfold GetHitType_kind
  cases hk : ti.kind
  · have := ha ti.id
    cases h1 : w1.gActors[ti.id]? <;> cases h2 : w.gActors[ti.id]? <;>
      simp [h1, h2] at this ⊢
    exact this
  · rfl
  · have := ho ti.id
    cases h1 : w1.gObjs[ti.id]? <;> cases h2 : w.gObjs[ti.id]? <;>
      simp [h1, h2] at this ⊢
    exact this
  · rfl
  · rfl

theorem targetUID_congr (env : Env) (w w1 : World) (ti : ThingRef)
    (h : uidView w1 = uidView w) : targetUID env w1 ti = targetUID env w ti := by
  unfold targetUID
  rw [GetHitType_kind_congr env w w1 ti h]

theorem GetHitType_uid (env : Env) (w : World) (ti : ThingRef) (obj : TMobileObject)
    (ht : HitType) (uid : Int) (h : GetHitType env w ti obj = .ok (ht, uid)) :
    uid = targetUID env w ti := by
  unfold GetHitType at h
  unfold targetUID
  cases hk : GetHitType_kind env w ti with
  | error f => rw [hk] at h; cases h
  | ok r =>
    obtain ⟨ht0, uid0⟩ := r
    rw [hk] at h
    dsimp only at h ⊢
    split at h <;> (cases h; rfl)

theorem damagedTargets_append (a b : List Effect) :
    damagedTargets (a ++ b) = damagedTargets a ++ damagedTargets b := by
  simp [damagedTargets, List.filterMap_append]

/-- What a successful `OnHit` does: one `Damage` call on the target, with the UID that
`GetHitType` found, and the hit type of the target stored in `data`. -/
theorem OnHit_ok (env : Env) (s s1 : HitState) (t : ThingRef) (h : OnHit env s t = .ok s1) :
    ∃ ht uid, GetHitType env s.w t s.obj = .ok (ht, uid)
      ∧ s1.w.effects = s.w.effects ++ [damageBy env s.w s.obj t.kind uid]
      ∧ s1.data = { s.data with HitType := ht }
      ∧ s1.obj.flags = s.obj.flags ∧ s1.obj.ActorUID = s.obj.ActorUID
      ∧ uidView s1.w = uidView s.w := by
  unfold OnHit at h
  cases hg : GetHitType env s.w t s.obj with
  | error f => rw [hg] at h; cases h
  | ok r =>
    obtain ⟨ht, uid⟩ := r
    rw [hg] at h
    dsimp only at h
    cases h
    refine ⟨ht, uid, rfl, ?_, rfl, rfl, rfl, ?_⟩
    · rw [lockTargetSound_effects]
      rfl
    · rw [lockTargetSound_uidView]
      rfl

theorem contactOf_mem_thing (env : Env) (w : World) (obj : TMobileObject)
    (cands : List Candidate) (c : Contact)
    (hc : c ∈ cands.filterMap (contactOf env w obj)) (hw : c.ht ≠ .HIT_WALL) :
    ∃ uid, GetHitType env w c.target obj = .ok (c.ht, uid) := by
  rw [List.mem_filterMap] at hc
  obtain ⟨cand, _, hcand⟩ := hc
  cases cand with
  | wall tilePos col normal =>
    simp only [contactOf, Option.some.injEq] at hcand
    subst hcand
    exact absurd rfl hw
  | thing ti colA colB normal =>
    simp only [contactOf] at hcand
    split at hcand
    · cases hg : GetHitType env w ti obj with
      | error f => rw [hg] at hcand; cases hcand
      | ok r =>
        obtain ⟨ht, uid⟩ := r
        rw [hg] at hcand
        simp only [Option.some.injEq] at hcand
        subst hcand
        exact ⟨uid, hg⟩
    · cases hcand

/-- What `HitItem` does for a projectile without multiple hits after the overlap query left
the state `s`: nothing, or one `Damage` call on the recorded target, whose hit type, as
`GetHitType` gave it when the target was reported, is object or flesh. -/
theorem HitItem_single_cases (env : Env) (obj : TMobileObject) (pos : Vec2) (w : World)
    (hit : HitResult) (obj1 : TMobileObject) (w1 : World)
    (h : HitItem env obj pos false w = .ok (hit, obj1, w1)) :
    ∃ s, HitItem_overlap env obj pos false w = .ok s
      ∧ ((w1.effects = w.effects ++ [.OverlapThings pos]
            ∧ ¬ (s.data.HitType = .HIT_OBJECT ∨ s.data.HitType = .HIT_FLESH))
          ∨ ∃ t uid, s.data.u = .Target t
              ∧ (s.data.HitType = .HIT_OBJECT ∨ s.data.HitType = .HIT_FLESH)
              ∧ GetHitType env w t obj = .ok (s.data.HitType, uid)
              ∧ w1.effects
                  = w.effects ++ [.OverlapThings pos, damageBy env w obj t.kind uid]) := by
  unfold HitItem at h
  cases ho : HitItem_overlap env obj pos false w with
  | error f => rw [ho] at h; cases h
  | ok s =>
    rw [ho] at h
    refine ⟨s, rfl, ?_⟩
    have ho2 := ho
    unfold HitItem_overlap at ho2
    obtain ⟨hobj, hw, hd⟩ := HitItem_callbacks_single env _ _ s rfl ho2
    dsimp only at hobj hw hd
    rw [contactOf_emit] at hd
    have key := foldl_recordContact_inv obj.thing.Pos
      { HitType := .HIT_NONE, MultipleHits := false, u := .unset, ColPos := pos,
        ColNormal := svec2_zero, ColPosDist2 := -1 }
      (by norm_num) ((env.OverlapThings w obj.thing pos).filterMap (contactOf env w obj))
    rw [← hd] at key
    dsimp only at h
    cases hc : HitItem_closest env false s with
    | error f => rw [hc] at h; cases h
    | ok s1 =>
      rw [hc] at h
      cases h
      unfold HitItem_closest at hc
      by_cases hty : s.data.HitType = .HIT_OBJECT ∨ s.data.HitType = .HIT_FLESH
      · rcases key with ⟨_, hinit⟩ | ⟨k, c, hfc, hrec⟩
        · rw [hinit] at hty
          rcases hty with h1 | h1 <;> cases h1
        · obtain ⟨_, _, hht, hu, hdist⟩ := hrec
          have hnw : c.ht ≠ .HIT_WALL := by
            rw [← hht]
            rcases hty with h1 | h1 <;> rw [h1] <;> decide
          have hmem : c ∈ (env.OverlapThings w obj.thing pos).filterMap
              (contactOf env w obj) := List.getElem?_mem hfc.1
          obtain ⟨uid0, hg0⟩ := contactOf_mem_thing env w obj _ c hmem hnw
          have hut : s.data.u = .Target c.target := by
            rw [hu]
            simp [Contact.u, hnw]
          have hnn : (0 : ℚ) ≤ s.data.ColPosDist2 := by
            rw [hdist]
            exact svec2_distance_squared_nonneg _ _
          have hcond : (!false && decide (s.data.ColPosDist2 ≥ 0)
              && (decide (s.data.HitType = .HIT_OBJECT)
                  || decide (s.data.HitType = .HIT_FLESH))) = true := by
            simpa using ⟨hnn, hty⟩
          rw [if_pos hcond, hut] at hc
          dsimp only at hc
          obtain ⟨ht, uid, hg, heff, _, _, _, _⟩ := OnHit_ok env s s1 c.target hc
          rw [hw, hobj] at hg
          have hg1 : GetHitType env w c.target obj = .ok (ht, uid) := hg
          rw [hg0] at hg1
          cases hg1
          right
          refine ⟨c.target, uid0, hut, hty, ?_, ?_⟩
          · rw [hht]; exact hg0
          · rw [heff, hw, hobj]
            simp [World.emit, damageBy]
      · left
        have hcond : ¬ (!false && decide (s.data.ColPosDist2 ≥ 0)
            && (decide (s.data.HitType = .HIT_OBJECT)
                || decide (s.data.HitType = .HIT_FLESH))) = true := by
          simp
          intro _
          exact not_or.mp hty
        rw [if_neg hcond] at hc
        cases hc
        exact ⟨by rw [hw]; rfl, hty⟩

/-- C7.  For a projectile without multiple hits, one `HitItem` call makes at most one
`Damage` call, after the overlap query has reported all candidates, and only on the target
recorded as the closest contact; when the closest contact is a wall it makes none. -/
theorem HitItem_single_damages_closest_only (env : Env) (obj : TMobileObject) (pos : Vec2)
    (w : World) (hit : HitResult) (obj1 : TMobileObject) (w1 : World)
    (h : HitItem env obj pos false w = .ok (hit, obj1, w1)) :
    ∃ s, HitItem_overlap env obj pos false w = .ok s
      ∧ (w1.effects = w.effects ++ [.OverlapThings pos]
          ∨ ∃ t, s.data.u = .Target t
              ∧ w1.effects = w.effects
                  ++ [.OverlapThings pos, damageBy env w obj t.kind (targetUID env w t)])
      ∧ (s.data.HitType = .HIT_WALL → w1.effects = w.effects ++ [.OverlapThings pos]) := by
  obtain ⟨s, hs, hcases⟩ := HitItem_single_cases env obj pos w hit obj1 w1 h
  refine ⟨s, hs, ?_, ?_⟩
  · rcases hcases with ⟨h1, _⟩ | ⟨t, uid, hu, hg⟩
    · exact Or.inl h1
    · have heff := hg.2.2
      rw [GetHitType_uid env w t obj _ uid hg.2.1] at heff
      exact Or.inr ⟨t, hu, heff⟩
  · intro hwall
    rcases hcases with ⟨h1, _⟩ | ⟨t, uid, _, hty, _, _⟩
    · exact h1
    · rw [hwall] at hty
      rcases hty with h1 | h1 <;> cases h1

/-- Witness of C7: of the three targets at distances 3, 2 and 4, a projectile without
multiple hits damages only the one at distance 2 (UID 2). -/
theorem HitItem_single_damages_closest_only_witness :
    (∃ s, HitItem_overlap envThreeTargets originBullet ⟨0, 0⟩ false hitWorld = .ok s
      ∧ (worldThreeSingle.effects = hitWorld.effects ++ [.OverlapThings ⟨0, 0⟩]
          ∨ ∃ t, s.data.u = .Target t
              ∧ worldThreeSingle.effects
                  = hitWorld.effects ++ [.OverlapThings ⟨0, 0⟩,
                      damageBy envThreeTargets hitWorld originBullet t.kind
                        (targetUID envThreeTargets hitWorld t)])
      ∧ (s.data.HitType = .HIT_WALL
          → worldThreeSingle.effects = hitWorld.effects ++ [.OverlapThings ⟨0, 0⟩]))
    ∧ damagedTargets worldThreeSingle.effects = [(.KIND_CHARACTER, 2)] :=
  ⟨HitItem_single_damages_closest_only envThreeTargets originBullet ⟨0, 0⟩ hitWorld
      { Type_ := .HIT_FLESH, Pos := ⟨2, 0⟩, Normal := ⟨-1, 0⟩ } (bulletAfterHit originBullet)
      worldThreeSingle (by with_unfolding_all rfl),
    by decide!⟩

theorem SetClosestCollision_multipleHits (data : HitItemData) (origin col normal : Vec2)
    (ht : HitType) (target : ThingRef) (tilePos : Vec2i) :
    (SetClosestCollision data origin col normal ht target tilePos).MultipleHits
      = data.MultipleHits := by
  unfold SetClosestCollision
  dsimp only
  split <;> rfl

/-- One callback call for a projectile with multiple hits: a target that passes `CanHit` is
damaged once, and nothing else is. -/
theorem HitItem_callback_multiple (env : Env) (c : Candidate) (s s1 : HitState)
    (hm : s.data.MultipleHits = true) (h : HitItem_callback env s c = .ok s1) :
    s1.data.MultipleHits = true ∧ s1.obj.flags = s.obj.flags
      ∧ s1.obj.ActorUID = s.obj.ActorUID ∧ uidView s1.w = uidView s.w
      ∧ damagedTargets s1.w.effects = damagedTargets s.w.effects
          ++ ((hittable env s.obj c).toList.map (fun ti => (ti.kind, targetUID env s.w ti))) := by
  cases c with
  | wall tilePos col normal =>
    simp only [HitItem_callback] at h
    cases h
    refine ⟨?_, rfl, rfl, rfl, ?_⟩
    · simp only [HitWallFunc, SetClosestCollision_multipleHits]
      exact hm
    · simp [hittable, HitWallFunc]
  | thing ti colA colB normal =>
    simp only [HitItem_callback, HitItemFunc, hm] at h
    by_cases hc : env.CanHit s.obj.flags s.obj.ActorUID ti = true
    · simp only [hc, Bool.not_true, Bool.false_eq_true, if_false, if_true] at h
      obtain ⟨ht, uid, hg, heff, hd, hf, ha, hv⟩ := OnHit_ok env s s1 ti h
      refine ⟨by rw [hd]; exact hm, hf, ha, hv, ?_⟩
      rw [heff, damagedTargets_append, GetHitType_uid env s.w ti s.obj ht uid hg]
      simp [hittable, hc, damagedTargets, damageBy]
    · simp only [hc, Bool.not_false, if_true] at h
      cases h
      refine ⟨hm, rfl, rfl, rfl, ?_⟩
      simp [hittable, hc]

theorem hittable_congr (env : Env) (o1 o2 : TMobileObject) (hf : o1.flags = o2.flags)
    (ha : o1.ActorUID = o2.ActorUID) : hittable env o1 = hittable env o2 := by
  funext c
  cases c with
  | wall tilePos col normal => rfl
  | thing ti colA colB normal => simp [hittable, hf, ha]

theorem HitItem_callbacks_multiple (env : Env) (cands : List Candidate) :
    ∀ (s s1 : HitState), s.data.MultipleHits = true →
      HitItem_callbacks env s cands = .ok s1 →
      damagedTargets s1.w.effects = damagedTargets s.w.effects
        ++ (cands.filterMap (hittable env s.obj)).map
            (fun ti => (ti.kind, targetUID env s.w ti)) := by
  induction cands with
  | nil =>
    intro s s1 _ h
    simp only [HitItem_callbacks] at h
    cases h
    simp
  | cons c cs ih =>
    intro s s1 hm h
    simp only [HitItem_callbacks] at h
    cases hc : HitItem_callback env s c with
    | error f => rw [hc] at h; cases h
    | ok s2 =>
      rw [hc] at h
      obtain ⟨hm2, hf, ha, hv, hd⟩ := HitItem_callback_multiple env c s s2 hm hc
      have ih2 := ih s2 s1 hm2 h
      rw [ih2, hd, hittable_congr env s2.obj s.obj hf ha, List.filterMap_cons]
      have htu : (fun ti : ThingRef => (ti.kind, targetUID env s2.w ti))
          = (fun ti : ThingRef => (ti.kind, targetUID env s.w ti)) := by
        funext ti
        rw [targetUID_congr env s.w s2.w ti hv]
      rw [htu]
      cases hittable env s.obj c with
      | none => simp
      | some ti => simp

/-- C8.  For a projectile with multiple hits, one `HitItem` call makes exactly one `Damage`
call for every target reported by the overlap query that passes the `CanHit` filter, in
report order, and no other `Damage` call. -/
theorem HitItem_multiple_damages_every_target (env : Env) (obj : TMobileObject) (pos : Vec2)
    (w : World) (hit : HitResult) (obj1 : TMobileObject) (w1 : World)
    (h : HitItem env obj pos true w = .ok (hit, obj1, w1)) :
    damagedTargets w1.effects = damagedTargets w.effects
      ++ ((env.OverlapThings w obj.thing pos).filterMap (hittable env obj)).map
          (fun ti => (ti.kind, targetUID env w ti)) := by
  unfold HitItem at h
  cases ho : HitItem_overlap env obj pos true w with
  | error f => rw [ho] at h; cases h
  | ok s =>
    rw [ho] at h
    have hc : HitItem_closest env true s = .ok s := by
      simp [HitItem_closest]
    dsimp only at h
    rw [hc] at h
    cases h
    unfold HitItem_overlap at ho
    have key := HitItem_callbacks_multiple env _ _ s rfl ho
    dsimp only at key
    rw [key]
    have hv : uidView (w.emit (.OverlapThings pos)) = uidView w := rfl
    have htu : (fun ti : ThingRef => (ti.kind, targetUID env (w.emit (.OverlapThings pos)) ti))
        = (fun ti : ThingRef => (ti.kind, targetUID env w ti)) := by
      funext ti
      rw [targetUID_congr env w _ ti hv]
    rw [htu]
    simp [World.emit, damagedTargets_append, damagedTargets]

/-- Witness of C8: a sweep of a projectile with multiple hits across three targets that pass
`CanHit` damages all three (UIDs 1, 2 and 3) in the one call. -/
theorem HitItem_multiple_damages_every_target_witness :
    damagedTargets (worldThreeMultiple piercingBullet).effects
        = damagedTargets hitWorld.effects
          ++ ((envThreeTargets.OverlapThings hitWorld piercingBullet.thing ⟨0, 0⟩).filterMap
                (hittable envThreeTargets piercingBullet)).map
              (fun ti => (ti.kind, targetUID envThreeTargets hitWorld ti))
    ∧ damagedTargets (worldThreeMultiple piercingBullet).effects
        = [(.KIND_CHARACTER, 1), (.KIND_CHARACTER, 2), (.KIND_CHARACTER, 3)] :=
  ⟨HitItem_multiple_damages_every_target envThreeTargets piercingBullet ⟨0, 0⟩ hitWorld
      HitResult.none (bulletAfterHit piercingBullet) (worldThreeMultiple piercingBullet)
      (by with_unfolding_all rfl),
    by decide!⟩

/-- C9, counterexample.  For the projectile `lockedBullet`, with multiple hits and a
positive sound lock, `GetHitType` yields no hit for each of the three targets, and `HitItem`
makes a `Damage` call on each of them all the same. -/
theorem HitItem_multiple_damages_despite_sound_lock :
    lockedBullet.thing.SoundLock = 5
    ∧ [actorThing 0, actorThing 1, actorThing 2].map
        (fun ti => match GetHitType envThreeTargets hitWorld ti lockedBullet with
          | .ok r => some r.1
          | .error _ => none)
      = [some .HIT_NONE, some .HIT_NONE, some .HIT_NONE]
    ∧ (match HitItem envThreeTargets lockedBullet ⟨0, 0⟩ true hitWorld with
        | .ok r => damagedTargets r.2.2.effects
        | .error _ => [])
      = [(.KIND_CHARACTER, 1), (.KIND_CHARACTER, 2), (.KIND_CHARACTER, 3)] := by
  decide!

/-- C9, amended.  For a projectile without multiple hits, `HitItem` makes no `Damage` call
on a target for which `GetHitType` yields no hit: it makes no `Damage` call at all, or one
on a target whose hit type, as `GetHitType` gives it for the projectile and world at the
call, is object or flesh. -/
theorem HitItem_single_damages_only_hit_targets (env : Env) (obj : TMobileObject)
    (pos : Vec2) (w : World) (hit : HitResult) (obj1 : TMobileObject) (w1 : World)
    (h : HitItem env obj pos false w = .ok (hit, obj1, w1)) :
    w1.effects = w.effects ++ [.OverlapThings pos]
      ∨ ∃ t ht uid, GetHitType env w t obj = .ok (ht, uid)
          ∧ (ht = .HIT_OBJECT ∨ ht = .HIT_FLESH)
          ∧ w1.effects = w.effects ++ [.OverlapThings pos, damageBy env w obj t.kind uid] := by
  obtain ⟨s, _, hcases⟩ := HitItem_single_cases env obj pos w hit obj1 w1 h
  rcases hcases with ⟨h1, _⟩ | ⟨t, uid, _, hty, hg, heff⟩
  · exact Or.inl h1
  · exact Or.inr ⟨t, s.data.HitType, uid, hg, hty, heff⟩

/-- Witness of C9 (amended): for a projectile without multiple hits and with a positive sound
lock, `GetHitType` yields no hit for the three targets and `HitItem` makes no `Damage`
call. -/
theorem HitItem_single_damages_only_hit_targets_witness :
    ((hitWorld.emit (.OverlapThings ⟨0, 0⟩)).effects
          = hitWorld.effects ++ [.OverlapThings ⟨0, 0⟩]
        ∨ ∃ t ht uid, GetHitType envThreeTargets hitWorld t lockedSingleBullet = .ok (ht, uid)
            ∧ (ht = .HIT_OBJECT ∨ ht = .HIT_FLESH)
            ∧ (hitWorld.emit (.OverlapThings ⟨0, 0⟩)).effects
                = hitWorld.effects ++ [.OverlapThings ⟨0, 0⟩,
                    damageBy envThreeTargets hitWorld lockedSingleBullet t.kind uid])
    ∧ damagedTargets (hitWorld.emit (.OverlapThings ⟨0, 0⟩)).effects = [] :=
  ⟨HitItem_single_damages_only_hit_targets envThreeTargets lockedSingleBullet ⟨0, 0⟩ hitWorld
      { Type_ := .HIT_NONE, Pos := ⟨2, 0⟩, Normal := ⟨-1, 0⟩ } lockedSingleBullet
      (hitWorld.emit (.OverlapThings ⟨0, 0⟩)) (by with_unfolding_all rfl),
    by decide!⟩

theorem validTarget_congr (w w1 : World) (ti : ThingRef) (h : uidView w1 = uidView w)
    (hv : validTarget w ti) : validTarget w1 ti := by
  have ha : w1.gActors.length = w.gActors.length := by
    have := congrArg (fun p => p.1.length) h
    simpa [uidView] using this
  have ho : w1.gObjs.length = w.gObjs.length := by
    have := congrArg (fun p => p.2.length) h
    simpa [uidView] using this
  unfold validTarget at hv ⊢
  rw [ha, ho]
  exact hv

/-- The function `GetHitType` returns for a valid target. -/
theorem GetHitType_returns (env : Env) (w : World) (ti : ThingRef) (obj : TMobileObject)
    (hv : validTarget w ti) :
    ∃ ht uid, GetHitType env w ti obj = .ok (ht, uid)
      ∧ (ht = .HIT_NONE ∨ ht = .HIT_OBJECT ∨ ht = .HIT_FLESH) := by
  unfold GetHitType GetHitType_kind
  rcases hv with ⟨hk, hl⟩ | ⟨hk, hl⟩
  · rw [hk]
    simp only [List.getElem?_eq_getElem hl]
    split
    · exact ⟨_, _, rfl, Or.inl rfl⟩
    · exact ⟨_, _, rfl, Or.inr (Or.inr rfl)⟩
  · rw [hk]
    simp only [List.getElem?_eq_getElem hl]
    split
    · exact ⟨_, _, rfl, Or.inl rfl⟩
    · exact ⟨_, _, rfl, Or.inr (Or.inl rfl)⟩

/-- The function `OnHit` returns for a valid target. -/
theorem OnHit_returns (env : Env) (s : HitState) (t : ThingRef) (hv : validTarget s.w t) :
    ∃ s1, OnHit env s t = .ok s1 := by
  obtain ⟨ht, uid, hg, _⟩ := GetHitType_returns env s.w t s.obj hv
  unfold OnHit
  rw [hg]
  exact ⟨_, rfl⟩

/-- One callback call returns when the reported target, if it passes `CanHit`, is valid, and
it keeps what the later calls depend on. -/
theorem HitItem_callback_returns (env : Env) (c : Candidate) (s : HitState)
    (hv : ∀ ti, hittable env s.obj c = some ti → validTarget s.w ti)
    (hinv : recordsValidTarget s) :
    ∃ s1, HitItem_callback env s c = .ok s1
      ∧ s1.obj.flags = s.obj.flags ∧ s1.obj.ActorUID = s.obj.ActorUID
      ∧ uidView s1.w = uidView s.w ∧ s1.data.MultipleHits = s.data.MultipleHits
      ∧ recordsValidTarget s1 := by
  cases c with
  | wall tilePos col normal =>
    refine ⟨_, rfl, rfl, rfl, rfl, ?_, ?_⟩
    · simp only [HitWallFunc, SetClosestCollision_multipleHits]
    · intro hm hty
      simp only [HitWallFunc, SetClosestCollision] at hm hty ⊢
      split at hty
      · dsimp only at hty
        rcases hty with h1 | h1 <;> cases h1
      · rename_i hcond
        simp only [hcond, if_false] at hm ⊢
        exact hinv hm hty
  | thing ti colA colB normal =>
    simp only [HitItem_callback, HitItemFunc]
    by_cases hc : env.CanHit s.obj.flags s.obj.ActorUID ti = true
    · have hvt : validTarget s.w ti := hv ti (by simp [hittable, hc])
      simp only [hc, Bool.not_true, Bool.false_eq_true, if_false]
      cases hm : s.data.MultipleHits with
      | true =>
        simp only [if_true]
        obtain ⟨s1, h1⟩ := OnHit_returns env s ti hvt
        obtain ⟨ht, uid, _, _, hd, hf, ha, hu⟩ := OnHit_ok env s s1 ti h1
        have hm2 : s1.data.MultipleHits = true := by
          rw [hd]
          exact hm
        refine ⟨s1, h1, hf, ha, hu, hm2, ?_⟩
        intro hm1
        rw [hm2] at hm1
        cases hm1
      | false =>
        simp only [Bool.false_eq_true, if_false]
        obtain ⟨ht, uid, hg, hht⟩ := GetHitType_returns env s.w ti s.obj hvt
        rw [hg]
        refine ⟨_, rfl, rfl, rfl, rfl, ?_, ?_⟩
        · simp only [SetClosestCollision_multipleHits]
          exact hm
        · intro hm1 hty
          simp only [SetClosestCollision] at hm1 hty ⊢
          split at hty
          · rename_i hcond
            simp only [hcond, if_true] at hm1 ⊢
            dsimp only at hty
            have hnw : ht ≠ .HIT_WALL := by
              rcases hht with h1 | h1 | h1 <;> rw [h1] <;> decide
            exact ⟨ti, by simp [hnw], hvt⟩
          · rename_i hcond
            simp only [hcond, if_false] at hm1 ⊢
            exact hinv hm1 hty
    · simp only [hc, Bool.not_false, if_true]
      exact ⟨s, rfl, rfl, rfl, rfl, rfl, hinv⟩

/-- The callback calls of the overlap query return when every reported target that passes
`CanHit` is valid. -/
theorem HitItem_callbacks_returns (env : Env) (cands : List Candidate) :
    ∀ (s : HitState),
      (∀ c ∈ cands, ∀ ti, hittable env s.obj c = some ti → validTarget s.w ti) →
      recordsValidTarget s →
      ∃ s1, HitItem_callbacks env s cands = .ok s1 ∧ recordsValidTarget s1
        ∧ s1.data.MultipleHits = s.data.MultipleHits := by
  induction cands with
  | nil =>
    intro s _ hinv
    exact ⟨s, rfl, hinv, rfl⟩
  | cons c cs ih =>
    intro s hv hinv
    obtain ⟨s1, h1, hf, ha, hu, hm, hinv1⟩ :=
      HitItem_callback_returns env c s (hv c (List.mem_cons_self _ _)) hinv
    have hv1 : ∀ c1 ∈ cs, ∀ ti, hittable env s1.obj c1 = some ti → validTarget s1.w ti := by
      intro c1 hc1 ti hti
      rw [hittable_congr env s1.obj s.obj hf ha] at hti
      exact validTarget_congr s.w s1.w ti hu (hv c1 (List.mem_cons_of_mem _ hc1) ti hti)
    obtain ⟨s2, h2, hinv2, hm2⟩ := ih s1 hv1 hinv1
    refine ⟨s2, ?_, hinv2, hm2.trans hm⟩
    simp only [HitItem_callbacks, h1]
    exact h2

/-- The function `HitItem` returns a result, for projectiles with and without multiple hits,
when every target that the overlap query reports and that passes `CanHit` is the thing of an
actor or of an object in the registries. -/
theorem HitItem_returns (env : Env) (obj : TMobileObject) (pos : Vec2) (multipleHits : Bool)
    (w : World)
    (hv : ∀ c ∈ env.OverlapThings w obj.thing pos, ∀ ti,
      hittable env obj c = some ti → validTarget w ti) :
    ∃ r, HitItem env obj pos multipleHits w = .ok r := by
  have hinit : recordsValidTarget
      { data := { HitType := .HIT_NONE, MultipleHits := multipleHits, u := .unset, ColPos := pos,
                  ColNormal := svec2_zero, ColPosDist2 := -1 }
        obj := obj
        w := w.emit (.OverlapThings pos) } := by
    intro _ hty
    rcases hty with h1 | h1 <;> cases h1
  obtain ⟨s, hs, hinv, hm⟩ := HitItem_callbacks_returns env _ _ hv hinit
  have ho : HitItem_overlap env obj pos multipleHits w = .ok s := hs
  unfold HitItem
  rw [ho]
  dsimp only
  have hc : ∃ s1, HitItem_closest env multipleHits s = .ok s1 := by
    unfold HitItem_closest
    split
    · rename_i hcond
      simp only [Bool.and_eq_true, Bool.not_eq_true', decide_eq_true_eq, Bool.or_eq_true]
        at hcond
      obtain ⟨⟨hmf, _⟩, hty⟩ := hcond
      have hm0 : s.data.MultipleHits = false := by
        rw [hm]
        exact hmf
      obtain ⟨t, hu, hvt⟩ := hinv hm0 hty
      rw [hu]
      exact OnHit_returns env s t hvt
    · exact ⟨s, rfl⟩
  obtain ⟨s1, h1⟩ := hc
  rw [h1]
  exact ⟨_, rfl⟩

/-- On a client `BulletUpdate` returns a result whenever its seek branch finds the slots of
the owner and of the target it looks up. -/
theorem BulletUpdate_client_returns (env : Env) (obj : TMobileObject) (ticks : Int)
    (w : World) (hc : w.IsClient = true)
    (hs : ∀ f, BulletUpdate_seek env (BulletUpdate_age env obj ticks)
      (BulletUpdate_age env obj ticks).thing.Pos ticks w ≠ .error f) :
    ∃ r, BulletUpdate env obj ticks w = .ok r := by
  unfold BulletUpdate
  dsimp only
  split
  · exact ⟨_, rfl⟩
  · split
    · exact ⟨_, rfl⟩
    · unfold BulletUpdate_active
      dsimp only
      cases hseek : BulletUpdate_seek env (BulletUpdate_age env obj ticks)
          (BulletUpdate_age env obj ticks).thing.Pos ticks w with
      | error f => exact absurd hseek (hs f)
      | ok r =>
        cases r with
        | none => exact ⟨_, rfl⟩
        | some obj2 =>
          have hd : BulletUpdate_detect env obj2 (BulletUpdate_age env obj ticks).thing.Pos w
              = .ok (HitResult.none, obj2, w) := by
            simp [BulletUpdate_detect, hc]
          dsimp only
          rw [hd]
          dsimp only
          have hh : BulletUpdate_hit env obj2 (BulletUpdate_age env obj ticks).thing.Pos
              (svec2_add (BulletUpdate_age env obj ticks).thing.Pos
                (svec2_scale obj2.thing.Vel (ticks : ℚ))) HitResult.none w
              = .ok (true, svec2_add (BulletUpdate_age env obj ticks).thing.Pos
                (svec2_scale obj2.thing.Vel (ticks : ℚ)), obj2, w) := by
            simp [BulletUpdate_hit, HitResult.none]
          rw [hh]
          dsimp only
          simp only [Bool.not_true, Bool.false_eq_true, if_false]
          exact ⟨_, rfl⟩

theorem sameButLocks_refl (o : TMobileObject) : sameButLocks o o := by
  unfold sameButLocks
  rfl

theorem sameButLocks_trans {a b c : TMobileObject} (h1 : sameButLocks a b)
    (h2 : sameButLocks b c) : sameButLocks a c := by
  unfold sameButLocks at h1 h2 ⊢
  rw [h2]
  rw [h1]

theorem sameQueueAndMap_refl (w : World) : sameQueueAndMap w w := ⟨rfl, rfl, rfl⟩

theorem sameQueueAndMap_trans {a b c : World} (h1 : sameQueueAndMap a b)
    (h2 : sameQueueAndMap b c) : sameQueueAndMap a c :=
  ⟨h2.1.trans h1.1, h2.2.1.trans h1.2.1, h2.2.2.trans h1.2.2⟩

theorem lockTargetSound_sameQueueAndMap (env : Env) (w : World) (t : ThingRef) :
    sameQueueAndMap w (w.lockTargetSound env t) := by
  unfold World.lockTargetSound
  split <;> (try split) <;> exact ⟨rfl, rfl, rfl⟩

/-- A successful `OnHit` changes the locks of the projectile only, and neither the event
queue, the client flag nor the map. -/
theorem OnHit_frame (env : Env) (s s1 : HitState) (t : ThingRef) (h : OnHit env s t = .ok s1) :
    sameButLocks s.obj s1.obj ∧ sameQueueAndMap s.w s1.w := by
  unfold OnHit at h
  cases hg : GetHitType env s.w t s.obj with
  | error f => rw [hg] at h; cases h
  | ok r =>
    obtain ⟨ht, uid⟩ := r
    rw [hg] at h
    dsimp only at h
    cases h
    refine ⟨?_, ?_⟩
    · unfold sameButLocks lockSound
      dsimp only
      split <;> rfl
    · exact sameQueueAndMap_trans ⟨rfl, rfl, rfl⟩ (lockTargetSound_sameQueueAndMap env _ t)

theorem HitItem_callback_frame (env : Env) (c : Candidate) (s s1 : HitState)
    (h : HitItem_callback env s c = .ok s1) :
    sameButLocks s.obj s1.obj ∧ sameQueueAndMap s.w s1.w := by
  cases c with
  | wall tilePos col normal =>
    simp only [HitItem_callback] at h
    cases h
    exact ⟨sameButLocks_refl _, sameQueueAndMap_refl _⟩
  | thing ti colA colB normal =>
    simp only [HitItem_callback, HitItemFunc] at h
    split at h
    · cases h
      exact ⟨sameButLocks_refl _, sameQueueAndMap_refl _⟩
    · split at h
      · exact OnHit_frame env s s1 ti h
      · split at h
        · cases h
        · cases h
          exact ⟨sameButLocks_refl _, sameQueueAndMap_refl _⟩

theorem HitItem_callbacks_frame (env : Env) (cands : List Candidate) :
    ∀ (s s1 : HitState), HitItem_callbacks env s cands = .ok s1 →
      sameButLocks s.obj s1.obj ∧ sameQueueAndMap s.w s1.w := by
  induction cands with
  | nil =>
    intro s s1 h
    simp only [HitItem_callbacks] at h
    cases h
    exact ⟨sameButLocks_refl _, sameQueueAndMap_refl _⟩
  | cons c cs ih =>
    intro s s1 h
    simp only [HitItem_callbacks] at h
    cases hc : HitItem_callback env s c with
    | error f => rw [hc] at h; cases h
    | ok s2 =>
      rw [hc] at h
      obtain ⟨ho, hw⟩ := HitItem_callback_frame env c s s2 hc
      obtain ⟨ho1, hw1⟩ := ih s2 s1 h
      exact ⟨sameButLocks_trans ho ho1, sameQueueAndMap_trans hw hw1⟩

/-- A successful `HitItem` changes the locks of the projectile only, and neither the event
queue, the client flag nor the map. -/
theorem HitItem_frame (env : Env) (obj : TMobileObject) (pos : Vec2) (multipleHits : Bool)
    (w : World) (hit : HitResult) (obj1 : TMobileObject) (w1 : World)
    (h : HitItem env obj pos multipleHits w = .ok (hit, obj1, w1)) :
    sameButLocks obj obj1 ∧ sameQueueAndMap w w1 := by
  unfold HitItem at h
  cases ho : HitItem_overlap env obj pos multipleHits w with
  | error f => rw [ho] at h; cases h
  | ok s =>
    rw [ho] at h
    dsimp only at h
    cases hc : HitItem_closest env multipleHits s with
    | error f => rw [hc] at h; cases h
    | ok s1 =>
      rw [hc] at h
      cases h
      unfold HitItem_overlap at ho
      obtain ⟨ho1, hw1⟩ := HitItem_callbacks_frame env _ _ s ho
      dsimp only at ho1 hw1
      have hw0 : sameQueueAndMap w (w.emit (.OverlapThings pos)) := ⟨rfl, rfl, rfl⟩
      unfold HitItem_closest at hc
      split at hc
      · split at hc
        · obtain ⟨ho2, hw2⟩ := OnHit_frame env s s1 _ hc
          exact ⟨sameButLocks_trans ho1 ho2,
            sameQueueAndMap_trans hw0 (sameQueueAndMap_trans hw1 hw2)⟩
        · cases hc
      · cases hc
        exact ⟨ho1, sameQueueAndMap_trans hw0 hw1⟩

theorem BulletUpdate_seek_frame (env : Env) (obj : TMobileObject) (posStart : Vec2)
    (ticks : Int) (w : World) (obj2 : TMobileObject)
    (h : BulletUpdate_seek env obj posStart ticks w = .ok (some obj2)) :
    obj2 = { obj with thing := { obj.thing with Vel := obj2.thing.Vel } } := by
  unfold BulletUpdate_seek at h
  repeat' split at h
  all_goals first
    | (cases h; done)
    | (simp only [Except.ok.injEq, Option.some.injEq] at h; subst h; rfl)

/-- The collision detection of `BulletUpdate` leaves the projectile as `BulletUpdate_age` left
it but for the steered velocity and the locks, and leaves the event queue, the client flag
and the map alone; it reports no hit on a client. -/
theorem detection_frame (env : Env) (obj : TMobileObject) (ticks : Int) (w : World)
    (hit : HitResult) (obj3 : TMobileObject) (w3 : World)
    (hd : detection env obj ticks w = some (hit, obj3, w3)) :
    obj3.UID = obj.UID ∧ obj3.bulletClass = obj.bulletClass ∧ obj3.z = obj.z
      ∧ obj3.dz = obj.dz ∧ obj3.count = obj.count + ticks ∧ obj3.range = obj.range
      ∧ sameQueueAndMap w w3
      ∧ (w.IsClient = true → hit.Type_ = .HIT_NONE) := by
  unfold detection at hd
  split at hd
  · cases hd
  · split at hd
    · cases hd
    · split at hd
      · rename_i obj2 hs
        have h2 := BulletUpdate_seek_frame env _ _ ticks w obj2 hs
        split at hd
        · rename_i r hdet
          simp only [Option.some.injEq] at hd
          subst hd
          unfold BulletUpdate_detect at hdet
          split at hdet
          · obtain ⟨ho, hw⟩ := HitItem_frame env obj2 _ _ w hit obj3 w3 hdet
            unfold sameButLocks at ho
            refine ⟨?_, ?_, ?_, ?_, ?_, ?_, hw, ?_⟩
            · rw [ho, h2]; rfl
            · rw [ho, h2]; rfl
            · rw [ho, h2]; rfl
            · rw [ho, h2]; rfl
            · rw [ho, h2]; rfl
            · rw [ho, h2]; rfl
            · intro hc
              rename_i hnc
              simp [hc] at hnc
          · simp only [Except.ok.injEq, Prod.mk.injEq] at hdet
            obtain ⟨hh, ho, hw⟩ := hdet
            subst hh ho hw
            refine ⟨?_, ?_, ?_, ?_, ?_, ?_, sameQueueAndMap_refl _, ?_⟩
            · rw [h2]; rfl
            · rw [h2]; rfl
            · rw [h2]; rfl
            · rw [h2]; rfl
            · rw [h2]; rfl
            · rw [h2]; rfl
            · intro _; rfl
        · cases hd
      · cases hd

/-- After the collision detection, `BulletUpdate` is its hit branch followed, when the
projectile is still alive, by the falling, friction and move steps. -/
theorem BulletUpdate_of_detection (env : Env) (obj : TMobileObject) (ticks : Int) (w : World)
    (hit : HitResult) (obj3 : TMobileObject) (w3 : World)
    (hd : detection env obj ticks w = some (hit, obj3, w3)) :
    BulletUpdate env obj ticks w
      = match BulletUpdate_hit env obj3 (BulletUpdate_age env obj ticks).thing.Pos
          (svec2_add (BulletUpdate_age env obj ticks).thing.Pos
            (svec2_scale obj3.thing.Vel (ticks : ℚ))) hit w3 with
        | .error f => .error f
        | .ok r =>
          if !r.1 then .ok (false, r.2.2.1, r.2.2.2)
          else .ok (BulletUpdate_move env r.2.2.1 r.2.1 ticks r.2.2.2) := by
  unfold detection at hd
  unfold BulletUpdate
  dsimp only
  split at hd
  · cases hd
  · rename_i h1
    rw [if_neg h1]
    split at hd
    · cases hd
    · rename_i h2
      rw [if_neg h2]
      unfold BulletUpdate_active
      dsimp only
      split at hd
      · rename_i obj2 hs
        rw [hs]
        dsimp only
        split at hd
        · rename_i r hdet
          simp only [Option.some.injEq] at hd
          subst hd
          rw [hdet]
          dsimp only
          cases BulletUpdate_hit env obj3 (BulletUpdate_age env obj ticks).thing.Pos
            (svec2_add (BulletUpdate_age env obj ticks).thing.Pos
              (svec2_scale obj3.thing.Vel (ticks : ℚ))) hit w3 with
          | error f => rfl
          | ok r => rfl
        · cases hd
      · cases hd

theorem FireGuns_frame (env : Env) (obj : TMobileObject) (guns : List String) :
    ∀ w : World, sameQueueAndMap w (FireGuns env obj guns w)
      ∧ (FireGuns env obj guns w).effects = w.effects ++ gunFires env obj guns
      ∧ (FireGuns env obj guns w).randCalls = w.randCalls := by
  unfold FireGuns gunFires
  dsimp only
  induction guns with
  | nil =>
    intro w
    exact ⟨sameQueueAndMap_refl _, by simp, rfl⟩
  | cons g gs ih =>
    intro w
    rw [List.foldl_cons]
    obtain ⟨hq, he, hr⟩ := ih (w.emit (.WeaponClassFire g obj.thing.Pos obj.z
      (env.svec2_angle obj.thing.Vel + env.MPI_2) obj.flags obj.ActorUID))
    refine ⟨sameQueueAndMap_trans ⟨rfl, rfl, rfl⟩ hq, ?_, hr⟩
    rw [he]
    simp [World.emit]

/-- The hit branch of `BulletUpdate` on the server for a reported hit: it enqueues one
BulletBounce event, whose fields are as follows. -/
theorem BulletUpdate_hit_ok (env : Env) (obj : TMobileObject) (posStart pos : Vec2)
    (hit : HitResult) (w : World) (hc : w.IsClient = false) (hh : hit.Type_ ≠ .HIT_NONE) :
    ∃ alive pos1 obj1 wf b,
      BulletUpdate_hit env obj posStart pos hit w
        = .ok (alive, pos1, obj1, GameEventsEnqueue wf (GameEventNew env (.BULLET_BOUNCE b)))
      ∧ sameQueueAndMap w wf
      ∧ b.UID = obj.UID ∧ b.HitType = hit.Type_ ∧ b.BouncePos = hit.Pos
      ∧ b.Vel = obj1.thing.Vel
      ∧ (alive = false ↔ diesOnHit obj.bulletClass hit.Type_)
      ∧ (b.WallMark = true ↔ hit.Type_ = .HIT_WALL ∧ obj.bulletClass.WallBounces = false
            ∧ obj.thing.Vel.y < 0
            ∧ env.TileIsOpaque w.gMap (env.Vec2ToTile ⟨hit.Pos.x, hit.Pos.y + 1⟩) = false)
      ∧ obj1.z = obj.z ∧ obj1.dz = obj.dz ∧ obj1.bulletClass = obj.bulletClass
      ∧ obj1.count = obj.count := by
  unfold BulletUpdate_hit
  rw [if_neg hh]
  dsimp only
  have hassert : (if ((decide (hit.Type_ = .HIT_WALL) && !obj.bulletClass.WallBounces)
        || ((decide (hit.Type_ = .HIT_OBJECT) || decide (hit.Type_ = .HIT_FLESH))
            && obj.bulletClass.HitsObjects)) = true
      then CASSERT env (!w.IsClient) else Except.ok ()) = Except.ok () := by
    split
    · simp [CASSERT, hc]
    · rfl
  rw [hassert]
  dsimp only
  have hfire : sameQueueAndMap w
      (if ((decide (hit.Type_ = .HIT_WALL) && !obj.bulletClass.WallBounces)
        || ((decide (hit.Type_ = .HIT_OBJECT) || decide (hit.Type_ = .HIT_FLESH))
            && obj.bulletClass.HitsObjects)) = true
      then FireGuns env obj obj.bulletClass.HitGuns w else w) := by
    split
    · exact (FireGuns_frame env obj _ w).1
    · exact sameQueueAndMap_refl _
  refine ⟨_, _, _, _, _, rfl, hfire, rfl, rfl, rfl, ?_, ?_, ?_, rfl, rfl, rfl, rfl⟩
  · rfl
  · unfold diesOnHit
    cases hit.Type_ <;> cases obj.bulletClass.WallBounces <;> cases obj.bulletClass.HitsObjects
      <;> cases obj.bulletClass.Persists <;> simp
  · rw [hfire.2.2]
    cases hit.Type_ <;> cases obj.bulletClass.WallBounces <;> cases obj.bulletClass.HitsObjects
      <;> simp

theorem fallingLoop_queue (env : Env) (pos : Vec2) (n : Nat) :
    ∀ (hasDropped : Bool) (obj : TMobileObject) (w : World),
      (BulletUpdate_fallingLoop env pos n hasDropped obj w).2.2.gGameEvents = w.gGameEvents
        ∧ (BulletUpdate_fallingLoop env pos n hasDropped obj w).2.2.IsClient = w.IsClient := by
  induction n with
  | zero =>
    intro hasDropped obj w
    exact ⟨rfl, rfl⟩
  | succ n ih =>
    intro hasDropped obj w
    unfold BulletUpdate_fallingLoop
    dsimp only
    have hw1 : ∀ o : TMobileObject, sameQueueAndMap w
        (if (!hasDropped && !w.IsClient) = true then
          FireGuns env o obj.bulletClass.Falling.DropGuns w else w) := by
      intro o
      split
      · exact (FireGuns_frame env o _ w).1
      · exact sameQueueAndMap_refl _
    split
    · split
      · exact ⟨(hw1 _).1, (hw1 _).2.1⟩
      · obtain ⟨h1, h2⟩ := ih true
          (if (!obj.bulletClass.Falling.FallsDown) = true then
            { obj with
              z := 0
              dz := max 0 (if obj.bulletClass.Falling.Bounces = true then -obj.dz / 2 else 0) }
          else
            { obj with
              z := 0
              dz := if obj.bulletClass.Falling.Bounces = true then -obj.dz / 2 else 0 })
          ((if (!hasDropped && !w.IsClient) = true then
            FireGuns env
              { obj with
                z := 0
                dz := if obj.bulletClass.Falling.Bounces = true then -obj.dz / 2 else 0 }
              obj.bulletClass.Falling.DropGuns w else w).emit
            (.SoundPlayAt obj.bulletClass.HitSound.Wall pos))
        exact ⟨h1.trans (hw1 _).1, h2.trans (hw1 _).2.1⟩
    · exact ih _ _ _

theorem erraticLoop_queue (env : Env) (n : Nat) :
    ∀ (vel : Vec2) (w : World),
      (BulletUpdate_erraticLoop env n vel w).2.gGameEvents = w.gGameEvents
        ∧ (BulletUpdate_erraticLoop env n vel w).2.IsClient = w.IsClient := by
  induction n with
  | zero =>
    intro vel w
    exact ⟨rfl, rfl⟩
  | succ n ih =>
    intro vel w
    unfold BulletUpdate_erraticLoop
    dsimp only
    obtain ⟨h1, h2⟩ := ih (svec2_add vel (svec2_scale
      ⟨((((rand env w).1 % 3 : Nat) : ℚ)) - 1, ((((rand env (rand env w).2).1 % 3 : Nat) : ℚ)) - 1⟩
      (1 / 2))) (rand env (rand env w).2).2
    exact ⟨h1, h2⟩

theorem BulletUpdate_proximity_queue (env : Env) (obj : TMobileObject) (pos : Vec2)
    (ticks : Int) (w : World) :
    (BulletUpdate_proximity env obj pos ticks w).2.2.gGameEvents = w.gGameEvents := by
  unfold BulletUpdate_proximity
  split
  · exact (FireGuns_frame env obj _ w).1.1
  · unfold AddTrail
    split <;> rfl

/-- The falling, friction and move steps of `BulletUpdate` enqueue no event. -/
theorem BulletUpdate_move_queue (env : Env) (obj : TMobileObject) (pos : Vec2) (ticks : Int)
    (w : World) : (BulletUpdate_move env obj pos ticks w).2.2.gGameEvents = w.gGameEvents := by
  have hfall : (BulletUpdate_falling env obj pos ticks w).2.2.gGameEvents = w.gGameEvents := by
    unfold BulletUpdate_falling
    split
    · exact (fallingLoop_queue env pos _ _ _ _).1
    · rfl
  unfold BulletUpdate_move
  dsimp only
  split
  · exact hfall
  · split
    · exact hfall
    · rw [BulletUpdate_proximity_queue]
      unfold BulletUpdate_erratic
      split
      · rw [(erraticLoop_queue env _ _ _).1]
        exact hfall
      · exact hfall

theorem BulletUpdate_of_hit (env : Env) (obj : TMobileObject) (ticks : Int) (w : World)
    (hit : HitResult) (obj3 : TMobileObject) (w3 : World)
    (hd : detection env obj ticks w = some (hit, obj3, w3))
    (alive : Bool) (pos1 : Vec2) (obj4 : TMobileObject) (w4 : World)
    (hhit : BulletUpdate_hit env obj3 (BulletUpdate_age env obj ticks).thing.Pos
      (svec2_add (BulletUpdate_age env obj ticks).thing.Pos
        (svec2_scale obj3.thing.Vel (ticks : ℚ))) hit w3 = .ok (alive, pos1, obj4, w4)) :
    (alive = false → BulletUpdate env obj ticks w = .ok (false, obj4, w4))
      ∧ (alive = true → BulletUpdate env obj ticks w
          = .ok ((BulletUpdate_move env obj4 pos1 ticks w4).1,
              (BulletUpdate_move env obj4 pos1 ticks w4).2.1,
              (BulletUpdate_move env obj4 pos1 ticks w4).2.2)) := by
  rw [BulletUpdate_of_detection env obj ticks w hit obj3 w3 hd, hhit]
  constructor
  · intro ha
    subst ha
    rfl
  · intro ha
    subst ha
    rfl

/-- C11.  When the collision detection of one `BulletUpdate` call reports a hit (of a wall,
an object or flesh), the call appends exactly one event to the queue, a BulletBounce event
with the UID of the projectile, the reported hit type, the contact position as `BouncePos`
and, as `Vel`, the velocity that the projectile has when the hit branch enqueues the event;
when the detection reports no hit, the call enqueues nothing. -/
theorem BulletUpdate_enqueues_one_bounce (env : Env) (obj : TMobileObject) (ticks : Int)
    (w : World) (hit : HitResult) (obj3 : TMobileObject) (w3 : World)
    (hd : detection env obj ticks w = some (hit, obj3, w3)) :
    ∃ alive obj1 w1, BulletUpdate env obj ticks w = .ok (alive, obj1, w1)
      ∧ (hit.Type_ = .HIT_NONE → w1.gGameEvents = w.gGameEvents)
      ∧ (hit.Type_ ≠ .HIT_NONE →
          ∃ b r, BulletUpdate_hit env obj3 (BulletUpdate_age env obj ticks).thing.Pos
                (svec2_add (BulletUpdate_age env obj ticks).thing.Pos
                  (svec2_scale obj3.thing.Vel (ticks : ℚ))) hit w3 = .ok r
            ∧ w1.gGameEvents = w.gGameEvents ++ [GameEventNew env (.BULLET_BOUNCE b)]
            ∧ b.UID = obj.UID ∧ b.HitType = hit.Type_ ∧ b.BouncePos = hit.Pos
            ∧ b.Vel = r.2.2.1.thing.Vel) := by
  obtain ⟨huid, _, _, _, _, _, hq, hcl⟩ := detection_frame env obj ticks w hit obj3 w3 hd
  by_cases hh : hit.Type_ = .HIT_NONE
  · have hhit : BulletUpdate_hit env obj3 (BulletUpdate_age env obj ticks).thing.Pos
        (svec2_add (BulletUpdate_age env obj ticks).thing.Pos
          (svec2_scale obj3.thing.Vel (ticks : ℚ))) hit w3
        = .ok (true, svec2_add (BulletUpdate_age env obj ticks).thing.Pos
          (svec2_scale obj3.thing.Vel (ticks : ℚ)), obj3, w3) := by
      unfold BulletUpdate_hit
      rw [if_pos hh]
    have hbu := (BulletUpdate_of_hit env obj ticks w hit obj3 w3 hd _ _ _ _ hhit).2 rfl
    refine ⟨_, _, _, hbu, ?_, fun hne => absurd hh hne⟩
    intro _
    rw [BulletUpdate_move_queue]
    exact hq.1
  · have hc : w3.IsClient = false := by
      rw [hq.2.1]
      cases hw : w.IsClient with
      | false => rfl
      | true => exact absurd (hcl hw) hh
    obtain ⟨alive, pos1, obj1, wf, b, hhit, hqf, hb1, hb2, hb3, hb4, _⟩ :=
      BulletUpdate_hit_ok env obj3 (BulletUpdate_age env obj ticks).thing.Pos
        (svec2_add (BulletUpdate_age env obj ticks).thing.Pos
          (svec2_scale obj3.thing.Vel (ticks : ℚ))) hit w3 hc hh
    have hev : (GameEventsEnqueue wf (GameEventNew env (.BULLET_BOUNCE b))).gGameEvents
        = w.gGameEvents ++ [GameEventNew env (.BULLET_BOUNCE b)] := by
      simp only [GameEventsEnqueue]
      rw [hqf.1, hq.1]
    obtain ⟨hdead, hlive⟩ := BulletUpdate_of_hit env obj ticks w hit obj3 w3 hd _ _ _ _ hhit
    cases alive with
    | false =>
      refine ⟨_, _, _, hdead rfl, fun h0 => absurd h0 hh, fun _ => ?_⟩
      exact ⟨b, _, hhit, hev, hb1.trans huid, hb2, hb3, hb4⟩
    | true =>
      refine ⟨_, _, _, hlive rfl, fun h0 => absurd h0 hh, fun _ => ?_⟩
      refine ⟨b, _, hhit, ?_, hb1.trans huid, hb2, hb3, hb4⟩
      rw [BulletUpdate_move_queue]
      exact hev

/-- C20, amended.  When the collision detection of a `BulletUpdate` call reports a wall hit,
the BulletBounce event that the call enqueues has the wall-mark flag set exactly when the
class does not bounce off walls (the projectile is absorbed), the y velocity of the
projectile is negative and the tile one unit below the contact point is not opaque. -/
theorem BulletUpdate_wall_mark_when_absorbed (env : Env) (obj : TMobileObject) (ticks : Int)
    (w : World) (hit : HitResult) (obj3 : TMobileObject) (w3 : World)
    (hd : detection env obj ticks w = some (hit, obj3, w3)) (hw : hit.Type_ = .HIT_WALL) :
    ∃ alive obj1 w1 b, BulletUpdate env obj ticks w = .ok (alive, obj1, w1)
      ∧ w1.gGameEvents = w.gGameEvents ++ [GameEventNew env (.BULLET_BOUNCE b)]
      ∧ (b.WallMark = true ↔ obj.bulletClass.WallBounces = false ∧ obj3.thing.Vel.y < 0
          ∧ env.TileIsOpaque w.gMap (env.Vec2ToTile ⟨hit.Pos.x, hit.Pos.y + 1⟩) = false) := by
  have hh : hit.Type_ ≠ .HIT_NONE := by
    rw [hw]
    decide
  obtain ⟨_, hbc, _, _, _, _, hq, hcl⟩ := detection_frame env obj ticks w hit obj3 w3 hd
  have hc : w3.IsClient = false := by
    rw [hq.2.1]
    cases hwc : w.IsClient with
    | false => rfl
    | true => exact absurd (hcl hwc) hh
  obtain ⟨alive, pos1, obj1, wf, b, hhit, hqf, _, _, _, _, _, hmark, _⟩ :=
    BulletUpdate_hit_ok env obj3 (BulletUpdate_age env obj ticks).thing.Pos
      (svec2_add (BulletUpdate_age env obj ticks).thing.Pos
        (svec2_scale obj3.thing.Vel (ticks : ℚ))) hit w3 hc hh
  have hev : (GameEventsEnqueue wf (GameEventNew env (.BULLET_BOUNCE b))).gGameEvents
      = w.gGameEvents ++ [GameEventNew env (.BULLET_BOUNCE b)] := by
    simp only [GameEventsEnqueue]
    rw [hqf.1, hq.1]
  have hmark2 : b.WallMark = true ↔ obj.bulletClass.WallBounces = false ∧ obj3.thing.Vel.y < 0
      ∧ env.TileIsOpaque w.gMap (env.Vec2ToTile ⟨hit.Pos.x, hit.Pos.y + 1⟩) = false := by
    rw [hmark, hbc, hq.2.2]
    constructor
    · intro h
      exact h.2
    · intro h
      exact ⟨hw, h⟩
  obtain ⟨hdead, hlive⟩ := BulletUpdate_of_hit env obj ticks w hit obj3 w3 hd _ _ _ _ hhit
  cases alive with
  | false => exact ⟨_, _, _, b, hdead rfl, hev, hmark2⟩
  | true =>
    refine ⟨_, _, _, b, hlive rfl, ?_, hmark2⟩
    rw [BulletUpdate_move_queue]
    exact hev

/-- Witness of C11: `originBullet`, updated by one tick on the server with a wall at distance
5 and a target at distance 3, hits the flesh of the target and enqueues the one BulletBounce
event for it. -/
theorem BulletUpdate_enqueues_one_bounce_witness :
    detection envWallThenTarget originBullet 1 hitWorld
        = some (fleshHit, bulletDetected, worldDetected)
    ∧ (∃ alive obj1 w1,
        BulletUpdate envWallThenTarget originBullet 1 hitWorld = .ok (alive, obj1, w1)
        ∧ (fleshHit.Type_ = .HIT_NONE → w1.gGameEvents = hitWorld.gGameEvents)
        ∧ (fleshHit.Type_ ≠ .HIT_NONE →
            ∃ b r, BulletUpdate_hit envWallThenTarget bulletDetected
                  (BulletUpdate_age envWallThenTarget originBullet 1).thing.Pos
                  (svec2_add (BulletUpdate_age envWallThenTarget originBullet 1).thing.Pos
                    (svec2_scale bulletDetected.thing.Vel ((1 : Int) : ℚ))) fleshHit
                  worldDetected = .ok r
              ∧ w1.gGameEvents
                  = hitWorld.gGameEvents
                    ++ [GameEventNew envWallThenTarget (.BULLET_BOUNCE b)]
              ∧ b.UID = originBullet.UID ∧ b.HitType = fleshHit.Type_
              ∧ b.BouncePos = fleshHit.Pos ∧ b.Vel = r.2.2.1.thing.Vel))
    ∧ queueAfter (BulletUpdate envWallThenTarget originBullet 1 hitWorld)
        = [.BULLET_BOUNCE
            { UID := 5, HitType := .HIT_FLESH, Spark := true, WallMark := false,
              HitSound := false, Pos := ⟨3, 0⟩, BouncePos := ⟨3, 0⟩, Vel := ⟨1, 0⟩ }] :=
  ⟨by decide!,
    BulletUpdate_enqueues_one_bounce envWallThenTarget originBullet 1 hitWorld fleshHit
      bulletDetected worldDetected (by decide!),
    by decide!⟩

/-- C20, counterexample.  The projectile `upBouncyBullet`, whose class bounces off walls,
flies up (y velocity -1) into a wall; the tile below the contact point is not opaque; the
BulletBounce event that the update enqueues has the wall-mark flag cleared. -/
theorem BulletUpdate_bouncing_wall_hit_leaves_no_mark :
    upBouncyBullet.thing.Vel.y < 0
    ∧ detection envWallAbove upBouncyBullet 1 hitWorld
        = some (wallHit, { upBouncyBullet with count := 1 },
            hitWorld.emit (.OverlapThings ⟨0, 0⟩))
    ∧ envWallAbove.TileIsOpaque hitWorld.gMap
        (envWallAbove.Vec2ToTile ⟨wallHit.Pos.x, wallHit.Pos.y + 1⟩) = false
    ∧ queueAfter (BulletUpdate envWallAbove upBouncyBullet 1 hitWorld)
        = [.BULLET_BOUNCE
            { UID := 5, HitType := .HIT_WALL, Spark := false, WallMark := false,
              HitSound := true, Pos := ⟨0, -5⟩, BouncePos := ⟨0, -5⟩, Vel := ⟨0, 1⟩ }] := by
  decide!

/-- Witness of C20 (amended): the projectile `upBullet`, whose class does not bounce off
walls, flies up into the same wall and leaves a wall mark. -/
theorem BulletUpdate_wall_mark_when_absorbed_witness :
    detection envWallAbove upBullet 1 hitWorld
        = some (wallHit, { upBullet with count := 1 }, hitWorld.emit (.OverlapThings ⟨0, 0⟩))
    ∧ wallHit.Type_ = .HIT_WALL
    ∧ (∃ alive obj1 w1 b,
        BulletUpdate envWallAbove upBullet 1 hitWorld = .ok (alive, obj1, w1)
        ∧ w1.gGameEvents
            = hitWorld.gGameEvents ++ [GameEventNew envWallAbove (.BULLET_BOUNCE b)]
        ∧ (b.WallMark = true ↔ upBullet.bulletClass.WallBounces = false
            ∧ ({ upBullet with count := 1 } : TMobileObject).thing.Vel.y < 0
            ∧ envWallAbove.TileIsOpaque hitWorld.gMap
                (envWallAbove.Vec2ToTile ⟨wallHit.Pos.x, wallHit.Pos.y + 1⟩) = false))
    ∧ queueAfter (BulletUpdate envWallAbove upBullet 1 hitWorld)
        = [.BULLET_BOUNCE
            { UID := 5, HitType := .HIT_WALL, Spark := true, WallMark := true,
              HitSound := true, Pos := ⟨0, -5⟩, BouncePos := ⟨0, -5⟩, Vel := ⟨0, -1⟩ }] :=
  ⟨by decide!, rfl,
    BulletUpdate_wall_mark_when_absorbed envWallAbove upBullet 1 hitWorld wallHit
      { upBullet with count := 1 } (hitWorld.emit (.OverlapThings ⟨0, 0⟩)) (by decide!) rfl,
    by decide!⟩

/-- C13.  For a projectile with range `r ≥ 0` whose aged tick count has reached the delay of
its class, `BulletUpdate` takes its out-of-range branch, which returns `false`, when the aged
count is greater than `r`, and goes on to the seek, detection and move steps when the aged
count is at most `r`. -/
theorem BulletUpdate_range_exhaustion (env : Env) (obj : TMobileObject) (ticks : Int)
    (w : World) (hr : 0 ≤ obj.range) (hdelay : obj.bulletClass.Delay ≤ obj.count + ticks) :
    (obj.range < obj.count + ticks →
        BulletUpdate env obj ticks w
          = .ok (false, BulletUpdate_age env obj ticks,
              BulletUpdate_outOfRange env (BulletUpdate_age env obj ticks) w))
    ∧ (obj.count + ticks ≤ obj.range →
        BulletUpdate env obj ticks w
          = BulletUpdate_active env (BulletUpdate_age env obj ticks) ticks w) := by
  have hnd : ¬ (BulletUpdate_age env obj ticks).count
      < (BulletUpdate_age env obj ticks).bulletClass.Delay := by
    simp only [BulletUpdate_age]
    exact not_lt.mpr hdelay
  constructor
  · intro hgt
    unfold BulletUpdate
    dsimp only
    rw [if_neg hnd]
    have hcond : (decide ((BulletUpdate_age env obj ticks).range ≥ 0)
        && decide ((BulletUpdate_age env obj ticks).count
            > (BulletUpdate_age env obj ticks).range)) = true := by
      simp only [BulletUpdate_age, Bool.and_eq_true, decide_eq_true_eq]
      exact ⟨hr, hgt⟩
    rw [if_pos hcond]
  · intro hle
    unfold BulletUpdate
    dsimp only
    rw [if_neg hnd]
    have hcond : ¬ (decide ((BulletUpdate_age env obj ticks).range ≥ 0)
        && decide ((BulletUpdate_age env obj ticks).count
            > (BulletUpdate_age env obj ticks).range)) = true := by
      simp only [BulletUpdate_age, Bool.and_eq_true, decide_eq_true_eq, not_and]
      intro _
      exact not_lt.mpr hle
    rw [if_neg hcond]

/-- Witness of C13: a projectile with range 10 and delay 0 at tick count 10 is out of range
on its next update of one tick; from tick count 0, with no collision and every move
accepted, its updates of one tick return `true` ten times and `false` the eleventh time. -/
theorem BulletUpdate_range_exhaustion_witness :
    ((({ originBullet with count := 10 } : TMobileObject).range
          < ({ originBullet with count := 10 } : TMobileObject).count + 1 →
        BulletUpdate stdEnv { originBullet with count := 10 } 1 emptyWorld
          = .ok (false, BulletUpdate_age stdEnv { originBullet with count := 10 } 1,
              BulletUpdate_outOfRange stdEnv
                (BulletUpdate_age stdEnv { originBullet with count := 10 } 1) emptyWorld))
      ∧ (({ originBullet with count := 10 } : TMobileObject).count + 1
          ≤ ({ originBullet with count := 10 } : TMobileObject).range →
        BulletUpdate stdEnv { originBullet with count := 10 } 1 emptyWorld
          = BulletUpdate_active stdEnv
              (BulletUpdate_age stdEnv { originBullet with count := 10 } 1) 1 emptyWorld))
    ∧ originBullet.range = 10 ∧ originBullet.count = 0 ∧ originBullet.bulletClass.Delay = 0
    ∧ BulletUpdate_run stdEnv 1 20 originBullet emptyWorld
        = [true, true, true, true, true, true, true, true, true, true, false] :=
  ⟨BulletUpdate_range_exhaustion stdEnv { originBullet with count := 10 } 1 emptyWorld
      (by decide) (by decide),
    by decide, by decide, by decide, by decide!⟩

/-- A velocity component within `FLT_EPSILON` of zero is left alone by the friction loop. -/
theorem frictionStep_small (f v : ℚ) (h : |v| < FLT_EPSILON) : frictionStep f v = v := by
  unfold frictionStep
  have h1 := abs_lt.mp h
  rw [if_neg (not_lt.mpr (le_of_lt h1.2)), if_neg (not_lt.mpr (le_of_lt h1.1))]

theorem frictionStep_iterate_small (f v : ℚ) (h : |v| < FLT_EPSILON) (n : Nat) :
    (frictionStep f)^[n] v = v := by
  induction n with
  | zero => rfl
  | succ n ih => rw [Function.iterate_succ_apply, frictionStep_small f v h, ih]

/-- The friction step of `BulletUpdate` applies the class friction itself to each velocity
component: the division by `sqrtf(2)` is taken only for a velocity that the loop leaves
alone. -/
theorem BulletUpdate_friction_vel (env : Env) (obj : TMobileObject) (ticks : Int) :
    (BulletUpdate_friction env obj ticks).thing.Vel
      = ⟨(frictionStep obj.bulletClass.Friction)^[ticks.toNat] obj.thing.Vel.x,
         (frictionStep obj.bulletClass.Friction)^[ticks.toNat] obj.thing.Vel.y⟩ := by
  unfold BulletUpdate_friction
  dsimp only
  split
  · rename_i hdiag
    simp only [Bool.and_eq_true, decide_eq_true_eq] at hdiag
    rw [frictionStep_iterate_small _ _ hdiag.1, frictionStep_iterate_small _ _ hdiag.2,
      frictionStep_iterate_small _ _ hdiag.1, frictionStep_iterate_small _ _ hdiag.2]
  · rfl

/-- One iteration of the friction loop on one component: a component within `FLT_EPSILON` of zero stays; a component of magnitude at least
the friction loses the friction in magnitude and keeps its sign; a component of smaller
magnitude is carried past zero. -/
theorem frictionStep_cases (f v : ℚ) :
    (|v| ≤ FLT_EPSILON → frictionStep f v = v)
    ∧ (FLT_EPSILON < |v| → f ≤ |v| → |frictionStep f v| = |v| - f ∧ 0 ≤ frictionStep f v * v)
    ∧ (FLT_EPSILON < |v| → |v| < f → |frictionStep f v| = f - |v| ∧ frictionStep f v * v < 0) := by
  have heps : (0 : ℚ) < FLT_EPSILON := by
    unfold FLT_EPSILON
    norm_num
  unfold frictionStep
  refine ⟨?_, ?_, ?_⟩
  · intro h
    have h1 := abs_le.mp h
    rw [if_neg (not_lt.mpr h1.2), if_neg (not_lt.mpr h1.1)]
  · intro h1 h2
    by_cases hv : v > FLT_EPSILON
    · rw [if_pos hv]
      have hpos : 0 < v := lt_trans heps hv
      rw [abs_of_pos hpos] at h2 ⊢
      have : 0 ≤ v - f := by linarith
      rw [abs_of_nonneg this]
      exact ⟨rfl, mul_nonneg this (le_of_lt hpos)⟩
    · rw [if_neg hv]
      have hneg : v < -FLT_EPSILON := by
        rcases lt_abs.mp h1 with h | h
        · exact absurd h hv
        · linarith
      rw [if_pos hneg]
      have hv0 : v < 0 := by linarith
      rw [abs_of_neg hv0] at h2 ⊢
      have : v + f ≤ 0 := by linarith
      rw [abs_of_nonpos this]
      exact ⟨by ring, mul_nonneg_of_nonpos_of_nonpos this (le_of_lt hv0)⟩
  · intro h1 h2
    by_cases hv : v > FLT_EPSILON
    · rw [if_pos hv]
      have hpos : 0 < v := lt_trans heps hv
      rw [abs_of_pos hpos] at h2 ⊢
      have : v - f < 0 := by linarith
      rw [abs_of_neg this]
      exact ⟨by ring, mul_neg_of_neg_of_pos this hpos⟩
    · rw [if_neg hv]
      have hneg : v < -FLT_EPSILON := by
        rcases lt_abs.mp h1 with h | h
        · exact absurd h hv
        · linarith
      rw [if_pos hneg]
      have hv0 : v < 0 := by linarith
      rw [abs_of_neg hv0] at h2 ⊢
      have : 0 < v + f := by linarith
      rw [abs_of_pos this]
      exact ⟨by ring, mul_neg_of_pos_of_neg this hv0⟩

/-- C14.  The friction step of `BulletUpdate` never stops a velocity component at zero.  For
every projectile, one tick leaves a component within `FLT_EPSILON` of zero as it is, takes a
component `v > FLT_EPSILON` to `v - Friction` and a component `v < -FLT_EPSILON` to
`v + Friction`; so a component whose magnitude lies between `FLT_EPSILON` and the friction
does not become zero but changes sign.  With friction 1 the component 1/2 becomes -1/2 after
one tick, 1/2 after two and -1/2 after three; with friction 3 the component 1 becomes -2,
so that its magnitude grows; with friction 1/10 the component 1/4 becomes 1/20 after two
ticks, -1/20 after three and 1/20 after four. -/
theorem BulletUpdate_friction_carries_past_zero :
    (∀ (env : Env) (obj : TMobileObject),
      (BulletUpdate_friction env obj 1).thing.Vel.x
          = (if obj.thing.Vel.x > FLT_EPSILON then obj.thing.Vel.x - obj.bulletClass.Friction
             else if obj.thing.Vel.x < -FLT_EPSILON
               then obj.thing.Vel.x + obj.bulletClass.Friction
             else obj.thing.Vel.x)
      ∧ (BulletUpdate_friction env obj 1).thing.Vel.y
          = (if obj.thing.Vel.y > FLT_EPSILON then obj.thing.Vel.y - obj.bulletClass.Friction
             else if obj.thing.Vel.y < -FLT_EPSILON
               then obj.thing.Vel.y + obj.bulletClass.Friction
             else obj.thing.Vel.y)
      ∧ (FLT_EPSILON < obj.thing.Vel.x → obj.thing.Vel.x < obj.bulletClass.Friction →
          (BulletUpdate_friction env obj 1).thing.Vel.x < 0)
      ∧ (obj.thing.Vel.x < -FLT_EPSILON → -obj.bulletClass.Friction < obj.thing.Vel.x →
          0 < (BulletUpdate_friction env obj 1).thing.Vel.x)
      ∧ (FLT_EPSILON < obj.thing.Vel.y → obj.thing.Vel.y < obj.bulletClass.Friction →
          (BulletUpdate_friction env obj 1).thing.Vel.y < 0)
      ∧ (obj.thing.Vel.y < -FLT_EPSILON → -obj.bulletClass.Friction < obj.thing.Vel.y →
          0 < (BulletUpdate_friction env obj 1).thing.Vel.y))
    ∧ (slidingBullet ⟨1 / 2, 0⟩ 1).bulletClass.Friction = 1
    ∧ (BulletUpdate_friction stdEnv (slidingBullet ⟨1 / 2, 0⟩ 1) 1).thing.Vel = ⟨-1 / 2, 0⟩
    ∧ (BulletUpdate_friction stdEnv (slidingBullet ⟨1 / 2, 0⟩ 1) 2).thing.Vel = ⟨1 / 2, 0⟩
    ∧ (BulletUpdate_friction stdEnv (slidingBullet ⟨1 / 2, 0⟩ 1) 3).thing.Vel = ⟨-1 / 2, 0⟩
    ∧ (slidingBullet ⟨1, 0⟩ 3).bulletClass.Friction = 3
    ∧ (BulletUpdate_friction stdEnv (slidingBullet ⟨1, 0⟩ 3) 1).thing.Vel = ⟨-2, 0⟩
    ∧ (slidingBullet ⟨1 / 4, 0⟩ (1 / 10)).bulletClass.Friction = 1 / 10
    ∧ (BulletUpdate_friction stdEnv (slidingBullet ⟨1 / 4, 0⟩ (1 / 10)) 2).thing.Vel
        = ⟨1 / 20, 0⟩
    ∧ (BulletUpdate_friction stdEnv (slidingBullet ⟨1 / 4, 0⟩ (1 / 10)) 3).thing.Vel
        = ⟨-1 / 20, 0⟩
    ∧ (BulletUpdate_friction stdEnv (slidingBullet ⟨1 / 4, 0⟩ (1 / 10)) 4).thing.Vel
        = ⟨1 / 20, 0⟩ := by
  have heps : (0 : ℚ) < FLT_EPSILON := by
    unfold FLT_EPSILON
    norm_num
  refine ⟨?_, by decide!, by decide!, by decide!, by decide!, by decide!, by decide!,
    by decide!, by decide!, by decide!, by decide!⟩
  intro env obj
  have hv := BulletUpdate_friction_vel env obj 1
  have hx : (BulletUpdate_friction env obj 1).thing.Vel.x
      = frictionStep obj.bulletClass.Friction obj.thing.Vel.x := by
    rw [hv]
    rfl
  have hy : (BulletUpdate_friction env obj 1).thing.Vel.y
      = frictionStep obj.bulletClass.Friction obj.thing.Vel.y := by
    rw [hv]
    rfl
  have key : ∀ v : ℚ,
      (FLT_EPSILON < v → v < obj.bulletClass.Friction →
        frictionStep obj.bulletClass.Friction v < 0)
      ∧ (v < -FLT_EPSILON → -obj.bulletClass.Friction < v →
        0 < frictionStep obj.bulletClass.Friction v) := by
    intro v
    unfold frictionStep
    constructor
    · intro h1 h2
      rw [if_pos h1]
      linarith
    · intro h1 h2
      have hn : ¬ v > FLT_EPSILON := by
        intro h
        linarith
      rw [if_neg hn, if_pos h1]
      linarith
  rw [hx, hy]
  exact ⟨rfl, rfl, (key _).1, (key _).2, (key _).1, (key _).2⟩

/-- C15.  The friction step of `BulletUpdate` takes the class friction itself as the
per-axis decrement of a projectile that moves diagonally: whatever `sqrtf` is, the velocity
it leaves is that of the loop run with the full class friction on each component; so with
friction 1/10 one tick takes the diagonal velocity (1, 1) to (9/10, 9/10), and the velocity
(1, 0) along one axis to (9/10, 0). -/
theorem BulletUpdate_friction_full_on_diagonal :
    (∀ (env : Env) (obj : TMobileObject) (ticks : Int),
      (BulletUpdate_friction env obj ticks).thing.Vel
        = ⟨(frictionStep obj.bulletClass.Friction)^[ticks.toNat] obj.thing.Vel.x,
           (frictionStep obj.bulletClass.Friction)^[ticks.toNat] obj.thing.Vel.y⟩)
    ∧ (BulletUpdate_friction stdEnv (slidingBullet ⟨1, 1⟩ (1 / 10)) 1).thing.Vel
        = ⟨9 / 10, 9 / 10⟩
    ∧ (BulletUpdate_friction stdEnv (slidingBullet ⟨1, 0⟩ (1 / 10)) 1).thing.Vel
        = ⟨9 / 10, 0⟩ :=
  ⟨BulletUpdate_friction_vel, by decide!, by decide!⟩

/-- C16, counterexample.  The target is 41 map units from the projectile on the x axis, and
`SeekTowards` steers all the same: for the velocity (5, 0) and the target at (41, 15), from
the origin, it returns (125/26, 25/26). -/
theorem SeekTowards_steers_beyond_bound :
    |(⟨41, 15⟩ : Vec2).x - (⟨0, 0⟩ : Vec2).x| > 40
    ∧ SeekTowards seekLengthEnv ⟨0, 0⟩ ⟨5, 0⟩ 1 ⟨41, 15⟩ 1 = ⟨125 / 26, 25 / 26⟩
    ∧ SeekTowards seekLengthEnv ⟨0, 0⟩ ⟨5, 0⟩ 1 ⟨41, 15⟩ 1 ≠ ⟨5, 0⟩ := by
  decide!

/-- C16, amended.  `SeekTowards` returns the incoming velocity unchanged whenever the
displacement from the position of the projectile to the position of the target, less the
velocity of the projectile, exceeds 40 map units in absolute value on the x axis or on the
y axis. -/
theorem SeekTowards_skips_far_compensated_target (env : Env) (pos vel : Vec2) (speedMin : ℚ)
    (targetPos : Vec2) (seekFactor : Int)
    (h : 40 < |targetPos.x - pos.x - vel.x| ∨ 40 < |targetPos.y - pos.y - vel.y|) :
    SeekTowards env pos vel speedMin targetPos seekFactor = vel := by
  unfold SeekTowards
  dsimp only
  have hcond : (decide (|(svec2_subtract (svec2_subtract targetPos pos) vel).x| > 40)
      || decide (|(svec2_subtract (svec2_subtract targetPos pos) vel).y| > 40)
      || env.svec2_is_zero (svec2_subtract (svec2_subtract targetPos pos) vel)) = true := by
    simp only [svec2_subtract, Bool.or_eq_true, decide_eq_true_eq]
    rcases h with h | h
    · exact Or.inl (Or.inl h)
    · exact Or.inl (Or.inr h)
  rw [if_pos hcond]

/-- Witness of C16 (amended): the target at (38, 0) is 38 units from the projectile at the
origin, whose velocity is (-5, 0); the compensated displacement is 43, and `SeekTowards`
returns the velocity unchanged. -/
theorem SeekTowards_skips_far_compensated_target_witness :
    (40 < |(⟨38, 0⟩ : Vec2).x - (⟨0, 0⟩ : Vec2).x - (⟨-5, 0⟩ : Vec2).x|
      ∨ 40 < |(⟨38, 0⟩ : Vec2).y - (⟨0, 0⟩ : Vec2).y - (⟨-5, 0⟩ : Vec2).y|)
    ∧ SeekTowards seekLengthEnv ⟨0, 0⟩ ⟨-5, 0⟩ 1 ⟨38, 0⟩ 1 = ⟨-5, 0⟩ :=
  ⟨by decide!,
    SeekTowards_skips_far_compensated_target seekLengthEnv ⟨0, 0⟩ ⟨-5, 0⟩ 1 ⟨38, 0⟩ 1
      (by decide!)⟩

theorem BulletUpdate_hit_frame (env : Env) (obj : TMobileObject) (posStart pos : Vec2)
    (hit : HitResult) (w : World) (alive : Bool) (pos1 : Vec2) (obj1 : TMobileObject)
    (w1 : World) (h : BulletUpdate_hit env obj posStart pos hit w = .ok (alive, pos1, obj1, w1)) :
    obj1.z = obj.z ∧ obj1.dz = obj.dz ∧ obj1.bulletClass = obj.bulletClass
      ∧ obj1.count = obj.count ∧ w1.IsClient = w.IsClient := by
  unfold BulletUpdate_hit at h
  split at h
  · simp only [Except.ok.injEq, Prod.mk.injEq] at h
    obtain ⟨_, _, ho, hw⟩ := h
    subst ho hw
    exact ⟨rfl, rfl, rfl, rfl, rfl⟩
  · dsimp only at h
    split at h
    · cases h
    · simp only [Except.ok.injEq, Prod.mk.injEq] at h
      obtain ⟨_, _, ho, hw⟩ := h
      subst ho hw
      refine ⟨rfl, rfl, rfl, rfl, ?_⟩
      simp only [GameEventsEnqueue]
      split
      · exact (FireGuns_frame env obj _ w).1.2.1
      · rfl

/-- The falling, friction and move steps of a `BulletUpdate` call start from the height, the
vertical speed and the class that the projectile has when the call starts, with the aged
tick count, and on the side (server or client) of the call. -/
theorem BulletUpdate_falling_input (env : Env) (obj : TMobileObject) (ticks : Int) (w : World)
    (hit : HitResult) (obj3 : TMobileObject) (w3 : World)
    (hd : detection env obj ticks w = some (hit, obj3, w3))
    (pos1 : Vec2) (obj4 : TMobileObject) (w4 : World)
    (hhit : BulletUpdate_hit env obj3 (BulletUpdate_age env obj ticks).thing.Pos
      (svec2_add (BulletUpdate_age env obj ticks).thing.Pos
        (svec2_scale obj3.thing.Vel (ticks : ℚ))) hit w3 = .ok (true, pos1, obj4, w4)) :
    BulletUpdate env obj ticks w = .ok (BulletUpdate_move env obj4 pos1 ticks w4)
      ∧ obj4.z = obj.z ∧ obj4.dz = obj.dz ∧ obj4.bulletClass = obj.bulletClass
      ∧ obj4.count = obj.count + ticks ∧ w4.IsClient = w.IsClient := by
  obtain ⟨_, hbc, hz, hdz, hcount, _, hq, _⟩ := detection_frame env obj ticks w hit obj3 w3 hd
  obtain ⟨h1, h2, h3, h4, h5⟩ := BulletUpdate_hit_frame env obj3 _ _ hit w3 true pos1 obj4 w4 hhit
  exact ⟨(BulletUpdate_of_hit env obj ticks w hit obj3 w3 hd _ _ _ _ hhit).2 rfl,
    h1.trans hz, h2.trans hdz, h3.trans hbc, h4.trans hcount, h5.trans hq.2.1⟩

theorem fallingLoop_keeps (env : Env) (pos : Vec2) (n : Nat) :
    ∀ (hasDropped : Bool) (obj : TMobileObject) (w : World),
      (BulletUpdate_fallingLoop env pos n hasDropped obj w).2.1.count = obj.count
        ∧ (BulletUpdate_fallingLoop env pos n hasDropped obj w).2.1.bulletClass
            = obj.bulletClass := by
  induction n with
  | zero =>
    intro hasDropped obj w
    exact ⟨rfl, rfl⟩
  | succ n ih =>
    intro hasDropped obj w
    unfold BulletUpdate_fallingLoop
    dsimp only
    split
    · split
      · exact ⟨rfl, rfl⟩
      · split
        · exact ih _ _ _
        · exact ih _ _ _
    · split
      · exact ih _ _ _
      · exact ih _ _ _

/-- When the falling step leaves the projectile alive and the map accepts the move, the
falling, friction and move steps of `BulletUpdate` end with the proximity step, at the
position of the move, for a projectile with the tick count and the class they started
with, on the same side. -/
theorem BulletUpdate_move_reaches_proximity (env : Env) (obj : TMobileObject) (pos : Vec2)
    (ticks : Int) (w : World)
    (hfall : (BulletUpdate_falling env obj pos ticks w).1 = true)
    (hmove : (MapTryMoveThing env (BulletUpdate_falling env obj pos ticks w).2.2
      (BulletUpdate_friction env (BulletUpdate_falling env obj pos ticks w).2.1 ticks).thing
      pos).1 = true) :
    ∃ o1 w1, BulletUpdate_move env obj pos ticks w = BulletUpdate_proximity env o1 pos ticks w1
      ∧ o1.count = obj.count ∧ o1.bulletClass = obj.bulletClass
      ∧ w1.IsClient = w.IsClient := by
  have hfk : (BulletUpdate_falling env obj pos ticks w).2.1.count = obj.count
      ∧ (BulletUpdate_falling env obj pos ticks w).2.1.bulletClass = obj.bulletClass
      ∧ (BulletUpdate_falling env obj pos ticks w).2.2.IsClient = w.IsClient := by
    unfold BulletUpdate_falling
    split
    · exact ⟨(fallingLoop_keeps env pos _ _ _ _).1, (fallingLoop_keeps env pos _ _ _ _).2,
        (fallingLoop_queue env pos _ _ _ _).2⟩
    · exact ⟨rfl, rfl, rfl⟩
  unfold BulletUpdate_move
  dsimp only
  rw [hfall, hmove]
  simp only [Bool.not_true, Bool.false_eq_true, if_false]
  refine ⟨_, _, rfl, ?_, ?_, ?_⟩
  · unfold BulletUpdate_erratic
    split
    · exact hfk.1
    · exact hfk.1
  · unfold BulletUpdate_erratic
    split
    · exact hfk.2.1
    · exact hfk.2.1
  · unfold BulletUpdate_erratic
    split
    · rw [(erraticLoop_queue env _ _ _).2]
      exact hfk.2.2
    · exact hfk.2.2

/-- An example of the falling step: in four ticks the grenade touches the ground twice, on
the first and on the fourth tick, and fires its drop gun once, from the ground. -/
theorem BulletUpdate_falling_fires_once_example :
    (BulletUpdate_falling stdEnv grenade ⟨0, 0⟩ 4 emptyWorld).2.2.effects
      = [.WeaponClassFire "frag" ⟨0, 0⟩ 0 0 0 1, .SoundPlayAt none ⟨0, 0⟩,
         .SoundPlayAt none ⟨0, 0⟩] := by
  decide!

/-- An example of the proximity step: with a character on the tile next to it, the mine
fires its proximity gun and is destroyed on the update that takes its tick count to 4, and
neither on the update that takes it to 5 nor, on a client, on the update that takes it
to 4. -/
theorem BulletUpdate_proximity_example :
    BulletUpdate_run envCharacterAt10 1 1 (mine 3) mapWorld = [false]
    ∧ (match BulletUpdate envCharacterAt10 (mine 3) 1 mapWorld with
        | .ok r => weaponFires r.2.2.effects
        | .error _ => [])
      = [.WeaponClassFire "blast" ⟨0, 0⟩ 0 0 0 1]
    ∧ BulletUpdate_run envCharacterAt10 1 1 (mine 4) mapWorld = [true]
    ∧ BulletUpdate_run envCharacterAt10 1 1 (mine 3) { mapWorld with IsClient := true }
        = [true] := by
  decide!

/-- C30.  For a door group of at least one door, `GetDoorType` returns a door type of the
requested orientation; it returns the single-door type exactly when the group has one door,
the start type (left, top) exactly when the group has more doors and the index is 0, the end
type (right, bottom) exactly when the group has more doors and the index is the last one,
and the middle type in every other case. -/
theorem GetDoorType_orientation_and_position (isHorizontal : Bool) (i count : Int)
    (hc : 1 ≤ count) :
    DoorTypeIsHorizontal (GetDoorType isHorizontal i count) = isHorizontal
    ∧ ((GetDoorType isHorizontal i count = .DOORTYPE_H
          ∨ GetDoorType isHorizontal i count = .DOORTYPE_V) ↔ count = 1)
    ∧ ((GetDoorType isHorizontal i count = .DOORTYPE_LEFT
          ∨ GetDoorType isHorizontal i count = .DOORTYPE_TOP) ↔ 1 < count ∧ i = 0)
    ∧ ((GetDoorType isHorizontal i count = .DOORTYPE_RIGHT
          ∨ GetDoorType isHorizontal i count = .DOORTYPE_BOTTOM) ↔ 1 < count ∧ i = count - 1)
    ∧ ((GetDoorType isHorizontal i count = .DOORTYPE_HMID
          ∨ GetDoorType isHorizontal i count = .DOORTYPE_VMID)
        ↔ 1 < count ∧ i ≠ 0 ∧ i ≠ count - 1) := by
  unfold GetDoorType
  cases isHorizontal
  · simp only [Bool.false_eq_true, if_false]
    split_ifs with h1 h2 h3 <;> simp [DoorTypeIsHorizontal] <;> omega
  · simp only [if_true]
    split_ifs with h1 h2 h3 <;> simp [DoorTypeIsHorizontal] <;> omega

theorem GetDoorType_orientation_and_position_witness :
    (1 : Int) ≤ 3
    ∧ (DoorTypeIsHorizontal (GetDoorType true 1 3) = true
      ∧ ((GetDoorType true 1 3 = .DOORTYPE_H ∨ GetDoorType true 1 3 = .DOORTYPE_V)
          ↔ (3 : Int) = 1)
      ∧ ((GetDoorType true 1 3 = .DOORTYPE_LEFT ∨ GetDoorType true 1 3 = .DOORTYPE_TOP)
          ↔ (1 : Int) < 3 ∧ (1 : Int) = 0)
      ∧ ((GetDoorType true 1 3 = .DOORTYPE_RIGHT ∨ GetDoorType true 1 3 = .DOORTYPE_BOTTOM)
          ↔ (1 : Int) < 3 ∧ (1 : Int) = 3 - 1)
      ∧ ((GetDoorType true 1 3 = .DOORTYPE_HMID ∨ GetDoorType true 1 3 = .DOORTYPE_VMID)
          ↔ (1 : Int) < 3 ∧ (1 : Int) ≠ 0 ∧ (1 : Int) ≠ 3 - 1))
    ∧ [GetDoorType true 0 3, GetDoorType true 1 3, GetDoorType true 2 3,
        GetDoorType false 0 1]
      = [.DOORTYPE_LEFT, .DOORTYPE_HMID, .DOORTYPE_RIGHT, .DOORTYPE_V] :=
  ⟨by decide, GetDoorType_orientation_and_position true 1 3 (by decide), by decide⟩

theorem LoadBullet_speed_fields (b : BulletClass) (node : BulletNode) :
    (LoadBullet_speed b node).SpeedHigh = loadedSpeedHigh b node
    ∧ (LoadBullet_speed b node).SpeedLow
        = min (loadedSpeedLow b node) (loadedSpeedHigh b node)
    ∧ (LoadBullet_speed b node).RangeLow = b.RangeLow
    ∧ (LoadBullet_speed b node).RangeHigh = b.RangeHigh := by
  unfold LoadBullet_speed loadedSpeedLow loadedSpeedHigh
  cases hs : node.Speed with
  | none =>
    simp only [Option.isSome_none, Bool.false_eq_true, if_false, loadLabel]
    refine ⟨max_eq_right (min_le_right _ _), ?_, ?_, ?_⟩ <;> first | rfl | trivial
  | some v =>
    simp only [Option.isSome_some, if_true, loadLabel]
    refine ⟨max_eq_right (min_le_right _ _), ?_, ?_, ?_⟩ <;> first | rfl | trivial

theorem LoadBullet_range_fields (b : BulletClass) (node : BulletNode) :
    (LoadBullet_range b node).RangeHigh = loadedRangeHigh b node
    ∧ (LoadBullet_range b node).RangeLow
        = min (loadedRangeLow b node) (loadedRangeHigh b node)
    ∧ (LoadBullet_range b node).SpeedLow = b.SpeedLow
    ∧ (LoadBullet_range b node).SpeedHigh = b.SpeedHigh := by
  unfold LoadBullet_range loadedRangeLow loadedRangeHigh
  cases hs : node.Range with
  | none =>
    simp only [Option.isSome_none, Bool.false_eq_true, if_false, loadLabel]
    refine ⟨max_eq_right (min_le_right _ _), ?_, ?_, ?_⟩ <;> first | rfl | trivial
  | some v =>
    simp only [Option.isSome_some, if_true, loadLabel]
    refine ⟨max_eq_right (min_le_right _ _), ?_, ?_, ?_⟩ <;> first | rfl | trivial

/-- C29.  For every JSON node and every default bullet (or none), the class that `LoadBullet`
loads has `SpeedLow ≤ SpeedHigh` and `RangeLow ≤ RangeHigh`: the high end of each range is
the loaded high value, and the low end is the loaded low value, lowered to the high value
when it was larger. -/
theorem LoadBullet_normalises_ranges (node : BulletNode) (defaultBullet : Option BulletClass) :
    (LoadBullet node defaultBullet).SpeedLow ≤ (LoadBullet node defaultBullet).SpeedHigh
    ∧ (LoadBullet node defaultBullet).RangeLow ≤ (LoadBullet node defaultBullet).RangeHigh
    ∧ (LoadBullet node defaultBullet).SpeedHigh
        = loadedSpeedHigh (LoadBullet_init defaultBullet) node
    ∧ (LoadBullet node defaultBullet).SpeedLow
        = (if loadedSpeedLow (LoadBullet_init defaultBullet) node
              > loadedSpeedHigh (LoadBullet_init defaultBullet) node
           then loadedSpeedHigh (LoadBullet_init defaultBullet) node
           else loadedSpeedLow (LoadBullet_init defaultBullet) node)
    ∧ (LoadBullet node defaultBullet).RangeHigh
        = loadedRangeHigh (LoadBullet_init defaultBullet) node
    ∧ (LoadBullet node defaultBullet).RangeLow
        = (if loadedRangeLow (LoadBullet_init defaultBullet) node
              > loadedRangeHigh (LoadBullet_init defaultBullet) node
           then loadedRangeHigh (LoadBullet_init defaultBullet) node
           else loadedRangeLow (LoadBullet_init defaultBullet) node) := by
  have hmin : ∀ {α : Type} [LinearOrder α] (a b : α), min a b = if a > b then b else a := by
    intro α _ a b
    split
    · rename_i h
      exact min_eq_right (le_of_lt h)
    · rename_i h
      exact min_eq_left (not_lt.mp h)
  obtain ⟨r1, r2, r3, r4⟩ := LoadBullet_range_fields
    { LoadBullet_speed
        { LoadBullet_init defaultBullet with
          Delay := loadLabel (LoadBullet_init defaultBullet).Delay node.Delay } node with
      SpeedScale := loadLabel (LoadBullet_speed
        { LoadBullet_init defaultBullet with
          Delay := loadLabel (LoadBullet_init defaultBullet).Delay node.Delay } node).SpeedScale
        node.SpeedScale
      Friction := loadLabel (LoadBullet_speed
        { LoadBullet_init defaultBullet with
          Delay := loadLabel (LoadBullet_init defaultBullet).Delay node.Delay } node).Friction
        node.Friction } node
  obtain ⟨s1, s2, s3, s4⟩ := LoadBullet_speed_fields
    { LoadBullet_init defaultBullet with
      Delay := loadLabel (LoadBullet_init defaultBullet).Delay node.Delay } node
  have hSH : (LoadBullet node defaultBullet).SpeedHigh
      = loadedSpeedHigh (LoadBullet_init defaultBullet) node := r4.trans s1
  have hSL : (LoadBullet node defaultBullet).SpeedLow
      = min (loadedSpeedLow (LoadBullet_init defaultBullet) node)
          (loadedSpeedHigh (LoadBullet_init defaultBullet) node) := r3.trans s2
  have hRH : (LoadBullet node defaultBullet).RangeHigh
      = loadedRangeHigh (LoadBullet_init defaultBullet) node := by
    rw [show (LoadBullet node defaultBullet).RangeHigh = _ from r1]
    unfold loadedRangeHigh
    rw [show (_ : BulletClass).RangeHigh = _ from s4]
  have hRL : (LoadBullet node defaultBullet).RangeLow
      = min (loadedRangeLow (LoadBullet_init defaultBullet) node)
          (loadedRangeHigh (LoadBullet_init defaultBullet) node) := by
    rw [show (LoadBullet node defaultBullet).RangeLow = _ from r2]
    unfold loadedRangeLow loadedRangeHigh
    rw [show (_ : BulletClass).RangeLow = _ from s3,
      show (_ : BulletClass).RangeHigh = _ from s4]
  refine ⟨?_, ?_, hSH, ?_, hRH, ?_⟩
  · rw [hSL, hSH]
    exact min_le_right _ _
  · rw [hRL, hRH]
    exact min_le_right _ _
  · rw [hSL, hmin]
  · rw [hRL, hmin]

theorem PlayHitSound_frame (h : HitSounds) (t : HitType) (pos : Vec2) (w : World) :
    (PlayHitSound h t pos w).gGameEvents = w.gGameEvents
      ∧ (PlayHitSound h t pos w).gMobObjs = w.gMobObjs
      ∧ (PlayHitSound h t pos w).gMap = w.gMap
      ∧ (PlayHitSound h t pos w).randCalls = w.randCalls := by
  unfold PlayHitSound
  split <;> exact ⟨rfl, rfl, rfl, rfl⟩

/-- What a replayed BulletBounce event does for a projectile in use, with the height `z` of
the wall mark left open. -/
theorem BulletBounce_in_use (env : Env) (bb : NBulletBounce) (w : World) (i : Nat)
    (o : TMobileObject) (hget : env.MobObjGetByUID w.gMobObjs bb.UID = some i)
    (hi : w.gMobObjs[i]? = some o) (huse : o.isInUse = true) :
    ∃ w1 z, BulletBounce env bb w = .ok w1
      ∧ w1.gMobObjs[i]?
          = some { o with
              thing := { (env.MapTryMoveThing w.gMap o.thing bb.Pos).2.1 with Vel := bb.Vel } }
      ∧ w1.gGameEvents = w.gGameEvents
          ++ (if bb.Spark = true ∧ o.bulletClass.Spark ≠ none then
                [GameEventNew env (.ADD_PARTICLE
                  { Class := o.bulletClass.Spark, Pos := bb.BouncePos, Z := o.z, DZ := 0,
                    Angle := 0, Text := "" })]
              else [])
          ++ (if bb.WallMark = true ∧ o.bulletClass.WallMark ≠ none then
                [GameEventNew env (.ADD_PARTICLE
                  { Class := o.bulletClass.WallMark, Pos := bb.BouncePos, Z := z, DZ := 0,
                    Angle := 0, Text := "" })]
              else []) := by
  have hlt : i < w.gMobObjs.length := by
    by_contra hc
    rw [List.getElem?_eq_none (by omega)] at hi
    cases hi
  unfold BulletBounce
  rw [hget]
  dsimp only
  rw [hi]
  dsimp only
  rw [huse]
  simp only [Bool.not_true, Bool.false_eq_true, if_false]
  have h1 : (if bb.HitSound = true then
        PlayHitSound o.bulletClass.HitSound bb.HitType bb.BouncePos w else w).gGameEvents
          = w.gGameEvents
      ∧ (if bb.HitSound = true then
        PlayHitSound o.bulletClass.HitSound bb.HitType bb.BouncePos w else w).gMobObjs
          = w.gMobObjs
      ∧ (if bb.HitSound = true then
        PlayHitSound o.bulletClass.HitSound bb.HitType bb.BouncePos w else w).gMap
          = w.gMap := by
    split
    · exact ⟨(PlayHitSound_frame _ _ _ _).1, (PlayHitSound_frame _ _ _ _).2.1,
        (PlayHitSound_frame _ _ _ _).2.2.1⟩
    · exact ⟨rfl, rfl, rfl⟩
  generalize (if bb.HitSound = true then
    PlayHitSound o.bulletClass.HitSound bb.HitType bb.BouncePos w else w) = W1 at h1 ⊢
  obtain ⟨hq1, ho1, hm1⟩ := h1
  by_cases hsp : bb.Spark = true ∧ o.bulletClass.Spark ≠ none
  · have hspc : (bb.Spark && o.bulletClass.Spark.isSome) = true := by
      simp only [Bool.and_eq_true, Option.isSome_iff_ne_none]
      exact hsp
    by_cases hwm : bb.WallMark = true ∧ o.bulletClass.WallMark ≠ none
    · have hwmc : (bb.WallMark && o.bulletClass.WallMark.isSome) = true := by
        simp only [Bool.and_eq_true, Option.isSome_iff_ne_none]
        exact hwm
      simp only [if_pos hsp, if_pos hwm, hspc, hwmc, Bool.false_eq_true, if_true]
      refine ⟨_, o.z + ((floatToInt (RAND_FLOAT env (-(WALL_MARK_Z : ℚ)) (WALL_MARK_Z : ℚ)
        (GameEventsEnqueue W1 (GameEventNew env (.ADD_PARTICLE
          { Class := o.bulletClass.Spark, Pos := bb.BouncePos, Z := o.z, DZ := 0,
            Angle := 0, Text := "" })))).1 : Int) : ℚ), rfl, ?_, ?_⟩
      · simp only [MapTryMoveThing, GameEventsEnqueue, RAND_FLOAT, rand]
        rw [ho1, hm1, List.getElem?_set_self hlt]
      · simp only [MapTryMoveThing, GameEventsEnqueue, RAND_FLOAT, rand]
        rw [hq1]
    · have hwmc : ¬ (bb.WallMark && o.bulletClass.WallMark.isSome) = true := by
        simp only [Bool.and_eq_true, Option.isSome_iff_ne_none]
        exact hwm
      simp only [if_pos hsp, if_neg hwm, hspc, hwmc, Bool.false_eq_true, if_true, if_false]
      refine ⟨_, 0, rfl, ?_, ?_⟩
      · simp only [MapTryMoveThing, GameEventsEnqueue]
        rw [ho1, hm1, List.getElem?_set_self hlt]
      · simp only [MapTryMoveThing, GameEventsEnqueue, List.append_nil]
        rw [hq1]
  · have hspc : ¬ (bb.Spark && o.bulletClass.Spark.isSome) = true := by
      simp only [Bool.and_eq_true, Option.isSome_iff_ne_none]
      exact hsp
    by_cases hwm : bb.WallMark = true ∧ o.bulletClass.WallMark ≠ none
    · have hwmc : (bb.WallMark && o.bulletClass.WallMark.isSome) = true := by
        simp only [Bool.and_eq_true, Option.isSome_iff_ne_none]
        exact hwm
      simp only [if_neg hsp, if_pos hwm, hspc, hwmc, Bool.false_eq_true, if_true, if_false]
      refine ⟨_, o.z + ((floatToInt (RAND_FLOAT env (-(WALL_MARK_Z : ℚ)) (WALL_MARK_Z : ℚ)
        W1).1 : Int) : ℚ), rfl, ?_, ?_⟩
      · simp only [MapTryMoveThing, GameEventsEnqueue, RAND_FLOAT, rand]
        rw [ho1, hm1, List.getElem?_set_self hlt]
      · simp only [MapTryMoveThing, GameEventsEnqueue, RAND_FLOAT, rand, List.append_nil]
        rw [hq1]
    · have hwmc : ¬ (bb.WallMark && o.bulletClass.WallMark.isSome) = true := by
        simp only [Bool.and_eq_true, Option.isSome_iff_ne_none]
        exact hwm
      simp only [if_neg hsp, if_neg hwm, hspc, hwmc, Bool.false_eq_true, if_false]
      refine ⟨_, 0, rfl, ?_, ?_⟩
      · simp only [MapTryMoveThing]
        rw [ho1, hm1, List.getElem?_set_self hlt]
      · simp only [MapTryMoveThing, List.append_nil]
        rw [hq1]

/-- C21.  Replaying a BulletBounce event for a projectile that is in use returns; it leaves
in the slot of the projectile the projectile with the velocity of the event and with the
thing as `MapTryMoveThing(&gMap, &o->thing, bb.Pos)` left it; and it appends to the event
queue one spark particle event at the bounce position exactly when the spark flag is set and
the class has a spark, then one wall-mark particle event at the bounce position exactly when
the wall-mark flag is set and the class has a wall mark, and nothing else. -/
theorem BulletBounce_replays (env : Env) (bb : NBulletBounce) (w : World) (i : Nat)
    (o : TMobileObject) (hget : env.MobObjGetByUID w.gMobObjs bb.UID = some i)
    (hi : w.gMobObjs[i]? = some o) (huse : o.isInUse = true) :
    ∃ w1 sparks marks, BulletBounce env bb w = .ok w1
      ∧ w1.gMobObjs[i]?
          = some { o with
              thing := { (env.MapTryMoveThing w.gMap o.thing bb.Pos).2.1 with Vel := bb.Vel } }
      ∧ w1.gGameEvents = w.gGameEvents ++ sparks ++ marks
      ∧ sparks.length = (if bb.Spark = true ∧ o.bulletClass.Spark ≠ none then 1 else 0)
      ∧ (∀ e ∈ sparks, isParticleAt o.bulletClass.Spark bb.BouncePos e)
      ∧ marks.length = (if bb.WallMark = true ∧ o.bulletClass.WallMark ≠ none then 1 else 0)
      ∧ (∀ e ∈ marks, isParticleAt o.bulletClass.WallMark bb.BouncePos e) := by
  obtain ⟨w1, z, hok, hslot, hq⟩ := BulletBounce_in_use env bb w i o hget hi huse
  refine ⟨w1, _, _, hok, hslot, hq, ?_, ?_, ?_, ?_⟩
  · split <;> rfl
  · intro e he
    split at he
    · simp only [List.mem_singleton] at he
      subst he
      exact ⟨_, rfl, rfl, rfl⟩
    · cases he
  · split <;> rfl
  · intro e he
    split at he
    · simp only [List.mem_singleton] at he
      subst he
      exact ⟨_, rfl, rfl, rfl⟩
    · cases he

theorem storeAt_getElem? {α : Type} (l : List α) (i : Nat) (x : α) (hi : i ≤ l.length) :
    (storeAt l i x)[i]? = some x
      ∧ (∀ j, j ≠ i → (storeAt l i x)[j]? = l[j]?)
      ∧ (storeAt l i x).length = (if i < l.length then l.length else l.length + 1) := by
  unfold storeAt
  by_cases h : i < l.length
  · rw [if_pos h, if_pos h]
    refine ⟨List.getElem?_set_self h, ?_, List.length_set _ _ _⟩
    intro j hj
    exact List.getElem?_set_ne (Ne.symm hj)
  · rw [if_neg h, if_neg h]
    have he : i = l.length := by omega
    subst he
    refine ⟨by simp, ?_, by simp⟩
    intro j hj
    by_cases hjl : j < l.length
    · rw [List.getElem?_append_left hjl]
    · rw [List.getElem?_eq_none (by simp; omega), List.getElem?_eq_none (by omega)]

theorem findIdx_first_free {α : Type} (p : α → Bool) (l : List α) :
    l.findIdx p ≤ l.length
      ∧ (∀ j, j < l.findIdx p → ∀ m, l[j]? = some m → p m = false)
      ∧ (l.findIdx p < l.length → ∃ m, l[l.findIdx p]? = some m ∧ p m = true) := by
  refine ⟨List.findIdx_le_length p, ?_, ?_⟩
  · intro j hj m hm
    have hjl : j < l.length := lt_of_lt_of_le hj (List.findIdx_le_length p)
    have := List.not_of_lt_findIdx hj
    rw [List.getElem?_eq_getElem hjl] at hm
    cases hm
    simpa using this
  · intro h
    exact ⟨l[l.findIdx p], List.getElem?_eq_getElem h, List.findIdx_getElem⟩

/-- C22.  For a known bullet class, `BulletAdd` returns; it stores the new projectile in
the lowest-index slot of `gMobObjs` that is not in use, and in a new slot at the back only
when every slot is in use; afterwards that slot is in use and carries the UID and the owner
UID of the event, and every other slot is as it was. -/
theorem BulletAdd_fills_first_free_slot (env : Env) (add : NAddBullet) (w : World)
    (bc : BulletClass) (hbc : StrBulletClass w.gBulletClasses add.BulletClass = some bc) :
    ∃ w1 i obj, BulletAdd env add w = .ok w1
      ∧ i ≤ w.gMobObjs.length
      ∧ (∀ j, j < i → ∀ m, w.gMobObjs[j]? = some m → m.isInUse = true)
      ∧ (i < w.gMobObjs.length → ∃ m, w.gMobObjs[i]? = some m ∧ m.isInUse = false)
      ∧ w1.gMobObjs.length
          = (if i < w.gMobObjs.length then w.gMobObjs.length else w.gMobObjs.length + 1)
      ∧ w1.gMobObjs[i]? = some obj
      ∧ obj.isInUse = true ∧ obj.UID = add.UID ∧ obj.ActorUID = add.ActorUID
      ∧ (∀ j, j ≠ i → w1.gMobObjs[j]? = w.gMobObjs[j]?) := by
  obtain ⟨hle, hbefore, hat⟩ := findIdx_first_free (fun m : TMobileObject => !m.isInUse)
    w.gMobObjs
  unfold BulletAdd
  rw [hbc]
  dsimp only
  have hobjs : ∀ (t : Thing) (pos : Vec2),
      (MapTryMoveThing env
        (RAND_INT env bc.RangeLow bc.RangeHigh
          (RAND_FLOAT env bc.SpeedLow bc.SpeedHigh w).2).2 t pos).2.2.gMobObjs
        = w.gMobObjs := by
    intro t pos
    simp only [MapTryMoveThing, RAND_INT, RAND_FLOAT, rand]
    split <;> rfl
  refine ⟨_, w.gMobObjs.findIdx (fun m => !m.isInUse), ?obj, rfl, hle, ?before, ?free, ?len,
    ?slot, ?use, ?uid, ?owner, ?others⟩
  case slot =>
    dsimp only
    rw [hobjs]
    exact (storeAt_getElem? _ _ _ hle).1
  case before =>
    intro j hj m hm
    simpa using hbefore j hj m hm
  case free =>
    intro h
    obtain ⟨m, hm, hp⟩ := hat h
    exact ⟨m, hm, by simpa using hp⟩
  case len =>
    dsimp only
    rw [hobjs]
    exact (storeAt_getElem? _ _ _ hle).2.2
  case use => rfl
  case uid => rfl
  case owner => rfl
  case others =>
    intro j hj
    dsimp only
    rw [hobjs]
    exact (storeAt_getElem? _ _ _ hle).2.1 j hj

theorem addBullets_append (a b : List GameEvent) :
    addBullets (a ++ b) = addBullets a ++ addBullets b := by
  simp [addBullets, List.filterMap_append]

/-- The spread loop of the GunFire arm over the indices of `l` appends one AddBullet event
for every index. -/
theorem GunFire_spread_loop (env : Env) (gf : NGunFire) (wc : WeaponClass) (name : String)
    (a : ℚ) (l : List Nat) :
    ∀ w : World, ∃ added,
      (l.foldl (GunFire_addBullet env gf wc name a) w).gGameEvents = w.gGameEvents ++ added
        ∧ (addBullets added).length = l.length ∧ added.length = l.length := by
  induction l with
  | nil =>
    intro w
    exact ⟨[], by simp, rfl, rfl⟩
  | cons i l ih =>
    intro w
    rw [List.foldl_cons]
    obtain ⟨added, hq, hn, hl⟩ := ih (GunFire_addBullet env gf wc name a w i)
    have hstep : ∃ X : NAddBullet, (GunFire_addBullet env gf wc name a w i).gGameEvents
        = w.gGameEvents ++ [GameEventNew env (.ADD_BULLET X)] := by
      unfold GunFire_addBullet
      dsimp only
      simp only [GameEventsEnqueue]
      rw [RAND_INT_events]
      exact ⟨_, rfl⟩
    obtain ⟨X, hstep⟩ := hstep
    refine ⟨GameEventNew env (.ADD_BULLET X) :: added, ?_, ?_, ?_⟩
    · rw [hq, hstep, List.append_assoc]
      rfl
    · rw [show (GameEventNew env (.ADD_BULLET X) :: added)
          = [GameEventNew env (.ADD_BULLET X)] ++ added from rfl,
        addBullets_append, List.length_append, hn]
      simp [addBullets, GameEventNew]
      omega
    · simp [hl]

/-- C23.  Dispatching a GunFire event for a weapon that has a bullet class returns and
appends to the event queue exactly `Spread.Count` AddBullet events on the server (none for a
count below one), and no AddBullet event on a client. -/
theorem HandleGameEvent_gunFire_adds_bullets (env : Env) (e : GameEvent) (gf : NGunFire)
    (w : World) (wc : WeaponClass) (name : String) (he : e.u = .GUN_FIRE gf)
    (hwc : env.StrWeaponClass gf.Gun = some wc) (hb : wc.Bullet = some name) :
    ∃ w1 added, HandleGameEvent env e w = .ok w1
      ∧ w1.gGameEvents = w.gGameEvents ++ added
      ∧ (addBullets added).length = (if w.IsClient = true then 0 else wc.SpreadCount.toNat) := by
  have hge : HandleGameEvent env e w = GunFire env gf w := by
    unfold HandleGameEvent
    rw [he]
  rw [hge]
  unfold GunFire
  rw [hwc]
  dsimp only
  rw [hb]
  dsimp only
  have hw1 : ∃ a1, (if (!w.IsClient) = true then
        (List.range wc.SpreadCount.toNat).foldl
          (GunFire_addBullet env gf wc name
            (wc.AngleOffset - ((wc.SpreadCount - 1 : Int) : ℚ) * wc.SpreadWidth / 2)) w
      else w).gGameEvents = w.gGameEvents ++ a1
      ∧ (addBullets a1).length = (if w.IsClient = true then 0 else wc.SpreadCount.toNat) := by
    cases hc : w.IsClient with
    | true => exact ⟨[], by simp, rfl⟩
    | false =>
      obtain ⟨added, hq, hn, _⟩ := GunFire_spread_loop env gf wc name
        (wc.AngleOffset - ((wc.SpreadCount - 1 : Int) : ℚ) * wc.SpreadWidth / 2)
        (List.range wc.SpreadCount.toNat) w
      refine ⟨added, ?_, ?_⟩
      · simpa using hq
      · simpa using hn
  obtain ⟨a1, hq1, hn1⟩ := hw1
  generalize (if (!w.IsClient) = true then
        (List.range wc.SpreadCount.toNat).foldl
          (GunFire_addBullet env gf wc name
            (wc.AngleOffset - ((wc.SpreadCount - 1 : Int) : ℚ) * wc.SpreadWidth / 2)) w
      else w) = W1 at hq1 ⊢
  have hw2 : ∃ a2, (if (wc.HasMuzzle && wc.MuzzleFlash.isSome) = true then
        GameEventsEnqueue W1 (GameEventNew env (.ADD_PARTICLE
          { Class := wc.MuzzleFlash, Pos := gf.MuzzlePos, Z := (gf.Z : ℚ), DZ := 0,
            Angle := gf.Angle, Text := "" }))
      else W1).gGameEvents = W1.gGameEvents ++ a2 ∧ addBullets a2 = [] := by
    split
    · exact ⟨[_], rfl, rfl⟩
    · exact ⟨[], by simp, rfl⟩
  obtain ⟨a2, hq2, hn2⟩ := hw2
  generalize (if (wc.HasMuzzle && wc.MuzzleFlash.isSome) = true then
        GameEventsEnqueue W1 (GameEventNew env (.ADD_PARTICLE
          { Class := wc.MuzzleFlash, Pos := gf.MuzzlePos, Z := (gf.Z : ℚ), DZ := 0,
            Angle := gf.Angle, Text := "" }))
      else W1) = W2 at hq2 ⊢
  have hw3 : (if (gf.Sound && wc.Sound.isSome) = true then
      W2.emit (.SoundPlayAt wc.Sound gf.MuzzlePos) else W2).gGameEvents = W2.gGameEvents := by
    split <;> rfl
  generalize (if (gf.Sound && wc.Sound.isSome) = true then
      W2.emit (.SoundPlayAt wc.Sound gf.MuzzlePos) else W2) = W3 at hw3 ⊢
  have hw4 : ∃ a4, (if wc.ShakeAmount > 0 then
        GameEventsEnqueue W3 (GameEventNew env
          (.SCREEN_SHAKE wc.ShakeAmount wc.ShakeCameraSubjectOnly gf.ActorUID))
      else W3).gGameEvents = W3.gGameEvents ++ a4 ∧ addBullets a4 = [] := by
    split
    · exact ⟨[_], rfl, rfl⟩
    · exact ⟨[], by simp, rfl⟩
  obtain ⟨a4, hq4, hn4⟩ := hw4
  generalize (if wc.ShakeAmount > 0 then
        GameEventsEnqueue W3 (GameEventNew env
          (.SCREEN_SHAKE wc.ShakeAmount wc.ShakeCameraSubjectOnly gf.ActorUID))
      else W3) = W4 at hq4 ⊢
  refine ⟨_, a1 ++ a2 ++ a4, rfl, ?_, ?_⟩
  · have : (if (wc.Brass.isSome && decide (wc.ReloadLead = 0)) = true then
          W4.emit (.WeaponClassAddBrass wc.name (env.RadiansToDirection gf.Angle) gf.MuzzlePos)
        else W4).gGameEvents = W4.gGameEvents := by
      split <;> rfl
    rw [this, hq4, hw3, hq2, hq1]
    simp
  · rw [addBullets_append, addBullets_append, hn2, hn4]
    simpa using hn1

theorem BulletBounce_replays_witness :
    (∃ w1 sparks marks, BulletBounce stdEnv bounceOf5 sparkWorld = .ok w1
      ∧ w1.gMobObjs[0]?
          = some { sparkingBullet with
              thing := { (stdEnv.MapTryMoveThing sparkWorld.gMap sparkingBullet.thing
                            bounceOf5.Pos).2.1 with Vel := bounceOf5.Vel } }
      ∧ w1.gGameEvents = sparkWorld.gGameEvents ++ sparks ++ marks
      ∧ sparks.length
          = (if bounceOf5.Spark = true ∧ sparkingBullet.bulletClass.Spark ≠ none then 1 else 0)
      ∧ (∀ e ∈ sparks, isParticleAt sparkingBullet.bulletClass.Spark bounceOf5.BouncePos e)
      ∧ marks.length
          = (if bounceOf5.WallMark = true ∧ sparkingBullet.bulletClass.WallMark ≠ none
             then 1 else 0)
      ∧ (∀ e ∈ marks, isParticleAt sparkingBullet.bulletClass.WallMark bounceOf5.BouncePos e))
    ∧ (match BulletBounce stdEnv bounceOf5 sparkWorld with
        | .ok w1 => w1.gGameEvents.map (fun e =>
            match e.u with
            | .ADD_PARTICLE ap => (ap.Class, ap.Pos)
            | _ => (none, ⟨0, 0⟩))
        | .error _ => [])
      = [(some "spark", ⟨9, 9⟩), (some "mark", ⟨9, 9⟩)] :=
  ⟨BulletBounce_replays stdEnv bounceOf5 sparkWorld 0 sparkingBullet (by decide!) rfl rfl,
    by decide!⟩

theorem BulletAdd_fills_first_free_slot_witness :
    (∃ w1 i obj, BulletAdd stdEnv (addBulletOf "pistol") slotsWorld = .ok w1
      ∧ i ≤ slotsWorld.gMobObjs.length
      ∧ (∀ j, j < i → ∀ m, slotsWorld.gMobObjs[j]? = some m → m.isInUse = true)
      ∧ (i < slotsWorld.gMobObjs.length →
          ∃ m, slotsWorld.gMobObjs[i]? = some m ∧ m.isInUse = false)
      ∧ w1.gMobObjs.length
          = (if i < slotsWorld.gMobObjs.length then slotsWorld.gMobObjs.length
             else slotsWorld.gMobObjs.length + 1)
      ∧ w1.gMobObjs[i]? = some obj
      ∧ obj.isInUse = true ∧ obj.UID = (addBulletOf "pistol").UID
      ∧ obj.ActorUID = (addBulletOf "pistol").ActorUID
      ∧ (∀ j, j ≠ i → w1.gMobObjs[j]? = slotsWorld.gMobObjs[j]?))
    ∧ (match BulletAdd stdEnv (addBulletOf "pistol") slotsWorld with
        | .ok w1 => w1.gMobObjs.map (fun m => (m.UID, m.isInUse))
        | .error _ => [])
      = [(5, true), (0, true), (7, true)] :=
  ⟨BulletAdd_fills_first_free_slot stdEnv (addBulletOf "pistol") slotsWorld pistolBullet
      (by decide!),
    by decide!⟩

theorem HandleGameEvent_gunFire_adds_bullets_witness :
    (∃ w1 added, HandleGameEvent gunEnv gunFireEvent bulletWorld = .ok w1
      ∧ w1.gGameEvents = bulletWorld.gGameEvents ++ added
      ∧ (addBullets added).length
          = (if bulletWorld.IsClient = true then 0 else shotgun.SpreadCount.toNat))
    ∧ (match HandleGameEvent gunEnv gunFireEvent bulletWorld with
        | .ok w1 => (addBullets w1.gGameEvents).map (fun a => (a.BulletClass, a.ActorUID))
        | .error _ => [])
      = [("pistol", 1), ("pistol", 1), ("pistol", 1)]
    ∧ (match HandleGameEvent gunEnv gunFireEvent { bulletWorld with IsClient := true } with
        | .ok w1 => (addBullets w1.gGameEvents).length
        | .error _ => 1)
      = 0 :=
  ⟨HandleGameEvent_gunFire_adds_bullets gunEnv gunFireEvent
      { Gun := "shotgun", MuzzlePos := ⟨8, 8⟩, Z := 10, Angle := 0, Flags := 0,
        ActorUID := 1, Sound := false }
      bulletWorld shotgun "pistol" rfl rfl rfl,
    by decide!, by decide!⟩

theorem recordContact_contact (origin : Vec2) (d1 d2 : HitItemData) (c : Contact)
    (h : d1.contact = d2.contact) :
    (recordContact origin d1 c).contact = (recordContact origin d2 c).contact := by
  unfold HitItemData.contact at h
  simp only [Prod.mk.injEq] at h
  obtain ⟨h1, h2, h3⟩ := h
  unfold recordContact SetClosestCollision HitItemData.contact
  dsimp only
  rw [h3]
  split
  · rfl
  · simp only [h1, h2, h3]

theorem foldl_recordContact_contact (origin : Vec2) (l : List Contact) :
    ∀ d1 d2 : HitItemData, d1.contact = d2.contact →
      (l.foldl (recordContact origin) d1).contact
        = (l.foldl (recordContact origin) d2).contact := by
  induction l with
  | nil => intro d1 d2 h; exact h
  | cons c cs ih =>
    intro d1 d2 h
    simp only [List.foldl_cons]
    exact ih _ _ (recordContact_contact origin d1 d2 c h)

theorem lockSound_Pos (env : Env) (t : Thing) : (lockSound env t).Pos = t.Pos := by
  unfold lockSound
  split <;> rfl

theorem HitItem_callback_multiple_contact (env : Env) (c : Candidate) (s s1 : HitState)
    (hm : s.data.MultipleHits = true) (h : HitItem_callback env s c = .ok s1) :
    s1.data.MultipleHits = true ∧ s1.obj.thing.Pos = s.obj.thing.Pos
      ∧ s1.data.contact
          = ((wallContacts [c]).foldl (recordContact s.obj.thing.Pos) s.data).contact := by
  cases c with
  | wall tilePos col normal =>
    simp only [HitItem_callback] at h
    cases h
    refine ⟨?_, rfl, rfl⟩
    simp only [HitWallFunc, SetClosestCollision_multipleHits]
    exact hm
  | thing ti colA colB normal =>
    simp only [HitItem_callback, HitItemFunc, hm, if_true] at h
    split at h
    · cases h
      exact ⟨hm, rfl, rfl⟩
    · unfold OnHit at h
      cases hg : GetHitType env s.w ti s.obj with
      | error f => rw [hg] at h; cases h
      | ok r =>
        obtain ⟨ht, uid⟩ := r
        rw [hg] at h
        dsimp only at h
        cases h
        exact ⟨hm, lockSound_Pos env s.obj.thing, rfl⟩

theorem wallContacts_cons (c : Candidate) (cs : List Candidate) :
    wallContacts (c :: cs) = wallContacts [c] ++ wallContacts cs := by
  unfold wallContacts
  rw [← List.filterMap_append]
  rfl

theorem HitItem_callbacks_multiple_contact (env : Env) (cands : List Candidate) :
    ∀ (s s1 : HitState), s.data.MultipleHits = true →
      HitItem_callbacks env s cands = .ok s1 →
      s1.data.contact
        = ((wallContacts cands).foldl (recordContact s.obj.thing.Pos) s.data).contact := by
  induction cands with
  | nil =>
    intro s s1 _ h
    simp only [HitItem_callbacks] at h
    cases h
    rfl
  | cons c cs ih =>
    intro s s1 hm h
    simp only [HitItem_callbacks] at h
    cases hc : HitItem_callback env s c with
    | error f => rw [hc] at h; cases h
    | ok s2 =>
      rw [hc] at h
      obtain ⟨hm2, hp, hd⟩ := HitItem_callback_multiple_contact env c s s2 hm hc
      rw [ih s2 s1 hm2 h, hp, wallContacts_cons, List.foldl_append]
      exact foldl_recordContact_contact _ _ _ _ hd

/-- For a projectile with multiple hits whose overlap query has reported a wall, the position
and the normal of the `HitResult` are those of the first of the wall contacts at the minimum
squared distance to the position of the projectile, whatever targets were reported. -/
theorem HitItem_multiple_reports_wall_contact (env : Env) (obj : TMobileObject) (pos : Vec2)
    (w : World) (hit : HitResult)
    (h : reportedHit (HitItem env obj pos true w) = some hit)
    (hne : wallContacts (env.OverlapThings w obj.thing pos) ≠ []) :
    ∃ k c,
      FirstClosest obj.thing.Pos (wallContacts (env.OverlapThings w obj.thing pos)) k c
      ∧ hit.Pos = c.col ∧ hit.Normal = c.normal := by
  cases hr : HitItem env obj pos true w with
  | error f => rw [hr] at h; cases h
  | ok x =>
    obtain ⟨hit1, obj1, w1⟩ := x
    rw [hr] at h
    have hh : hit1 = hit := Option.some.inj h
    subst hh
    unfold HitItem at hr
    cases ho : HitItem_overlap env obj pos true w with
    | error f => rw [ho] at hr; cases hr
    | ok s =>
      rw [ho] at hr
      have hc : HitItem_closest env true s = .ok s := rfl
      dsimp only at hr
      rw [hc] at hr
      simp only [Except.ok.injEq, Prod.mk.injEq] at hr
      obtain ⟨hhit, _, _⟩ := hr
      subst hhit
      unfold HitItem_overlap at ho
      have hd := HitItem_callbacks_multiple_contact env _ _ s rfl ho
      dsimp only at hd
      have key := foldl_recordContact_inv obj.thing.Pos
        { HitType := .HIT_NONE, MultipleHits := true, u := .unset, ColPos := pos,
          ColNormal := svec2_zero, ColPosDist2 := -1 }
        (by norm_num) (wallContacts (env.OverlapThings w obj.thing pos))
      rcases key with ⟨hnil, _⟩ | ⟨k, c, hfc, hrec⟩
      · exact absurd hnil hne
      · obtain ⟨hcol, hnormal, _, _, _⟩ := hrec
        unfold HitItemData.contact at hd
        simp only [Prod.mk.injEq] at hd
        exact ⟨k, c, hfc, hd.1.trans hcol, hd.2.1.trans hnormal⟩

/-- C24.  The projectile `piercingBullet`, with multiple hits, sweeps across a wall at
distance 5 and a target at distance 3.  When the overlap query reports the wall first,
`HitItem` returns a hit of type flesh with the position and normal of the wall; when it
reports the target first, `HitItem` returns a hit of type wall with the same position and
normal: the type of the hit is the one that the last callback wrote. -/
theorem HitItem_multiple_type_follows_last_callback :
    piercingBullet.bulletClass.Persists = true
    ∧ envWallThenTarget.OverlapThings hitWorld piercingBullet.thing ⟨0, 0⟩
        = [.wall ⟨0, 0⟩ ⟨5, 0⟩ ⟨-1, 0⟩, .thing (actorThing 0) ⟨3, 0⟩ ⟨3, 0⟩ ⟨-1, 0⟩]
    ∧ reportedHit (HitItem envWallThenTarget piercingBullet ⟨0, 0⟩ true hitWorld)
        = some { Type_ := .HIT_FLESH, Pos := ⟨5, 0⟩, Normal := ⟨-1, 0⟩ }
    ∧ envTargetThenWall.OverlapThings hitWorld piercingBullet.thing ⟨0, 0⟩
        = [.thing (actorThing 0) ⟨3, 0⟩ ⟨3, 0⟩ ⟨-1, 0⟩, .wall ⟨0, 0⟩ ⟨5, 0⟩ ⟨-1, 0⟩]
    ∧ reportedHit (HitItem envTargetThenWall piercingBullet ⟨0, 0⟩ true hitWorld)
        = some { Type_ := .HIT_WALL, Pos := ⟨5, 0⟩, Normal := ⟨-1, 0⟩ } := by
  decide!

/-- C25, counterexample.  The projectile `lockedSingleBullet`, without multiple hits and with
a positive sound lock, sweeps across a wall at distance 5 and a target at distance 3; the hit
type of the target is none; `HitItem` reports no hit, at the contact point of the target,
and not the wall. -/
theorem HitItem_single_muted_target_hides_wall :
    lockedSingleBullet.bulletClass.Persists = false
    ∧ (match GetHitType envWallThenTarget hitWorld (actorThing 0) lockedSingleBullet with
        | .ok r => some r.1
        | .error _ => none) = some .HIT_NONE
    ∧ envWallThenTarget.OverlapThings hitWorld lockedSingleBullet.thing ⟨0, 0⟩
        = [.wall ⟨0, 0⟩ ⟨5, 0⟩ ⟨-1, 0⟩, .thing (actorThing 0) ⟨3, 0⟩ ⟨3, 0⟩ ⟨-1, 0⟩]
    ∧ reportedHit (HitItem envWallThenTarget lockedSingleBullet ⟨0, 0⟩ false hitWorld)
        = some { Type_ := .HIT_NONE, Pos := ⟨3, 0⟩, Normal := ⟨-1, 0⟩ } := by
  decide!

theorem HitItem_single_closest_contact (env : Env) (obj : TMobileObject) (pos : Vec2)
    (w : World) (hit : HitResult) (obj1 : TMobileObject) (w1 : World)
    (h : HitItem env obj pos false w = .ok (hit, obj1, w1))
    (hne : (env.OverlapThings w obj.thing pos).filterMap (contactOf env w obj) ≠ []) :
    ∃ k c,
      FirstClosest obj.thing.Pos
        ((env.OverlapThings w obj.thing pos).filterMap (contactOf env w obj)) k c
      ∧ hit.Type_ = c.ht ∧ hit.Pos = c.col ∧ hit.Normal = c.normal := by
  unfold HitItem at h
  cases ho : HitItem_overlap env obj pos false w with
  | error f => rw [ho] at h; cases h
  | ok s =>
    rw [ho] at h
    have ho2 := ho
    unfold HitItem_overlap at ho2
    obtain ⟨hobj, hw, hd⟩ := HitItem_callbacks_single env _ _ s rfl ho2
    dsimp only at hobj hw hd
    rw [contactOf_emit] at hd
    have key := foldl_recordContact_inv obj.thing.Pos
      { HitType := .HIT_NONE, MultipleHits := false, u := .unset, ColPos := pos,
        ColNormal := svec2_zero, ColPosDist2 := -1 }
      (by norm_num) ((env.OverlapThings w obj.thing pos).filterMap (contactOf env w obj))
    rw [← hd] at key
    rcases key with ⟨hnil, _⟩ | ⟨k, c, hfc, hrec⟩
    · exact absurd hnil hne
    · obtain ⟨hcol, hnormal, hht, hu, hdist⟩ := hrec
      refine ⟨k, c, hfc, ?_⟩
      dsimp only at h
      cases hc : HitItem_closest env false s with
      | error f => rw [hc] at h; cases h
      | ok s1 =>
        rw [hc] at h
        simp only [Except.ok.injEq, Prod.mk.injEq] at h
        obtain ⟨hhit, _, _⟩ := h
        subst hhit
        unfold HitItem_closest at hc
        split at hc
        · rename_i hcond
          simp only [Bool.not_false, Bool.true_and, Bool.and_eq_true, decide_eq_true_eq,
            Bool.or_eq_true] at hcond
          have hty := hcond.2
          have hnw : c.ht ≠ .HIT_WALL := by
            rw [← hht]
            rcases hty with h1 | h1 <;> rw [h1] <;> decide
          have hut : s.data.u = .Target c.target := by
            rw [hu]
            simp [Contact.u, hnw]
          rw [hut] at hc
          dsimp only at hc
          obtain ⟨ht, uid, hg, _, hdata, _, _, _⟩ := OnHit_ok env s s1 c.target hc
          rw [hw, hobj] at hg
          have hg1 : GetHitType env w c.target obj = .ok (ht, uid) := hg
          have hmem : c ∈ (env.OverlapThings w obj.thing pos).filterMap
              (contactOf env w obj) := List.getElem?_mem hfc.1
          obtain ⟨uid0, hg0⟩ := contactOf_mem_thing env w obj _ c hmem hnw
          rw [hg0] at hg1
          simp only [Except.ok.injEq, Prod.mk.injEq] at hg1
          rw [hdata]
          exact ⟨hg1.1.symm, hcol, hnormal⟩
        · cases hc
          exact ⟨hht, hcol, hnormal⟩

/-- C25, amended.  For a projectile without multiple hits, every target that passes `CanHit`
takes part in the closest-contact selection, whatever its hit type: when the overlap query
has reported a wall or such a target, `HitItem` reports the hit type, the position and the
normal of the first of the contacts at the minimum squared distance to the position of the
projectile, be it a wall or a target, and be the hit type of the target none. -/
theorem HitItem_single_reports_closest_contact (env : Env) (obj : TMobileObject) (pos : Vec2)
    (w : World) (hit : HitResult)
    (h : reportedHit (HitItem env obj pos false w) = some hit)
    (hne : (env.OverlapThings w obj.thing pos).filterMap (contactOf env w obj) ≠ []) :
    ∃ k c,
      FirstClosest obj.thing.Pos
        ((env.OverlapThings w obj.thing pos).filterMap (contactOf env w obj)) k c
      ∧ hit.Type_ = c.ht ∧ hit.Pos = c.col ∧ hit.Normal = c.normal := by
  cases hr : HitItem env obj pos false w with
  | error f => rw [hr] at h; cases h
  | ok x =>
    obtain ⟨hit1, obj1, w1⟩ := x
    rw [hr] at h
    have hh : hit1 = hit := Option.some.inj h
    subst hh
    exact HitItem_single_closest_contact env obj pos w hit1 obj1 w1 hr hne

theorem HitItem_single_reports_closest_contact_witness :
    (∃ k c,
      FirstClosest lockedSingleBullet.thing.Pos
        ((envWallThenTarget.OverlapThings hitWorld lockedSingleBullet.thing ⟨0, 0⟩).filterMap
          (contactOf envWallThenTarget hitWorld lockedSingleBullet)) k c
      ∧ HitType.HIT_NONE = c.ht ∧ (⟨3, 0⟩ : Vec2) = c.col ∧ (⟨-1, 0⟩ : Vec2) = c.normal)
    ∧ ((envWallThenTarget.OverlapThings hitWorld lockedSingleBullet.thing ⟨0, 0⟩).filterMap
          (contactOf envWallThenTarget hitWorld lockedSingleBullet)).map
        (fun c => (c.ht, c.col))
      = [(.HIT_WALL, ⟨5, 0⟩), (.HIT_NONE, ⟨3, 0⟩)] :=
  ⟨HitItem_single_reports_closest_contact envWallThenTarget lockedSingleBullet ⟨0, 0⟩ hitWorld
      { Type_ := .HIT_NONE, Pos := ⟨3, 0⟩, Normal := ⟨-1, 0⟩ } (by decide!) (by decide!),
    by decide!⟩

theorem findIdx_le_of_getElem? {α : Type} (p : α → Bool) (l : List α) (i : Nat) (x : α)
    (hi : l[i]? = some x) (hp : p x = true) : l.findIdx p ≤ i := by
  by_contra hc
  push_neg at hc
  have hil : i < l.length := lt_of_lt_of_le hc (List.findIdx_le_length p)
  have hn := List.not_of_lt_findIdx hc
  rw [List.getElem?_eq_getElem hil] at hi
  cases hi
  simp [hp] at hn

theorem PickupGetByUID_some (l : List Pickup) (uid : Int) (i : Nat)
    (h : PickupGetByUID l uid = some i) :
    i < l.length ∧ (∃ p, l[i]? = some p ∧ p.UID = uid)
      ∧ ∀ (j : Nat) (q : Pickup), j < i → l[j]? = some q → q.UID ≠ uid := by
  unfold PickupGetByUID at h
  dsimp only at h
  split at h
  · rename_i hlt
    cases h
    obtain ⟨_, hbefore, hat⟩ := findIdx_first_free (fun p : Pickup => p.UID == uid) l
    refine ⟨hlt, ?_, ?_⟩
    · obtain ⟨m, hm, hp⟩ := hat hlt
      exact ⟨m, hm, by simpa using hp⟩
    · intro j q hj hq
      have := hbefore j hj q hq
      simpa using this
  · cases h

theorem FirstOfUID_lookup (l : List Pickup) (h : FirstOfUID l) (i : Nat) (p : Pickup)
    (hi : l[i]? = some p) (hp : p.isInUse = true) : PickupGetByUID l p.UID = some i := by
  have hil : i < l.length := by
    by_contra hc
    rw [List.getElem?_eq_none (by omega)] at hi
    cases hi
  have hle : l.findIdx (fun q : Pickup => q.UID == p.UID) ≤ i :=
    findIdx_le_of_getElem? _ l i p hi (by simp)
  have hlt : l.findIdx (fun q : Pickup => q.UID == p.UID) < l.length := lt_of_le_of_lt hle hil
  unfold PickupGetByUID
  dsimp only
  rw [if_pos hlt]
  rcases Nat.lt_or_ge (l.findIdx (fun q : Pickup => q.UID == p.UID)) i with hlt2 | hge
  · exfalso
    have hq : ((l[l.findIdx (fun q : Pickup => q.UID == p.UID)]).UID == p.UID) = true :=
      List.findIdx_getElem (w := hlt)
    exact h i p hi hp _ _ hlt2 (List.getElem?_eq_getElem hlt) (by simpa using hq)
  · exact congrArg some (le_antisymm hle hge)

theorem FirstOfUID_unique (l : List Pickup) (h : FirstOfUID l) (i j : Nat) (p q : Pickup)
    (hi : l[i]? = some p) (hj : l[j]? = some q) (hp : p.isInUse = true)
    (hq : q.isInUse = true) (hu : p.UID = q.UID) : i = j := by
  rcases Nat.lt_trichotomy i j with hlt | heq | hgt
  · exact absurd hu (h j q hj hq i p hlt hi)
  · exact heq
  · exact absurd hu.symm (h i p hi hp j q hgt hj)

theorem FirstOfUID_free (l : List Pickup) (h : FirstOfUID l) (i : Nat) (p : Pickup)
    (t : Thing) (hi : l[i]? = some p) :
    FirstOfUID (l.set i { p with thing := t, isInUse := false }) := by
  have hil : i < l.length := by
    by_contra hc
    rw [List.getElem?_eq_none (by omega)] at hi
    cases hi
  intro k pk hk hkuse j q hjk hj
  have hki : k ≠ i := by
    intro he
    subst he
    rw [List.getElem?_set_self hil] at hk
    cases hk
    cases hkuse
  rw [List.getElem?_set_ne (Ne.symm hki)] at hk
  by_cases hji : j = i
  · subst hji
    rw [List.getElem?_set_self hil] at hj
    cases hj
    exact h k pk hk hkuse j p hjk hi
  · rw [List.getElem?_set_ne (Ne.symm hji)] at hj
    exact h k pk hk hkuse j q hjk hj

theorem PickupDestroy_ok (env : Env) (uid : Int) (w w1 : World)
    (h : PickupDestroy env uid w = .ok w1) :
    ∃ i p t, PickupGetByUID w.gPickups uid = some i ∧ w.gPickups[i]? = some p
      ∧ w1.gPickups = w.gPickups.set i { p with thing := t, isInUse := false } := by
  unfold PickupDestroy at h
  cases hg : PickupGetByUID w.gPickups uid with
  | none => rw [hg] at h; cases h
  | some i =>
    rw [hg] at h
    dsimp only at h
    cases hp : w.gPickups[i]? with
    | none => rw [hp] at h; cases h
    | some p =>
      rw [hp] at h
      dsimp only at h
      cases hc : CASSERT env p.isInUse with
      | error f => rw [hc] at h; cases h
      | ok u =>
        rw [hc] at h
        dsimp only at h
        cases h
        exact ⟨i, p, _, rfl, hp, rfl⟩

theorem PickupDestroy_FirstOfUID (env : Env) (uid : Int) (w w1 : World)
    (hinv : FirstOfUID w.gPickups) (h : PickupDestroy env uid w = .ok w1) :
    FirstOfUID w1.gPickups := by
  obtain ⟨i, p, t, _, hp, hw1⟩ := PickupDestroy_ok env uid w w1 h
  rw [hw1]
  exact FirstOfUID_free _ hinv i p t hp

/-- After the first statement of `PickupAdd`, no pickup in use carries the UID. -/
theorem PickupAdd_destroyExisting_ok (env : Env) (uid : Int) (w w1 : World)
    (hinv : FirstOfUID w.gPickups) (h : PickupAdd_destroyExisting env uid w = .ok w1) :
    FirstOfUID w1.gPickups
      ∧ ∀ (k : Nat) (p : Pickup), w1.gPickups[k]? = some p → p.isInUse = true → p.UID ≠ uid := by
  unfold PickupAdd_destroyExisting at h
  cases hg : PickupGetByUID w.gPickups uid with
  | none =>
    rw [hg] at h
    cases h
    refine ⟨hinv, ?_⟩
    intro k p hk _ hu
    have hkl : k < w.gPickups.length := by
      by_contra hc
      rw [List.getElem?_eq_none (by omega)] at hk
      cases hk
    have hle : w.gPickups.findIdx (fun q : Pickup => q.UID == uid) ≤ k :=
      findIdx_le_of_getElem? _ _ k p hk (by simp [hu])
    unfold PickupGetByUID at hg
    dsimp only at hg
    rw [if_pos (lt_of_le_of_lt hle hkl)] at hg
    cases hg
  | some j =>
    rw [hg] at h
    dsimp only at h
    obtain ⟨hjl, ⟨pj, hpj, hpju⟩, hfirst⟩ := PickupGetByUID_some _ _ _ hg
    rw [hpj] at h
    dsimp only at h
    by_cases huse : pj.isInUse = true
    · rw [if_pos huse] at h
      obtain ⟨i, p, t, hgi, hp, hw1⟩ := PickupDestroy_ok env uid w w1 h
      rw [hg] at hgi
      cases hgi
      rw [hpj] at hp
      cases hp
      rw [hw1]
      refine ⟨FirstOfUID_free _ hinv j pj t hpj, ?_⟩
      intro k p hk hkuse hu
      have hkj : k ≠ j := by
        intro he
        subst he
        rw [List.getElem?_set_self hjl] at hk
        cases hk
        cases hkuse
      rw [List.getElem?_set_ne (Ne.symm hkj)] at hk
      rcases Nat.lt_or_ge k j with hlt | hge
      · exact hfirst k p hlt hk hu
      · have hjk : j < k := lt_of_le_of_ne hge (Ne.symm hkj)
        exact hinv k p hk hkuse j pj hjk hpj (hpju.trans hu.symm)
    · rw [if_neg huse] at h
      cases h
      refine ⟨hinv, ?_⟩
      intro k p hk hkuse hu
      rcases Nat.lt_trichotomy k j with hlt | heq | hgt
      · exact hfirst k p hlt hk hu
      · subst heq
        rw [hpj] at hk
        cases hk
        exact huse hkuse
      · exact hinv k p hk hkuse j pj hgt hpj (hpju.trans hu.symm)

theorem FirstOfUID_store (l : List Pickup) (hinv : FirstOfUID l) (x : Pickup)
    (hnew : ∀ (k : Nat) (p : Pickup), l[k]? = some p → p.isInUse = true → p.UID ≠ x.UID) :
    FirstOfUID (storeAt l (l.findIdx (fun pu => !pu.isInUse)) x) := by
  obtain ⟨hle, hbefore, _⟩ := findIdx_first_free (fun pu : Pickup => !pu.isInUse) l
  obtain ⟨hat, hother, _⟩ := storeAt_getElem? l _ x hle
  intro k p hk hkuse j q hjk hj
  by_cases hki : k = l.findIdx (fun pu => !pu.isInUse)
  · subst hki
    rw [hat] at hk
    cases hk
    have hji : j ≠ l.findIdx (fun pu => !pu.isInUse) := Nat.ne_of_lt hjk
    rw [hother j hji] at hj
    have hquse : q.isInUse = true := by
      have := hbefore j hjk q hj
      simpa using this
    exact hnew j q hj hquse
  · rw [hother k hki] at hk
    by_cases hji : j = l.findIdx (fun pu => !pu.isInUse)
    · subst hji
      rw [hat] at hj
      cases hj
      exact (hnew k p hk hkuse).symm
    · rw [hother j hji] at hj
      exact hinv k p hk hkuse j q hjk hj

theorem PickupAdd_FirstOfUID (env : Env) (ap : NAddPickup) (w w1 : World)
    (hinv : FirstOfUID w.gPickups) (h : PickupAdd env ap w = .ok w1) :
    FirstOfUID w1.gPickups := by
  unfold PickupAdd at h
  cases hd : PickupAdd_destroyExisting env ap.UID w with
  | error f => rw [hd] at h; cases h
  | ok w2 =>
    rw [hd] at h
    dsimp only at h
    obtain ⟨hinv2, hnone⟩ := PickupAdd_destroyExisting_ok env ap.UID w w2 hinv hd
    split at h
    · cases h
    · cases h
      exact FirstOfUID_store w2.gPickups hinv2 _ hnone

theorem PickupsReachable_FirstOfUID (env : Env) (w : World) (h : PickupsReachable env w) :
    FirstOfUID w.gPickups := by
  induction h with
  | empty w he =>
    rw [he]
    intro k p hk
    cases hk
  | add w w1 ap _ hadd ih => exact PickupAdd_FirstOfUID env ap w w1 ih hadd
  | destroy w w1 uid i p _ _ _ _ hd ih => exact PickupDestroy_FirstOfUID env uid w w1 ih hd

/-- C26.  In every state of the pickup registry that is reachable from the empty registry
by `PickupAdd` and by `PickupDestroy` of the UID of a pickup in use, no two slots hold
pickups in use with the same UID, and for every pickup in use `PickupGetByUID` of its UID
returns the slot of that pickup, not a freed slot that still carries the UID. -/
theorem PickupsReachable_in_use_UID_unique (env : Env) (w : World)
    (h : PickupsReachable env w) :
    (∀ (i j : Nat) (p q : Pickup), w.gPickups[i]? = some p → w.gPickups[j]? = some q →
        p.isInUse = true → q.isInUse = true → p.UID = q.UID → i = j)
      ∧ (∀ (i : Nat) (p : Pickup), w.gPickups[i]? = some p → p.isInUse = true →
          PickupGetByUID w.gPickups p.UID = some i) := by
  have hinv := PickupsReachable_FirstOfUID env w h
  exact ⟨fun i j p q hi hj hp hq hu => FirstOfUID_unique _ hinv i j p q hi hj hp hq hu,
    fun i p hi hp => FirstOfUID_lookup _ hinv i p hi hp⟩

theorem PickupsReachable_in_use_UID_unique_witness :
    PickupsReachable stdEnv pickupsWorld
    ∧ ((∀ (i j : Nat) (p q : Pickup), pickupsWorld.gPickups[i]? = some p →
          pickupsWorld.gPickups[j]? = some q →
          p.isInUse = true → q.isInUse = true → p.UID = q.UID → i = j)
        ∧ (∀ (i : Nat) (p : Pickup), pickupsWorld.gPickups[i]? = some p →
            p.isInUse = true → PickupGetByUID pickupsWorld.gPickups p.UID = some i))
    ∧ pickupsWorld.gPickups.map (fun p => (p.UID, p.isInUse)) = [(2, true), (2, false)]
    ∧ PickupGetByUID pickupsWorld.gPickups 2 = some 0 :=
  have hr : PickupsReachable stdEnv pickupsWorld :=
    .add _ _ (addPickupOf 2)
      (.destroy _ _ 1 0
        (worldAfter (PickupAdd stdEnv (addPickupOf 1) emptyWorld)).gPickups[0]
        (.add _ _ (addPickupOf 2)
          (.add _ _ (addPickupOf 1) (.empty emptyWorld rfl) (by with_unfolding_all rfl))
          (by with_unfolding_all rfl))
        (by decide!) (by decide!) (by decide!) (by with_unfolding_all rfl))
      (by with_unfolding_all rfl)
  ⟨hr, PickupsReachable_in_use_UID_unique stdEnv pickupsWorld hr, by decide!, by decide!⟩

theorem seek_combined_bound (a b c d s : ℚ) (hs : 0 ≤ s) (hab : a * a + b * b ≤ 1)
    (hcd : c * c + d * d ≤ 1) :
    (a * s + c) * (a * s + c) + (b * s + d) * (b * s + d) ≤ (s + 1) * (s + 1) := by
  nlinarith [sq_nonneg (a - c), sq_nonneg (b - d), mul_nonneg hs hs,
    mul_nonneg (mul_nonneg hs hs) (sub_nonneg.mpr hab),
    mul_nonneg hs (sub_nonneg.mpr hab), mul_nonneg hs (sub_nonneg.mpr hcd)]

theorem unit_of_length_bound (x y l : ℚ) (hl : 0 < l) (h : x * x + y * y ≤ l * l) :
    x / l * (x / l) + y / l * (y / l) ≤ 1 := by
  have hl2 : 0 < l * l := mul_pos hl hl
  have : x / l * (x / l) + y / l * (y / l) = (x * x + y * y) / (l * l) := by
    field_simp
  rw [this, div_le_one hl2]
  exact h

/-- C27.  For a seek factor that is not negative, a positive `MAX(speedMin,
svec2_length(vel))`, and with `svec2_length` returning, for the velocity and for the
compensated target vector, a length that is not negative and not below the Euclidean length
(as the exact Euclidean length is), and with `svec2_is_zero` true on the zero vector, the
velocity that `SeekTowards` returns has a squared magnitude of at most the square of
`MAX(speedMin, svec2_length(vel))`. -/
theorem SeekTowards_speed_bound (env : Env) (pos vel : Vec2) (speedMin : ℚ) (targetPos : Vec2)
    (seekFactor : Int) (hs : 0 ≤ seekFactor)
    (hm : 0 < max speedMin (env.svec2_length vel))
    (hvel0 : 0 ≤ env.svec2_length vel)
    (hvel : vel.x * vel.x + vel.y * vel.y ≤ env.svec2_length vel * env.svec2_length vel)
    (ht0 : 0 ≤ env.svec2_length (svec2_subtract (svec2_subtract targetPos pos) vel))
    (ht : (svec2_subtract (svec2_subtract targetPos pos) vel).x
            * (svec2_subtract (svec2_subtract targetPos pos) vel).x
          + (svec2_subtract (svec2_subtract targetPos pos) vel).y
            * (svec2_subtract (svec2_subtract targetPos pos) vel).y
        ≤ env.svec2_length (svec2_subtract (svec2_subtract targetPos pos) vel)
          * env.svec2_length (svec2_subtract (svec2_subtract targetPos pos) vel))
    (hzero : env.svec2_is_zero svec2_zero = true) :
    (SeekTowards env pos vel speedMin targetPos seekFactor).x
        * (SeekTowards env pos vel speedMin targetPos seekFactor).x
      + (SeekTowards env pos vel speedMin targetPos seekFactor).y
        * (SeekTowards env pos vel speedMin targetPos seekFactor).y
      ≤ max speedMin (env.svec2_length vel) * max speedMin (env.svec2_length vel) := by
  have hvm : vel.x * vel.x + vel.y * vel.y
      ≤ max speedMin (env.svec2_length vel) * max speedMin (env.svec2_length vel) := by
    have h1 : env.svec2_length vel ≤ max speedMin (env.svec2_length vel) := le_max_right _ _
    have h2 : env.svec2_length vel * env.svec2_length vel
        ≤ max speedMin (env.svec2_length vel) * max speedMin (env.svec2_length vel) :=
      mul_le_mul h1 h1 hvel0 hm.le
    exact le_trans hvel h2
  unfold SeekTowards
  dsimp only
  split
  · exact hvm
  · rename_i hcond
    simp only [Bool.or_eq_true, decide_eq_true_eq, not_or, Bool.not_eq_true] at hcond
    obtain ⟨_, hnz⟩ := hcond
    generalize hT : svec2_subtract (svec2_subtract targetPos pos) vel = t at *
    generalize hM : max speedMin (env.svec2_length vel) = m at *
    generalize hL : env.svec2_length t = l at *
    have htne : t ≠ svec2_zero := by
      intro h
      rw [h, hzero] at hnz
      cases hnz
    have hsq : 0 < t.x * t.x + t.y * t.y := by
      rcases t with ⟨tx, ty⟩
      by_contra hcon
      push_neg at hcon
      have hx : tx = 0 := by nlinarith [mul_self_nonneg tx, mul_self_nonneg ty]
      have hy : ty = 0 := by nlinarith [mul_self_nonneg tx, mul_self_nonneg ty]
      apply htne
      simp only [hx, hy, svec2_zero]
    have hl : 0 < l := by
      rcases lt_or_eq_of_le ht0 with h | h
      · exact h
      · rw [← h] at ht
        linarith
    have hs1 : (0 : ℚ) ≤ (seekFactor : ℚ) := by exact_mod_cast hs
    have hs2 : (0 : ℚ) < (seekFactor : ℚ) + 1 := by linarith
    have hab := unit_of_length_bound vel.x vel.y m hm hvm
    have hcd := unit_of_length_bound t.x t.y l hl ht
    have key := seek_combined_bound (vel.x / m) (vel.y / m) (t.x / l) (t.y / l)
      (seekFactor : ℚ) hs1 hab hcd
    have hcast : (((seekFactor + 1 : Int)) : ℚ) = (seekFactor : ℚ) + 1 := by push_cast; rfl
    rw [hcast]
    have hmm : 0 ≤ m * m := mul_self_nonneg m
    have hexp : ∀ p q : ℚ, p * m / ((seekFactor : ℚ) + 1) * (p * m / ((seekFactor : ℚ) + 1))
          + q * m / ((seekFactor : ℚ) + 1) * (q * m / ((seekFactor : ℚ) + 1))
        = (p * p + q * q) * (m * m) / (((seekFactor : ℚ) + 1) * ((seekFactor : ℚ) + 1)) := by
      intro p q
      field_simp
      ring
    rw [hexp, div_le_iff₀ (mul_pos hs2 hs2)]
    calc (((vel.x / m * (seekFactor : ℚ) + t.x / l) * (vel.x / m * (seekFactor : ℚ) + t.x / l)
          + (vel.y / m * (seekFactor : ℚ) + t.y / l)
            * (vel.y / m * (seekFactor : ℚ) + t.y / l)) * (m * m))
        ≤ (((seekFactor : ℚ) + 1) * ((seekFactor : ℚ) + 1)) * (m * m) :=
          mul_le_mul_of_nonneg_right key hmm
      _ = m * m * (((seekFactor : ℚ) + 1) * ((seekFactor : ℚ) + 1)) := by ring

theorem SeekTowards_speed_bound_witness :
    (SeekTowards seekLengthEnv ⟨0, 0⟩ ⟨5, 0⟩ 2 ⟨41, 15⟩ 20).x
        * (SeekTowards seekLengthEnv ⟨0, 0⟩ ⟨5, 0⟩ 2 ⟨41, 15⟩ 20).x
      + (SeekTowards seekLengthEnv ⟨0, 0⟩ ⟨5, 0⟩ 2 ⟨41, 15⟩ 20).y
        * (SeekTowards seekLengthEnv ⟨0, 0⟩ ⟨5, 0⟩ 2 ⟨41, 15⟩ 20).y
      ≤ max 2 (seekLengthEnv.svec2_length ⟨5, 0⟩) * max 2 (seekLengthEnv.svec2_length ⟨5, 0⟩)
    ∧ SeekTowards seekLengthEnv ⟨0, 0⟩ ⟨5, 0⟩ 2 ⟨41, 15⟩ 20 = ⟨1360 / 273, 25 / 273⟩
    ∧ max 2 (seekLengthEnv.svec2_length ⟨5, 0⟩) = 5 :=
  ⟨SeekTowards_speed_bound seekLengthEnv ⟨0, 0⟩ ⟨5, 0⟩ 2 ⟨41, 15⟩ 20 (by decide)
      (by decide!) (by decide!) (by decide!) (by decide!) (by decide!) (by decide!),
    by decide!, by decide!⟩

theorem TileSet_loop_run (env : Env) (henv : RowMajor env) (tileClass tileClassAlt : Option String)
    (size : Vec2i) (hW : 0 < size.x) :
    ∀ (n : Nat) (pos : Vec2i) (m : Map), m.Size = size →
      m.tiles.length = (size.x * size.y).toNat →
      0 ≤ pos.x → pos.x < size.x → 0 ≤ pos.y →
      tileIndex size.x pos + n ≤ size.x * size.y →
      ∃ m1, TileSet_loop env tileClass tileClassAlt n pos m = .ok m1
        ∧ m1.Size = size ∧ m1.tiles.length = m.tiles.length
        ∧ ∀ k : Nat, m1.tiles[k]?
            = (m.tiles[k]?).map (fun t =>
                if tileIndex size.x pos ≤ k ∧ (k : Int) < tileIndex size.x pos + n
                then t.withClasses tileClass tileClassAlt else t) := by
  intro n
  induction n with
  | zero =>
    intro pos m hs _ _ _ _ _
    refine ⟨m, rfl, hs, rfl, ?_⟩
    intro k
    have hno : ¬ (tileIndex size.x pos ≤ k ∧ (k : Int) < tileIndex size.x pos + (0 : Nat)) := by
      intro h
      have := h.1
      have := h.2
      push_cast at *
      omega
    simp only [hno, if_false]
    cases m.tiles[k]? <;> rfl
  | succ n ih =>
    intro pos m hs hlen hx0 hx1 hy0 hfit
    subst hs
    have hidx0 : 0 ≤ tileIndex m.Size.x pos := by
      unfold tileIndex
      have := mul_nonneg hy0 hW.le
      omega
    have hyH : pos.y < m.Size.y := by
      by_contra hcon
      push_neg at hcon
      have h1 : m.Size.x * m.Size.y ≤ m.Size.x * pos.y := mul_le_mul_of_nonneg_left hcon hW.le
      unfold tileIndex at hfit
      have h2 : pos.y * m.Size.x = m.Size.x * pos.y := mul_comm _ _
      push_cast at hfit
      omega
    have hget : env.MapGetTile m pos = some (tileIndex m.Size.x pos).toNat := by
      rw [henv m pos, if_pos ⟨hx0, hx1, hy0, hyH⟩]
    have hlt : (tileIndex m.Size.x pos).toNat < m.tiles.length := by
      rw [hlen]
      push_cast at hfit
      omega
    obtain ⟨t, ht⟩ : ∃ t, m.tiles[(tileIndex m.Size.x pos).toNat]? = some t :=
      ⟨_, List.getElem?_eq_getElem hlt⟩
    unfold TileSet_loop
    rw [hget]
    dsimp only
    rw [ht]
    dsimp only
    have hnext : tileIndex m.Size.x
        (if pos.x + 1 = m.Size.x then (⟨0, pos.y + 1⟩ : Vec2i) else ⟨pos.x + 1, pos.y⟩)
        = tileIndex m.Size.x pos + 1 := by
      unfold tileIndex
      split
      · rename_i he
        dsimp only
        rw [add_mul]
        omega
      · dsimp only
        omega
    have hnx0 : 0 ≤ (if pos.x + 1 = m.Size.x then (⟨0, pos.y + 1⟩ : Vec2i)
        else ⟨pos.x + 1, pos.y⟩).x := by
      split
      · exact le_refl _
      · dsimp only; omega
    have hnx1 : (if pos.x + 1 = m.Size.x then (⟨0, pos.y + 1⟩ : Vec2i)
        else ⟨pos.x + 1, pos.y⟩).x < m.Size.x := by
      split
      · exact hW
      · rename_i hne
        dsimp only
        omega
    have hny0 : 0 ≤ (if pos.x + 1 = m.Size.x then (⟨0, pos.y + 1⟩ : Vec2i)
        else ⟨pos.x + 1, pos.y⟩).y := by
      split
      · dsimp only; omega
      · exact hy0
    obtain ⟨m1, hrun, hsize, hlen1, htiles⟩ := ih
      (if pos.x + 1 = m.Size.x then (⟨0, pos.y + 1⟩ : Vec2i) else ⟨pos.x + 1, pos.y⟩)
      (Map.mk m.Size (m.tiles.set (tileIndex m.Size.x pos).toNat
          (Tile.mk tileClass tileClassAlt t.things)))
      rfl (by rw [List.length_set]; exact hlen) hnx0 hnx1 hny0
      (by rw [hnext]; push_cast at hfit ⊢; omega)
    refine ⟨m1, hrun, hsize, ?_, ?_⟩
    · rw [hlen1, List.length_set]
    · intro k
      rw [htiles k, hnext]
      dsimp only
      by_cases hk : (tileIndex m.Size.x pos).toNat = k
      · subst hk
        rw [List.getElem?_set_self hlt, ht]
        simp only [Option.map_some']
        have h1 : ¬ (tileIndex m.Size.x pos + 1 ≤ ((tileIndex m.Size.x pos).toNat : Int)
            ∧ (((tileIndex m.Size.x pos).toNat : Nat) : Int) < tileIndex m.Size.x pos + 1 + (n : Int)) := by
          intro h
          have := h.1
          omega
        have h2 : tileIndex m.Size.x pos ≤ ((tileIndex m.Size.x pos).toNat : Int)
            ∧ (((tileIndex m.Size.x pos).toNat : Nat) : Int)
                < tileIndex m.Size.x pos + ((n + 1 : Nat) : Int) := by
          constructor
          · omega
          · push_cast; omega
        rw [if_neg h1, if_pos h2]
        rfl
      · rw [List.getElem?_set_ne hk]
        have hiff : (tileIndex m.Size.x pos + 1 ≤ (k : Int)
              ∧ (k : Int) < tileIndex m.Size.x pos + 1 + (n : Int))
            ↔ (tileIndex m.Size.x pos ≤ (k : Int)
              ∧ (k : Int) < tileIndex m.Size.x pos + ((n + 1 : Nat) : Int)) := by
          push_cast
          constructor
          · intro h; constructor <;> omega
          · intro h; constructor <;> omega
        simp only [hiff]

/-- C28.  With `MapGetTile` the row-major indexing of `map.h`, a map that holds one tile per
position, a start position inside the map and a run length `n ≥ 0` such that the `n + 1`
tiles from the start position on in row-major order are inside the map, dispatching a
`TILE_SET` event succeeds, changes only the map, and sets the class and the alternate class
of exactly the tiles with row-major index from that of the start position to `n` more; every
other tile, and every other field of those tiles, stays as it was. -/
theorem HandleGameEvent_tileSet_sets_run (env : Env) (e : GameEvent) (w : World)
    (Pos : Vec2i) (ClassName ClassAltName : String) (RunLength : Int)
    (he : e.u = .TILE_SET Pos ClassName ClassAltName RunLength)
    (henv : RowMajor env)
    (hlen : w.gMap.tiles.length = (w.gMap.Size.x * w.gMap.Size.y).toNat)
    (hx0 : 0 ≤ Pos.x) (hx1 : Pos.x < w.gMap.Size.x) (hy0 : 0 ≤ Pos.y)
    (hn : 0 ≤ RunLength)
    (hfit : tileIndex w.gMap.Size.x Pos + RunLength < w.gMap.Size.x * w.gMap.Size.y) :
    ∃ m1, HandleGameEvent env e w = .ok { w with gMap := m1 }
      ∧ m1.Size = w.gMap.Size ∧ m1.tiles.length = w.gMap.tiles.length
      ∧ ∀ k : Nat, m1.tiles[k]?
          = (w.gMap.tiles[k]?).map (fun t =>
              if tileIndex w.gMap.Size.x Pos ≤ k
                  ∧ (k : Int) ≤ tileIndex w.gMap.Size.x Pos + RunLength
              then t.withClasses (env.StrTileClass ClassName) (env.StrTileClass ClassAltName)
              else t) := by
  have hW : 0 < w.gMap.Size.x := lt_of_le_of_lt hx0 hx1
  obtain ⟨n, hnn⟩ : ∃ n : Nat, RunLength = n := ⟨RunLength.toNat, (Int.toNat_of_nonneg hn).symm⟩
  subst hnn
  obtain ⟨m1, hrun, hsize, hlen1, htiles⟩ := TileSet_loop_run env henv
    (env.StrTileClass ClassName) (env.StrTileClass ClassAltName) w.gMap.Size hW (n + 1) Pos
    w.gMap rfl hlen hx0 hx1 hy0 (by push_cast; omega)
  refine ⟨m1, ?_, hsize, hlen1, ?_⟩
  · unfold HandleGameEvent
    rw [he]
    dsimp only
    have hc : ((n : Int) + 1).toNat = n + 1 := by omega
    rw [hc, hrun]
  · intro k
    rw [htiles k]
    have hiff : (tileIndex w.gMap.Size.x Pos ≤ (k : Int)
          ∧ (k : Int) < tileIndex w.gMap.Size.x Pos + ((n + 1 : Nat) : Int))
        ↔ (tileIndex w.gMap.Size.x Pos ≤ (k : Int)
          ∧ (k : Int) ≤ tileIndex w.gMap.Size.x Pos + (n : Int)) := by
      push_cast
      constructor
      · intro h; constructor <;> omega
      · intro h; constructor <;> omega
    simp only [hiff]

theorem HandleGameEvent_tileSet_sets_run_witness :
    (∃ m1, HandleGameEvent stdEnv ⟨0, .TILE_SET ⟨2, 0⟩ "wall" "door" 2⟩ tileWorld
          = .ok { tileWorld with gMap := m1 }
      ∧ m1.Size = tileWorld.gMap.Size ∧ m1.tiles.length = tileWorld.gMap.tiles.length
      ∧ ∀ k : Nat, m1.tiles[k]?
          = (tileWorld.gMap.tiles[k]?).map (fun t =>
              if tileIndex tileWorld.gMap.Size.x ⟨2, 0⟩ ≤ k
                  ∧ (k : Int) ≤ tileIndex tileWorld.gMap.Size.x ⟨2, 0⟩ + 2
              then t.withClasses (stdEnv.StrTileClass "wall") (stdEnv.StrTileClass "door")
              else t))
    ∧ (match HandleGameEvent stdEnv ⟨0, .TILE_SET ⟨2, 0⟩ "wall" "door" 2⟩ tileWorld with
        | .ok w1 => w1.gMap.tiles.map (fun t => t.Class)
        | .error _ => [])
      = [some "floor", some "floor", some "wall", some "wall", some "wall", some "floor"] :=
  ⟨HandleGameEvent_tileSet_sets_run stdEnv ⟨0, .TILE_SET ⟨2, 0⟩ "wall" "door" 2⟩ tileWorld
      ⟨2, 0⟩ "wall" "door" 2 rfl (fun _ _ => rfl) (by decide) (by decide) (by decide)
      (by decide) (by decide) (by decide),
    by decide!⟩

end CDogs
